import Mathlib

/-!
Verification of the transaction-processor payment engine.

The Rust sources (`storage.rs`, `history.rs`, `transactions.rs`,
`transactions_processor.rs`, `errors.rs`) are shallowly embedded here:

* `rust_decimal::Decimal` amounts are modelled as integers at a fixed common
  scale; `checked_add`/`checked_sub` fail exactly when the magnitude of the
  result exceeds `decMax` (the 96-bit mantissa bound), and
  `is_sign_negative` is strict negativity (the sign-magnitude negative zero
  collapses onto `0`).
* `HashMap<K, V>` stores behind an `RwLock`, accessed by the single-writer
  engine, are modelled as association lists; the `Entry` API's
  vacant/occupied split becomes a lookup followed by an in-place update of
  the first (unique) binding or an append.
* Fallible Rust methods that mutate `&self` and return `Result<(), E>` are
  modelled as functions returning the updated store paired with
  `Option E` (`none` = `Ok(())`); a mutation performed before an early
  `return Err(..)` is threaded through, faithfully to the source.
-/

namespace TxEngine

/-- Largest magnitude representable by the `Decimal` mantissa (96 bits). -/
def decMax : Int := 2 ^ 96 - 1

/-- `Decimal::checked_add`: the sum, unless its magnitude overflows. -/
def checkedAdd (x y : Int) : Option Int :=
  if -decMax ≤ x + y ∧ x + y ≤ decMax then some (x + y) else none

/-- `Decimal::checked_sub`: the difference, unless its magnitude overflows. -/
def checkedSub (x y : Int) : Option Int :=
  if -decMax ≤ x - y ∧ x - y ≤ decMax then some (x - y) else none

/-- `Decimal::is_sign_negative`, with negative zero collapsed to `0`. -/
def is_sign_negative (x : Int) : Bool := x < 0

/-- `ClientId` (`u16` in the source; the claims do not exercise wraparound). -/
abbrev ClientId : Type := Nat

/-- `TransactionId` (`u64` in the source). -/
abbrev TransactionId : Type := Nat

/-- `storage.rs`: per-client account state. -/
structure UserAccount where
  available_amount : Int
  held_amount : Int
  locked : Bool
deriving DecidableEq

/-- `UserAccount::total_balance`. -/
def UserAccount.total_balance (a : UserAccount) : Int :=
  a.available_amount + a.held_amount

/-- `UserAccount::default`. -/
def UserAccount.default : UserAccount :=
  { available_amount := 0, held_amount := 0, locked := false }

/-- `errors.rs`: `AccountError`. -/
inductive AccountError where
  | BalanceOverflow
  | InsufficientMoney
  | AccountLocked
  | AccountNotFound
deriving DecidableEq

/-- `errors.rs`: `TransactionError`. -/
inductive TransactionError where
  | NegativeAmount
  | OriginTransactionNotFound
  | TransactionNotDisputed
  | TransactionMultipleDispute
  | EmptyAmount
deriving DecidableEq

/-- `errors.rs`: `TransactionLogError`. -/
inductive TransactionLogError where
  | InvalidTransactionType
  | MissingAmount
deriving DecidableEq

/-- `errors.rs`: `TransactionHistoryError`. -/
inductive TransactionHistoryError where
  | TransactionAlreadyExists
  | UnknownTransaction
  | InvalidStatusTransition
deriving DecidableEq

/-- The `Box<dyn Error>` carried by engine results, as a sum of the
concrete error enums the source ever boxes. -/
inductive EngineError where
  | account : AccountError → EngineError
  | transaction : TransactionError → EngineError
  | history : TransactionHistoryError → EngineError
  | log : TransactionLogError → EngineError
deriving DecidableEq

/-- A `HashMap<u64-like key, V>` modelled as an association list. -/
def alistLookup {α : Type} : List (Nat × α) → Nat → Option α
  | [], _ => none
  | (k', v) :: rest, k => if k' = k then some v else alistLookup rest k

/-- In-place mutation of an occupied entry (first binding of the key). -/
def alistUpdate {α : Type} : List (Nat × α) → Nat → α → List (Nat × α)
  | [], _, _ => []
  | (k', v') :: rest, k, v =>
      if k' = k then (k, v) :: rest else (k', v') :: alistUpdate rest k v

/-- The `HashMap<ClientId, UserAccount>` of `InMemoryAccountsStorage`. -/
abbrev AccountsMap : Type := List (ClientId × UserAccount)

/-- `HashMap::get` on the accounts map. -/
def lookupAccount (m : AccountsMap) (c : ClientId) : Option UserAccount :=
  alistLookup m c

/-- `Entry::Occupied` mutation on the accounts map. -/
def updateAccount (m : AccountsMap) (c : ClientId) (a : UserAccount) : AccountsMap :=
  alistUpdate m c a

/-- `Entry::Vacant::insert` on the accounts map. -/
def insertAccount (m : AccountsMap) (c : ClientId) (a : UserAccount) : AccountsMap :=
  m ++ [(c, a)]

/-- `InMemoryAccountsStorage::add_money`. -/
def add_money (m : AccountsMap) (user_id : ClientId) (amount : Int) :
    AccountsMap × Option AccountError :=
  match lookupAccount m user_id with
  | none =>
      (insertAccount m user_id
        { available_amount := amount, held_amount := 0, locked := false }, none)
  | some account =>
      if account.locked then (m, some .AccountLocked)
      else
        match checkedAdd account.available_amount amount with
        | some new_balance =>
            (updateAccount m user_id { account with available_amount := new_balance }, none)
        | none => (m, some .BalanceOverflow)

/-- `InMemoryAccountsStorage::withdraw_money`. -/
def withdraw_money (m : AccountsMap) (user_id : ClientId) (amount : Int) :
    AccountsMap × Option AccountError :=
  match lookupAccount m user_id with
  | none => (m, some .AccountNotFound)
  | some account =>
      if account.locked then (m, some .AccountLocked)
      else if account.available_amount < amount then (m, some .InsufficientMoney)
      else
        match checkedSub account.available_amount amount with
        | some new_balance =>
            (updateAccount m user_id { account with available_amount := new_balance }, none)
        | none => (m, some .BalanceOverflow)

/-- `InMemoryAccountsStorage::hold_money`.  Note the source mutates
`available_amount` before attempting the `held_amount` addition, so an
overflow on the second leg leaves the first leg applied. -/
def hold_money (m : AccountsMap) (user_id : ClientId) (amount : Int) :
    AccountsMap × Option AccountError :=
  match lookupAccount m user_id with
  | none => (m, some .AccountNotFound)
  | some account =>
      if account.locked then (m, some .AccountLocked)
      else if account.available_amount < amount then (m, some .InsufficientMoney)
      else
        match checkedSub account.available_amount amount with
        | none => (m, some .BalanceOverflow)
        | some new_available =>
            match checkedAdd account.held_amount amount with
            | none =>
                (updateAccount m user_id { account with available_amount := new_available },
                 some .BalanceOverflow)
            | some new_held =>
                (updateAccount m user_id
                  { account with available_amount := new_available, held_amount := new_held },
                 none)

/-- `InMemoryAccountsStorage::unhold_money`; same non-atomicity as
`hold_money`, with the roles of the two balances swapped. -/
def unhold_money (m : AccountsMap) (user_id : ClientId) (amount : Int) :
    AccountsMap × Option AccountError :=
  match lookupAccount m user_id with
  | none => (m, some .AccountNotFound)
  | some account =>
      if account.locked then (m, some .AccountLocked)
      else if account.held_amount < amount then (m, some .InsufficientMoney)
      else
        match checkedSub account.held_amount amount with
        | none => (m, some .BalanceOverflow)
        | some new_held =>
            match checkedAdd account.available_amount amount with
            | none =>
                (updateAccount m user_id { account with held_amount := new_held },
                 some .BalanceOverflow)
            | some new_available =>
                (updateAccount m user_id
                  { account with available_amount := new_available, held_amount := new_held },
                 none)

/-- `InMemoryAccountsStorage::block_account`. -/
def block_account (m : AccountsMap) (user_id : ClientId) :
    AccountsMap × Option AccountError :=
  match lookupAccount m user_id with
  | none => (m, some .AccountNotFound)
  | some account =>
      if account.locked then (m, none)
      else (updateAccount m user_id { account with locked := true }, none)

/-- `transactions_processor.rs`: `TransactionStatus`. -/
inductive TransactionStatus where
  | WithoutDisputes
  | Resolved
  | Disputed
  | Chargebacked
deriving DecidableEq

/-- `TransactionStatus::is_transition_available`. -/
def TransactionStatus.is_transition_available :
    TransactionStatus → TransactionStatus → Bool
  | .WithoutDisputes, .Disputed => true
  | .Disputed, .Chargebacked => true
  | .Disputed, .Resolved => true
  | _, _ => false

/-- `TransactionStatus::make_transition`. -/
def TransactionStatus.make_transition (s new_status : TransactionStatus) :
    Except TransactionHistoryError TransactionStatus :=
  if s.is_transition_available new_status then .ok new_status
  else .error .InvalidStatusTransition

/-- `transactions_processor.rs`: `TransactionInfoType`. -/
inductive TransactionInfoType where
  | Deposit
  | Withdrawal
deriving DecidableEq

/-- `transactions_processor.rs`: `TransactionInfo`, the history record. -/
structure TransactionInfo where
  client_id : ClientId
  transaction_id : TransactionId
  transaction_type : TransactionInfoType
  amount : Int
  status : TransactionStatus
deriving DecidableEq

/-- The `HashMap<TransactionId, TransactionInfo>` of
`InMemoryTransactionStorage`. -/
abbrev HistoryMap : Type := List (TransactionId × TransactionInfo)

/-- `HashMap::get` on the history map. -/
def lookupHistory (h : HistoryMap) (t : TransactionId) : Option TransactionInfo :=
  alistLookup h t

/-- `Entry::Occupied` mutation on the history map. -/
def updateHistory (h : HistoryMap) (t : TransactionId) (r : TransactionInfo) : HistoryMap :=
  alistUpdate h t r

/-- `InMemoryTransactionStorage::add_transaction`. -/
def add_transaction (h : HistoryMap) (transaction_info : TransactionInfo) :
    HistoryMap × Option TransactionHistoryError :=
  match lookupHistory h transaction_info.transaction_id with
  | none => (h ++ [(transaction_info.transaction_id, transaction_info)], none)
  | some _ => (h, some .TransactionAlreadyExists)

/-- `InMemoryTransactionStorage::find_transaction`. -/
def find_transaction (h : HistoryMap) (transaction_id : TransactionId) :
    Option TransactionInfo :=
  lookupHistory h transaction_id

/-- `InMemoryTransactionStorage::update_transaction_status`. -/
def update_transaction_status (h : HistoryMap) (transaction_id : TransactionId)
    (new_status : TransactionStatus) : HistoryMap × Option TransactionHistoryError :=
  match lookupHistory h transaction_id with
  | none => (h, some .UnknownTransaction)
  | some r =>
      match r.status.make_transition new_status with
      | .error e => (h, some e)
      | .ok s => (updateHistory h transaction_id { r with status := s }, none)

/-- The two stores owned by `InMemoryTransactionProcessor`. -/
structure EngineState where
  accounts : AccountsMap
  history : HistoryMap
deriving DecidableEq

/-- `InMemoryTransactionProcessor::new`: both stores empty. -/
def emptyState : EngineState := { accounts := [], history := [] }

/-- `transactions.rs`: `struct Deposit`. -/
structure Deposit where
  client_id : ClientId
  transaction_id : TransactionId
  amount : Int
deriving DecidableEq

/-- `transactions.rs`: `struct Withdrawal`. -/
structure Withdrawal where
  client_id : ClientId
  transaction_id : TransactionId
  amount : Int
deriving DecidableEq

/-- `transactions.rs`: `struct Dispute`. -/
structure Dispute where
  client_id : ClientId
  transaction_id : TransactionId
deriving DecidableEq

/-- `transactions.rs`: `struct Resolve`. -/
structure Resolve where
  client_id : ClientId
  transaction_id : TransactionId
deriving DecidableEq

/-- `transactions.rs`: `struct Chargeback`. -/
structure Chargeback where
  client_id : ClientId
  transaction_id : TransactionId
deriving DecidableEq

/-- `transactions.rs`: `enum Transaction` (via `enum_dispatch`). -/
inductive Transaction where
  | deposit : Deposit → Transaction
  | withdrawal : Withdrawal → Transaction
  | dispute : Dispute → Transaction
  | resolve : Resolve → Transaction
  | chargeback : Chargeback → Transaction
deriving DecidableEq

/-- `impl ExecTransaction for Deposit`. -/
def Deposit.execute (t : Deposit) (s : EngineState) :
    EngineState × Option EngineError :=
  if is_sign_negative t.amount then
    (s, some (.transaction .NegativeAmount))
  else
    match add_money s.accounts t.client_id t.amount with
    | (m, some e) => ({ s with accounts := m }, some (.account e))
    | (m, none) =>
        match add_transaction s.history
            { client_id := t.client_id, transaction_id := t.transaction_id,
              amount := t.amount, status := .WithoutDisputes,
              transaction_type := .Deposit } with
        | (h, some e) => ({ accounts := m, history := h }, some (.history e))
        | (h, none) => ({ accounts := m, history := h }, none)

/-- `impl ExecTransaction for Withdrawal`. -/
def Withdrawal.execute (t : Withdrawal) (s : EngineState) :
    EngineState × Option EngineError :=
  if is_sign_negative t.amount then
    (s, some (.transaction .NegativeAmount))
  else
    match withdraw_money s.accounts t.client_id t.amount with
    | (m, some e) => ({ s with accounts := m }, some (.account e))
    | (m, none) =>
        match add_transaction s.history
            { client_id := t.client_id, transaction_id := t.transaction_id,
              amount := t.amount, status := .WithoutDisputes,
              transaction_type := .Withdrawal } with
        | (h, some e) => ({ accounts := m, history := h }, some (.history e))
        | (h, none) => ({ accounts := m, history := h }, none)

/-- `impl ExecTransaction for Dispute`. -/
def Dispute.execute (t : Dispute) (s : EngineState) :
    EngineState × Option EngineError :=
  match find_transaction s.history t.transaction_id with
  | none => (s, some (.transaction .OriginTransactionNotFound))
  | some transaction_info =>
      if transaction_info.status ≠ TransactionStatus.WithoutDisputes then
        (s, some (.transaction .TransactionMultipleDispute))
      else
        match transaction_info.transaction_type with
        | .Deposit =>
            match hold_money s.accounts t.client_id transaction_info.amount with
            | (m, some e) => ({ s with accounts := m }, some (.account e))
            | (m, none) =>
                match update_transaction_status s.history t.transaction_id .Disputed with
                | (h, some e) => ({ accounts := m, history := h }, some (.history e))
                | (h, none) => ({ accounts := m, history := h }, none)
        | .Withdrawal =>
            match add_money s.accounts t.client_id transaction_info.amount with
            | (m, some e) => ({ s with accounts := m }, some (.account e))
            | (m, none) =>
                match hold_money m t.client_id transaction_info.amount with
                | (m', some e) => ({ s with accounts := m' }, some (.account e))
                | (m', none) =>
                    match update_transaction_status s.history t.transaction_id .Disputed with
                    | (h, some e) => ({ accounts := m', history := h }, some (.history e))
                    | (h, none) => ({ accounts := m', history := h }, none)

/-- `impl ExecTransaction for Resolve`. -/
def Resolve.execute (t : Resolve) (s : EngineState) :
    EngineState × Option EngineError :=
  match find_transaction s.history t.transaction_id with
  | none => (s, some (.transaction .OriginTransactionNotFound))
  | some transaction_info =>
      if transaction_info.status ≠ TransactionStatus.Disputed then
        (s, some (.transaction .TransactionNotDisputed))
      else
        match update_transaction_status s.history t.transaction_id .Resolved with
        | (h, some e) => ({ s with history := h }, some (.history e))
        | (h, none) =>
            match unhold_money s.accounts t.client_id transaction_info.amount with
            | (m, some e) => ({ accounts := m, history := h }, some (.account e))
            | (m, none) => ({ accounts := m, history := h }, none)

/-- `impl ExecTransaction for Chargeback`. -/
def Chargeback.execute (t : Chargeback) (s : EngineState) :
    EngineState × Option EngineError :=
  match find_transaction s.history t.transaction_id with
  | none => (s, some (.transaction .OriginTransactionNotFound))
  | some transaction_info =>
      if transaction_info.status ≠ TransactionStatus.Disputed then
        (s, some (.transaction .TransactionNotDisputed))
      else
        match update_transaction_status s.history t.transaction_id .Chargebacked with
        | (h, some e) => ({ s with history := h }, some (.history e))
        | (h, none) =>
            match unhold_money s.accounts t.client_id transaction_info.amount with
            | (m, some e) => ({ accounts := m, history := h }, some (.account e))
            | (m, none) =>
                match withdraw_money m t.client_id transaction_info.amount with
                | (m', some e) => ({ accounts := m', history := h }, some (.account e))
                | (m', none) =>
                    match block_account m' t.client_id with
                    | (m'', some e) => ({ accounts := m'', history := h }, some (.account e))
                    | (m'', none) => ({ accounts := m'', history := h }, none)

/-- `impl ExecTransaction for Transaction`: the dispatch site. -/
def Transaction.execute (t : Transaction) (s : EngineState) :
    EngineState × Option EngineError :=
  match t with
  | .deposit d => d.execute s
  | .withdrawal w => w.execute s
  | .dispute d => d.execute s
  | .resolve r => r.execute s
  | .chargeback c => c.execute s

/-- `transactions_processor.rs`: `TransactionLogEntry` (an input record). -/
structure TransactionLogEntry where
  transaction_type : String
  client_id : ClientId
  transaction_id : TransactionId
  amount : Option Int
deriving DecidableEq

/-- `impl TryFrom<&TransactionLogEntry> for Transaction`. -/
def tryFromEntry (e : TransactionLogEntry) :
    Except TransactionLogError Transaction :=
  if e.transaction_type = "deposit" then
    match e.amount with
    | none => .error .MissingAmount
    | some a =>
        .ok (.deposit { client_id := e.client_id,
                        transaction_id := e.transaction_id, amount := a })
  else if e.transaction_type = "withdrawal" then
    match e.amount with
    | none => .error .MissingAmount
    | some a =>
        .ok (.withdrawal { client_id := e.client_id,
                           transaction_id := e.transaction_id, amount := a })
  else if e.transaction_type = "dispute" then
    .ok (.dispute { client_id := e.client_id, transaction_id := e.transaction_id })
  else if e.transaction_type = "resolve" then
    .ok (.resolve { client_id := e.client_id, transaction_id := e.transaction_id })
  else if e.transaction_type = "chargeback" then
    .ok (.chargeback { client_id := e.client_id, transaction_id := e.transaction_id })
  else .error .InvalidTransactionType

/-- `InMemoryTransactionProcessor::process`: decode then execute. -/
def process (s : EngineState) (e : TransactionLogEntry) :
    EngineState × Option EngineError :=
  match tryFromEntry e with
  | .error err => (s, some (.log err))
  | .ok t => t.execute s

/-- Processing a whole input stream in arrival order (the driver loop). -/
def processAll (s : EngineState) (es : List TransactionLogEntry) : EngineState :=
  es.foldl (fun st e => (process st e).1) s

/-! ### Spec-side observations -/

/-- Sum of `available + held` across all accounts: the left side of the
spec's global audit. -/
def accountsTotal (m : AccountsMap) : Int :=
  (m.map fun p => p.2.available_amount + p.2.held_amount).sum

/-- Every stored account has nonnegative available and held balances. -/
def NonnegAccounts (m : AccountsMap) : Prop :=
  ∀ p ∈ m, 0 ≤ p.2.available_amount ∧ 0 ≤ p.2.held_amount

/-- Every stored history record carries a nonnegative amount. -/
def NonnegHistory (h : HistoryMap) : Prop :=
  ∀ p ∈ h, 0 ≤ p.2.amount

/-- The inductive invariant for the balance claims: every stored account is
nonnegative in both balances and every history record has a nonnegative
amount. -/
def GoodState (s : EngineState) : Prop :=
  NonnegAccounts s.accounts ∧ NonnegHistory s.history

/-- Every account-store operation leaves the map unchanged, updates the
targeted client's binding in place, or appends a binding for the targeted
client. -/
def MapShape (m X : AccountsMap) (c' : ClientId) : Prop :=
  X = m ∨ (∃ b, X = alistUpdate m c' b) ∨ (∃ b, X = m ++ [(c', b)])

/-- Rewrite the `client_id` stored in the history record of transaction
`tx` (all other fields and records untouched). -/
def setRecordClient (h : HistoryMap) (tx : TransactionId) (c' : ClientId) : HistoryMap :=
  h.map fun p => if p.1 = tx then (p.1, { p.2 with client_id := c' }) else p

/-- Transaction ids of the deposit and withdrawal events of a stream (the
events that create history records). -/
def dwIds (es : List TransactionLogEntry) : List TransactionId :=
  (es.filter fun e =>
    decide (e.transaction_type = "deposit" ∨ e.transaction_type = "withdrawal")).map
    (fun e => e.transaction_id)

/-- Sum of the amounts of the deposit events that return success, threading
the engine state through the stream (the spec's "successful deposits"). -/
def depositsOk : EngineState → List TransactionLogEntry → Int
  | _, [] => 0
  | s, e :: es =>
      (match tryFromEntry e, (process s e).2 with
       | .ok (.deposit d), none => d.amount
       | _, _ => 0) + depositsOk (process s e).1 es

/-- Sum of the amounts of the withdrawal events that return success. -/
def withdrawalsOk : EngineState → List TransactionLogEntry → Int
  | _, [] => 0
  | s, e :: es =>
      (match tryFromEntry e, (process s e).2 with
       | .ok (.withdrawal w), none => w.amount
       | _, _ => 0) + withdrawalsOk (process s e).1 es

/-- Sum of the amounts restored by successful disputes of withdrawal
records (the extra `add_money` the engine performs in that branch). -/
def disputeRestores : EngineState → List TransactionLogEntry → Int
  | _, [] => 0
  | s, e :: es =>
      (match tryFromEntry e, (process s e).2 with
       | .ok (.dispute d), none =>
           (match find_transaction s.history d.transaction_id with
            | some r =>
                (match r.transaction_type with
                 | .Withdrawal => r.amount
                 | .Deposit => 0)
            | none => 0)
       | _, _ => 0) + disputeRestores (process s e).1 es

/-- Sum of the amounts removed by successful chargeback events (of either
record kind). -/
def chargebackRemovals : EngineState → List TransactionLogEntry → Int
  | _, [] => 0
  | s, e :: es =>
      (match tryFromEntry e, (process s e).2 with
       | .ok (.chargeback cb), none =>
           (match find_transaction s.history cb.transaction_id with
            | some r => r.amount
            | none => 0)
       | _, _ => 0) + chargebackRemovals (process s e).1 es

/-- Sum of record amounts in the history store with the given status
`Chargedback` and the given kind (the original audit's "chargedback
deposits/withdrawals", read off the final history). -/
def chargedbackSum (h : HistoryMap) (ty : TransactionInfoType) : Int :=
  (h.map fun p =>
    if p.2.status = TransactionStatus.Chargebacked ∧ p.2.transaction_type = ty
    then p.2.amount else 0).sum

/-- Account-side audit invariant: distinct keys, nonnegative balances, and
a global total bounded by `k·A` after `k` events. -/
def AccOK (A k : Int) (m : AccountsMap) : Prop :=
  (m.map Prod.fst).Nodup ∧ NonnegAccounts m ∧ accountsTotal m ≤ k * A

/-- History-side audit invariant: record amounts lie in `[0, A]` and record
keys come from the already-processed deposit/withdrawal events. -/
def HistOK (A : Int) (ids : List TransactionId) (h : HistoryMap) : Prop :=
  (∀ p ∈ h, 0 ≤ p.2.amount ∧ p.2.amount ≤ A) ∧ (∀ p ∈ h, p.1 ∈ ids)

/-- The inductive invariant for the global audit. -/
def AuditInv (A k : Int) (ids : List TransactionId) (s : EngineState) : Prop :=
  AccOK A k s.accounts ∧ HistOK A ids s.history

/-! ### Association-list lemmas -/

theorem alistLookup_cons {α : Type} (k' : Nat) (v : α) (rest : List (Nat × α)) (k : Nat) :
    alistLookup ((k', v) :: rest) k = if k' = k then some v else alistLookup rest k := rfl

theorem alistUpdate_cons {α : Type} (k' : Nat) (v' : α) (rest : List (Nat × α)) (k : Nat) (v : α) :
    alistUpdate ((k', v') :: rest) k v =
      if k' = k then (k, v) :: rest else (k', v') :: alistUpdate rest k v := rfl

theorem alistLookup_mem {α : Type} {l : List (Nat × α)} {k : Nat} {v : α}
    (h : alistLookup l k = some v) : (k, v) ∈ l := by
  induction l with
  | nil => simp [alistLookup] at h
  | cons p rest ih =>
      obtain ⟨k', v'⟩ := p
      rw [alistLookup_cons] at h
      by_cases hk : k' = k
      · simp only [if_pos hk] at h
        subst hk
        have : v' = v := by simpa using h
        subst this
        exact List.mem_cons_self _ _
      · simp only [if_neg hk] at h
        exact List.mem_cons_of_mem _ (ih h)

theorem alistLookup_none_not_mem {α : Type} {l : List (Nat × α)} {k : Nat}
    (h : alistLookup l k = none) : ∀ v, (k, v) ∉ l := by
  induction l with
  | nil => simp
  | cons p rest ih =>
      obtain ⟨k', v'⟩ := p
      rw [alistLookup_cons] at h
      by_cases hk : k' = k
      · simp [if_pos hk] at h
      · simp only [if_neg hk] at h
        intro v hv
        rcases List.mem_cons.mp hv with h1 | h1
        · exact hk (congrArg Prod.fst h1).symm
        · exact ih h v h1

theorem alistLookup_update_self {α : Type} {l : List (Nat × α)} {k : Nat} {v : α}
    (h : alistLookup l k = some v) (w : α) :
    alistLookup (alistUpdate l k w) k = some w := by
  induction l with
  | nil => simp [alistLookup] at h
  | cons p rest ih =>
      obtain ⟨k', v'⟩ := p
      rw [alistLookup_cons] at h
      rw [alistUpdate_cons]
      by_cases hk : k' = k
      · rw [if_pos hk, alistLookup_cons, if_pos rfl]
      · rw [if_neg hk, alistLookup_cons, if_neg hk]
        rw [if_neg hk] at h
        exact ih h

theorem alistLookup_update_ne {α : Type} (l : List (Nat × α)) {k k' : Nat} (v : α)
    (h : k' ≠ k) : alistLookup (alistUpdate l k v) k' = alistLookup l k' := by
  induction l with
  | nil => rfl
  | cons p rest ih =>
      obtain ⟨k0, v0⟩ := p
      rw [alistUpdate_cons]
      by_cases hk : k0 = k
      · rw [if_pos hk, alistLookup_cons, alistLookup_cons, if_neg (fun hh => h hh.symm),
          hk, if_neg (fun hh => h hh.symm)]
      · rw [if_neg hk, alistLookup_cons, alistLookup_cons]
        by_cases hk' : k0 = k'
        · rw [if_pos hk', if_pos hk']
        · rw [if_neg hk', if_neg hk', ih]

theorem alistLookup_append_some {α : Type} {l : List (Nat × α)} {k : Nat} {v : α}
    (h : alistLookup l k = some v) (l' : List (Nat × α)) :
    alistLookup (l ++ l') k = some v := by
  induction l with
  | nil => simp [alistLookup] at h
  | cons p rest ih =>
      obtain ⟨k', v'⟩ := p
      rw [alistLookup_cons] at h
      rw [List.cons_append, alistLookup_cons]
      by_cases hk : k' = k
      · rw [if_pos hk]; rw [if_pos hk] at h; exact h
      · rw [if_neg hk]; rw [if_neg hk] at h; exact ih h

theorem alistLookup_append_none {α : Type} {l : List (Nat × α)} {k : Nat}
    (h : alistLookup l k = none) (l' : List (Nat × α)) :
    alistLookup (l ++ l') k = alistLookup l' k := by
  induction l with
  | nil => rfl
  | cons p rest ih =>
      obtain ⟨k', v'⟩ := p
      rw [alistLookup_cons] at h
      rw [List.cons_append, alistLookup_cons]
      by_cases hk : k' = k
      · rw [if_pos hk] at h; exact absurd h (by simp)
      · rw [if_neg hk] at h ⊢; exact ih h

theorem mem_alistUpdate {α : Type} {l : List (Nat × α)} {k : Nat} {v : α} {p : Nat × α}
    (h : p ∈ alistUpdate l k v) : p = (k, v) ∨ p ∈ l := by
  induction l with
  | nil => simp [alistUpdate] at h
  | cons q rest ih =>
      obtain ⟨k', v'⟩ := q
      rw [alistUpdate_cons] at h
      by_cases hk : k' = k
      · rw [if_pos hk] at h
        rcases List.mem_cons.mp h with h1 | h1
        · exact Or.inl h1
        · exact Or.inr (List.mem_cons_of_mem _ h1)
      · rw [if_neg hk] at h
        rcases List.mem_cons.mp h with h1 | h1
        · exact Or.inr (h1 ▸ List.mem_cons_self _ _)
        · rcases ih h1 with h2 | h2
          · exact Or.inl h2
          · exact Or.inr (List.mem_cons_of_mem _ h2)

theorem alistUpdate_keys {α : Type} (l : List (Nat × α)) (k : Nat) (v : α) :
    (alistUpdate l k v).map Prod.fst = l.map Prod.fst := by
  induction l with
  | nil => rfl
  | cons q rest ih =>
      obtain ⟨k', v'⟩ := q
      rw [alistUpdate_cons]
      by_cases hk : k' = k
      · rw [if_pos hk]; simp [hk]
      · rw [if_neg hk]; simp [ih]

/-! ### Checked-arithmetic lemmas -/

theorem decMax_nonneg : 0 ≤ decMax := by norm_num [decMax]

theorem checkedAdd_some_val {x y z : Int} (h : checkedAdd x y = some z) : z = x + y := by
  unfold checkedAdd at h
  split at h
  · exact (Option.some.injEq _ _ ▸ h).symm
  · exact absurd h (by simp)

theorem checkedSub_some_val {x y z : Int} (h : checkedSub x y = some z) : z = x - y := by
  unfold checkedSub at h
  split at h
  · exact (Option.some.injEq _ _ ▸ h).symm
  · exact absurd h (by simp)

theorem checkedAdd_of_bounds {x y : Int} (h1 : 0 ≤ x + y) (h2 : x + y ≤ decMax) :
    checkedAdd x y = some (x + y) := by
  unfold checkedAdd
  rw [if_pos ⟨le_trans (by have := decMax_nonneg; omega) h1, h2⟩]

theorem checkedSub_of_bounds {x y : Int} (h1 : 0 ≤ x - y) (h2 : x - y ≤ decMax) :
    checkedSub x y = some (x - y) := by
  unfold checkedSub
  rw [if_pos ⟨le_trans (by have := decMax_nonneg; omega) h1, h2⟩]

/-! ### Sum lemmas -/

theorem accountsTotal_nil : accountsTotal [] = 0 := rfl

theorem accountsTotal_cons (p : ClientId × UserAccount) (m : AccountsMap) :
    accountsTotal (p :: m) =
      p.2.available_amount + p.2.held_amount + accountsTotal m := by
  simp [accountsTotal]

theorem accountsTotal_append (m : AccountsMap) (c : ClientId) (b : UserAccount) :
    accountsTotal (m ++ [(c, b)]) =
      accountsTotal m + (b.available_amount + b.held_amount) := by
  simp [accountsTotal]

theorem accountsTotal_update {m : AccountsMap} {c : ClientId} {acct : UserAccount}
    (h : alistLookup m c = some acct) (b : UserAccount) :
    accountsTotal (alistUpdate m c b) =
      accountsTotal m + (b.available_amount + b.held_amount)
        - (acct.available_amount + acct.held_amount) := by
  induction m with
  | nil => simp [alistLookup] at h
  | cons p rest ih =>
      obtain ⟨k', v'⟩ := p
      rw [alistLookup_cons] at h
      rw [alistUpdate_cons]
      by_cases hk : k' = c
      · rw [if_pos hk] at h ⊢
        rw [accountsTotal_cons, accountsTotal_cons]
        have : v' = acct := by simpa using h
        subst this
        ring
      · rw [if_neg hk] at h ⊢
        rw [accountsTotal_cons, accountsTotal_cons, ih h]
        ring

theorem accountsTotal_nonneg {m : AccountsMap} (h : NonnegAccounts m) :
    0 ≤ accountsTotal m := by
  induction m with
  | nil => simp [accountsTotal]
  | cons p rest ih =>
      rw [accountsTotal_cons]
      have hp := h p (List.mem_cons_self _ _)
      have hr : NonnegAccounts rest := fun q hq => h q (List.mem_cons_of_mem _ hq)
      have := ih hr
      omega

theorem balance_le_accountsTotal {m : AccountsMap} {c : ClientId} {acct : UserAccount}
    (hnn : NonnegAccounts m) (h : (c, acct) ∈ m) :
    acct.available_amount + acct.held_amount ≤ accountsTotal m := by
  induction m with
  | nil => simp at h
  | cons p rest ih =>
      rw [accountsTotal_cons]
      have hp := hnn p (List.mem_cons_self _ _)
      have hr : NonnegAccounts rest := fun q hq => hnn q (List.mem_cons_of_mem _ hq)
      rcases List.mem_cons.mp h with h1 | h1
      · have : acct = p.2 := congrArg Prod.snd h1
        subst this
        have := accountsTotal_nonneg hr
        omega
      · have := ih hr h1
        omega

/-! ### Nonnegativity is preserved by every store operation the engine uses -/

theorem nonneg_add_money {m : AccountsMap} {c : ClientId} {a : Int}
    (hnn : NonnegAccounts m) (ha : 0 ≤ a) : NonnegAccounts (add_money m c a).1 := by
  unfold add_money
  cases hl : lookupAccount m c with
  | none =>
      intro p hp
      rcases List.mem_append.mp hp with h1 | h1
      · exact hnn p h1
      · have : p = (c, ⟨a, 0, false⟩) := by simpa using h1
        subst this
        exact ⟨ha, le_refl 0⟩
  | some acct =>
      have hmem : 0 ≤ acct.available_amount ∧ 0 ≤ acct.held_amount :=
        hnn (c, acct) (alistLookup_mem hl)
      by_cases hlk : acct.locked
      · simp only [if_pos hlk]
        exact hnn
      · simp only [if_neg hlk]
        cases hadd : checkedAdd acct.available_amount a with
        | none => exact hnn
        | some nb =>
            have hv := checkedAdd_some_val hadd
            intro p hp
            rcases mem_alistUpdate hp with h1 | h1
            · subst h1
              refine ⟨?_, hmem.2⟩
              show (0:Int) ≤ nb
              omega
            · exact hnn p h1

theorem nonneg_withdraw_money {m : AccountsMap} {c : ClientId} {a : Int}
    (hnn : NonnegAccounts m) : NonnegAccounts (withdraw_money m c a).1 := by
  unfold withdraw_money
  cases hl : lookupAccount m c with
  | none => exact hnn
  | some acct =>
      have hmem : 0 ≤ acct.available_amount ∧ 0 ≤ acct.held_amount :=
        hnn (c, acct) (alistLookup_mem hl)
      by_cases hlk : acct.locked
      · simp only [if_pos hlk]; exact hnn
      · simp only [if_neg hlk]
        by_cases hin : acct.available_amount < a
        · simp only [if_pos hin]; exact hnn
        · simp only [if_neg hin]
          cases hsub : checkedSub acct.available_amount a with
          | none => exact hnn
          | some nb =>
              have hv := checkedSub_some_val hsub
              intro p hp
              rcases mem_alistUpdate hp with h1 | h1
              · subst h1
                refine ⟨?_, hmem.2⟩
                show (0:Int) ≤ nb
                omega
              · exact hnn p h1

theorem nonneg_hold_money {m : AccountsMap} {c : ClientId} {a : Int}
    (hnn : NonnegAccounts m) (ha : 0 ≤ a) : NonnegAccounts (hold_money m c a).1 := by
  unfold hold_money
  cases hl : lookupAccount m c with
  | none => exact hnn
  | some acct =>
      have hmem : 0 ≤ acct.available_amount ∧ 0 ≤ acct.held_amount :=
        hnn (c, acct) (alistLookup_mem hl)
      by_cases hlk : acct.locked
      · simp only [if_pos hlk]; exact hnn
      · simp only [if_neg hlk]
        by_cases hin : acct.available_amount < a
        · simp only [if_pos hin]; exact hnn
        · simp only [if_neg hin]
          cases hsub : checkedSub acct.available_amount a with
          | none => exact hnn
          | some nav =>
              have hv := checkedSub_some_val hsub
              cases hadd : checkedAdd acct.held_amount a with
              | none =>
                  intro p hp
                  rcases mem_alistUpdate hp with h1 | h1
                  · subst h1
                    refine ⟨?_, hmem.2⟩
                    show (0:Int) ≤ nav
                    omega
                  · exact hnn p h1
              | some nh =>
                  have hw := checkedAdd_some_val hadd
                  intro p hp
                  rcases mem_alistUpdate hp with h1 | h1
                  · subst h1
                    refine ⟨?_, ?_⟩
                    · show (0:Int) ≤ nav
                      omega
                    · show (0:Int) ≤ nh
                      omega
                  · exact hnn p h1

theorem nonneg_unhold_money {m : AccountsMap} {c : ClientId} {a : Int}
    (hnn : NonnegAccounts m) (ha : 0 ≤ a) : NonnegAccounts (unhold_money m c a).1 := by
  unfold unhold_money
  cases hl : lookupAccount m c with
  | none => exact hnn
  | some acct =>
      have hmem : 0 ≤ acct.available_amount ∧ 0 ≤ acct.held_amount :=
        hnn (c, acct) (alistLookup_mem hl)
      by_cases hlk : acct.locked
      · simp only [if_pos hlk]; exact hnn
      · simp only [if_neg hlk]
        by_cases hin : acct.held_amount < a
        · simp only [if_pos hin]; exact hnn
        · simp only [if_neg hin]
          cases hsub : checkedSub acct.held_amount a with
          | none => exact hnn
          | some nh =>
              have hv := checkedSub_some_val hsub
              cases hadd : checkedAdd acct.available_amount a with
              | none =>
                  intro p hp
                  rcases mem_alistUpdate hp with h1 | h1
                  · subst h1
                    refine ⟨hmem.1, ?_⟩
                    show (0:Int) ≤ nh
                    omega
                  · exact hnn p h1
              | some nav =>
                  have hw := checkedAdd_some_val hadd
                  intro p hp
                  rcases mem_alistUpdate hp with h1 | h1
                  · subst h1
                    refine ⟨?_, ?_⟩
                    · show (0:Int) ≤ nav
                      omega
                    · show (0:Int) ≤ nh
                      omega
                  · exact hnn p h1

theorem nonneg_block_account {m : AccountsMap} {c : ClientId}
    (hnn : NonnegAccounts m) : NonnegAccounts (block_account m c).1 := by
  unfold block_account
  cases hl : lookupAccount m c with
  | none => exact hnn
  | some acct =>
      have hmem : 0 ≤ acct.available_amount ∧ 0 ≤ acct.held_amount :=
        hnn (c, acct) (alistLookup_mem hl)
      by_cases hlk : acct.locked
      · simp only [if_pos hlk]; exact hnn
      · simp only [if_neg hlk]
        intro p hp
        rcases mem_alistUpdate hp with h1 | h1
        · subst h1; exact hmem
        · exact hnn p h1

theorem nonneg_add_transaction {h : HistoryMap} {info : TransactionInfo}
    (hh : NonnegHistory h) (hi : 0 ≤ info.amount) :
    NonnegHistory (add_transaction h info).1 := by
  unfold add_transaction
  cases hl : lookupHistory h info.transaction_id with
  | none =>
      intro p hp
      rcases List.mem_append.mp hp with h1 | h1
      · exact hh p h1
      · have : p = (info.transaction_id, info) := by simpa using h1
        subst this
        exact hi
  | some _ => exact hh

theorem nonneg_update_transaction_status {h : HistoryMap} {tx : TransactionId}
    {ns : TransactionStatus} (hh : NonnegHistory h) :
    NonnegHistory (update_transaction_status h tx ns).1 := by
  unfold update_transaction_status
  split
  · exact hh
  · next r hl =>
      split
      · exact hh
      · next st ht =>
          intro p hp
          rcases mem_alistUpdate hp with h1 | h1
          · subst h1
            exact hh (tx, r) (alistLookup_mem hl)
          · exact hh p h1

/-! ### The balance invariant, engine level -/

theorem goodState_deposit_execute (t : Deposit) (s : EngineState)
    (hg : GoodState s) : GoodState (t.execute s).1 := by
  unfold Deposit.execute
  by_cases hneg : is_sign_negative t.amount = true
  · simp only [if_pos hneg]; exact hg
  · simp only [if_neg hneg]
    have ha : 0 ≤ t.amount := by
      unfold is_sign_negative at hneg; simpa using hneg
    have haccts := nonneg_add_money (m := s.accounts) (c := t.client_id) hg.1 ha
    split
    · next m err heq =>
        rw [heq] at haccts
        exact ⟨haccts, hg.2⟩
    · next m heq =>
        rw [heq] at haccts
        have hhist := @nonneg_add_transaction s.history
          { client_id := t.client_id, transaction_id := t.transaction_id,
            amount := t.amount, status := .WithoutDisputes,
            transaction_type := .Deposit } hg.2 ha
        split
        · next h' err heq2 =>
            rw [heq2] at hhist
            exact ⟨haccts, hhist⟩
        · next h' heq2 =>
            rw [heq2] at hhist
            exact ⟨haccts, hhist⟩

theorem goodState_withdrawal_execute (t : Withdrawal) (s : EngineState)
    (hg : GoodState s) : GoodState (t.execute s).1 := by
  unfold Withdrawal.execute
  by_cases hneg : is_sign_negative t.amount = true
  · simp only [if_pos hneg]; exact hg
  · simp only [if_neg hneg]
    have ha : 0 ≤ t.amount := by
      unfold is_sign_negative at hneg; simpa using hneg
    have haccts := nonneg_withdraw_money (m := s.accounts) (c := t.client_id)
      (a := t.amount) hg.1
    split
    · next m err heq =>
        rw [heq] at haccts
        exact ⟨haccts, hg.2⟩
    · next m heq =>
        rw [heq] at haccts
        have hhist := @nonneg_add_transaction s.history
          { client_id := t.client_id, transaction_id := t.transaction_id,
            amount := t.amount, status := .WithoutDisputes,
            transaction_type := .Withdrawal } hg.2 ha
        split
        · next h' err heq2 =>
            rw [heq2] at hhist
            exact ⟨haccts, hhist⟩
        · next h' heq2 =>
            rw [heq2] at hhist
            exact ⟨haccts, hhist⟩

theorem goodState_dispute_execute (t : Dispute) (s : EngineState)
    (hg : GoodState s) : GoodState (t.execute s).1 := by
  unfold Dispute.execute
  split
  · exact hg
  · next r hfind =>
      have hra : 0 ≤ r.amount := hg.2 (t.transaction_id, r) (alistLookup_mem hfind)
      split
      · exact hg
      · split
        · -- disputed record is a deposit: hold only
          have haccts := nonneg_hold_money (m := s.accounts) (c := t.client_id)
            hg.1 hra
          split
          · next m err heq =>
              rw [heq] at haccts
              exact ⟨haccts, hg.2⟩
          · next m heq =>
              rw [heq] at haccts
              have hhist := @nonneg_update_transaction_status
                s.history t.transaction_id .Disputed hg.2
              split
              · next h' err heq2 =>
                  rw [heq2] at hhist
                  exact ⟨haccts, hhist⟩
              · next h' heq2 =>
                  rw [heq2] at hhist
                  exact ⟨haccts, hhist⟩
        · -- disputed record is a withdrawal: restore then hold
          have haccts := nonneg_add_money (m := s.accounts) (c := t.client_id) hg.1 hra
          split
          · next m err heq =>
              rw [heq] at haccts
              exact ⟨haccts, hg.2⟩
          · next m heq =>
              rw [heq] at haccts
              have haccts2 := nonneg_hold_money (m := m) (c := t.client_id) haccts hra
              split
              · next m' err heq2 =>
                  rw [heq2] at haccts2
                  exact ⟨haccts2, hg.2⟩
              · next m' heq2 =>
                  rw [heq2] at haccts2
                  have hhist := @nonneg_update_transaction_status
                    s.history t.transaction_id .Disputed hg.2
                  split
                  · next h' err heq3 =>
                      rw [heq3] at hhist
                      exact ⟨haccts2, hhist⟩
                  · next h' heq3 =>
                      rw [heq3] at hhist
                      exact ⟨haccts2, hhist⟩

theorem goodState_resolve_execute (t : Resolve) (s : EngineState)
    (hg : GoodState s) : GoodState (t.execute s).1 := by
  unfold Resolve.execute
  split
  · exact hg
  · next r hfind =>
      have hra : 0 ≤ r.amount := hg.2 (t.transaction_id, r) (alistLookup_mem hfind)
      split
      · exact hg
      · have hhist := @nonneg_update_transaction_status
          s.history t.transaction_id .Resolved hg.2
        split
        · next h' err heq =>
            rw [heq] at hhist
            exact ⟨hg.1, hhist⟩
        · next h' heq =>
            rw [heq] at hhist
            have haccts := nonneg_unhold_money (m := s.accounts) (c := t.client_id)
              hg.1 hra
            split
            · next m err heq2 =>
                rw [heq2] at haccts
                exact ⟨haccts, hhist⟩
            · next m heq2 =>
                rw [heq2] at haccts
                exact ⟨haccts, hhist⟩

theorem goodState_chargeback_execute (t : Chargeback) (s : EngineState)
    (hg : GoodState s) : GoodState (t.execute s).1 := by
  unfold Chargeback.execute
  split
  · exact hg
  · next r hfind =>
      have hra : 0 ≤ r.amount := hg.2 (t.transaction_id, r) (alistLookup_mem hfind)
      split
      · exact hg
      · have hhist := @nonneg_update_transaction_status
          s.history t.transaction_id .Chargebacked hg.2
        split
        · next h' err heq =>
            rw [heq] at hhist
            exact ⟨hg.1, hhist⟩
        · next h' heq =>
            rw [heq] at hhist
            have haccts := nonneg_unhold_money (m := s.accounts) (c := t.client_id)
              hg.1 hra
            split
            · next m err heq2 =>
                rw [heq2] at haccts
                exact ⟨haccts, hhist⟩
            · next m heq2 =>
                rw [heq2] at haccts
                have haccts2 := nonneg_withdraw_money (m := m) (c := t.client_id)
                  (a := r.amount) haccts
                split
                · next m' err heq3 =>
                    rw [heq3] at haccts2
                    exact ⟨haccts2, hhist⟩
                · next m' heq3 =>
                    rw [heq3] at haccts2
                    have haccts3 := nonneg_block_account (m := m') (c := t.client_id) haccts2
                    split
                    · next m'' err heq4 =>
                        rw [heq4] at haccts3
                        exact ⟨haccts3, hhist⟩
                    · next m'' heq4 =>
                        rw [heq4] at haccts3
                        exact ⟨haccts3, hhist⟩

theorem goodState_process (s : EngineState) (e : TransactionLogEntry)
    (hg : GoodState s) : GoodState (process s e).1 := by
  unfold process
  split
  · exact hg
  · next t heq =>
      cases t with
      | deposit d => exact goodState_deposit_execute d s hg
      | withdrawal w => exact goodState_withdrawal_execute w s hg
      | dispute d => exact goodState_dispute_execute d s hg
      | resolve r => exact goodState_resolve_execute r s hg
      | chargeback c => exact goodState_chargeback_execute c s hg

theorem goodState_processAll (es : List TransactionLogEntry) :
    ∀ s : EngineState, GoodState s → GoodState (processAll s es) := by
  induction es with
  | nil => intro s hg; exact hg
  | cons e rest ih =>
      intro s hg
      exact ih (process s e).1 (goodState_process s e hg)

theorem goodState_empty : GoodState emptyState :=
  ⟨fun p hp => absurd hp (List.not_mem_nil p), fun p hp => absurd hp (List.not_mem_nil p)⟩

/-! ### Claim C1 -/

set_option maxRecDepth 8192 in
/-- C1 counterexample: a zero-amount deposit is not rejected with
`NegativeAmount`; it succeeds and mutates both the account store and the
history store (the source tests only `is_sign_negative`). -/
theorem zero_amount_deposit_not_rejected :
    (process emptyState ⟨"deposit", 1, 1, some 0⟩).2 = none ∧
    (process emptyState ⟨"deposit", 1, 1, some 0⟩).1.accounts =
      [(1, { available_amount := 0, held_amount := 0, locked := false })] ∧
    (process emptyState ⟨"deposit", 1, 1, some 0⟩).1.history =
      [(1, { client_id := 1, transaction_id := 1, transaction_type := .Deposit,
             amount := 0, status := .WithoutDisputes })] ∧
    (process emptyState ⟨"withdrawal", 1, 1, some 0⟩).2 ≠
      some (.transaction .NegativeAmount) := by
  decide

/-- C1 (amended): a deposit or withdrawal whose amount is strictly negative
fails with `NegativeAmount` before any store call, leaving both stores
exactly unchanged; a zero amount is not rejected by this check. -/
theorem negative_amount_rejected_before_stores (s : EngineState)
    (c : ClientId) (tx : TransactionId) (a : Int) (h : a < 0) :
    Deposit.execute ⟨c, tx, a⟩ s = (s, some (.transaction .NegativeAmount)) ∧
    Withdrawal.execute ⟨c, tx, a⟩ s = (s, some (.transaction .NegativeAmount)) := by
  have hb : is_sign_negative a = true := by
    unfold is_sign_negative; simpa using h
  constructor
  · unfold Deposit.execute
    simp only [hb, if_true]
  · unfold Withdrawal.execute
    simp only [hb, if_true]

/-- C1 witness at a concrete negative amount. -/
theorem negative_amount_rejected_before_stores_witness :
    Deposit.execute ⟨1, 1, -5⟩ emptyState =
      (emptyState, some (.transaction .NegativeAmount)) ∧
    Withdrawal.execute ⟨1, 1, -5⟩ emptyState =
      (emptyState, some (.transaction .NegativeAmount)) :=
  negative_amount_rejected_before_stores emptyState 1 1 (-5) (by decide)

/-! ### Claim C3 -/

/-- C3: starting from empty stores, after processing any event sequence every
stored account satisfies `available ≥ 0`, `held ≥ 0`, and
`total = available + held` (the sequence is arbitrary, so this covers every
intermediate point of a longer run, whether events succeeded or failed). -/
theorem balance_invariants_hold (es : List TransactionLogEntry)
    (c : ClientId) (acct : UserAccount)
    (h : lookupAccount (processAll emptyState es).accounts c = some acct) :
    0 ≤ acct.available_amount ∧ 0 ≤ acct.held_amount ∧
    acct.total_balance = acct.available_amount + acct.held_amount := by
  have hg : GoodState (processAll emptyState es) :=
    goodState_processAll es emptyState goodState_empty
  have hmem := hg.1 (c, acct) (alistLookup_mem h)
  exact ⟨hmem.1, hmem.2, rfl⟩

/-- C3 witness on a one-deposit run. -/
theorem balance_invariants_hold_witness :
    0 ≤ (UserAccount.mk 100 0 false).available_amount ∧
    0 ≤ (UserAccount.mk 100 0 false).held_amount ∧
    (UserAccount.mk 100 0 false).total_balance =
      (UserAccount.mk 100 0 false).available_amount +
        (UserAccount.mk 100 0 false).held_amount :=
  balance_invariants_hold [⟨"deposit", 1, 1, some 100⟩] 1 ⟨100, 0, false⟩ (by decide)

/-! ### Claim C7 -/

set_option maxRecDepth 8192 in
/-- C7: the scenario `deposit(1,1,100); dispute(1,1); chargeback(1,1)` ends
with client 1 at `available = 0`, `held = 0`, `total = 0`, `locked = true`;
moreover the chargeback's release and withdraw steps succeed on the
pre-chargeback state and the lock is applied to the store they produce. -/
theorem chargeback_scenario_S4 :
    (processAll emptyState [⟨"deposit", 1, 1, some 100⟩, ⟨"dispute", 1, 1, none⟩,
        ⟨"chargeback", 1, 1, none⟩]).accounts =
      [(1, { available_amount := 0, held_amount := 0, locked := true })] ∧
    UserAccount.total_balance { available_amount := 0, held_amount := 0, locked := true } = 0 ∧
    unhold_money (processAll emptyState [⟨"deposit", 1, 1, some 100⟩,
        ⟨"dispute", 1, 1, none⟩]).accounts 1 100 =
      ([(1, { available_amount := 100, held_amount := 0, locked := false })], none) ∧
    withdraw_money [(1, { available_amount := 100, held_amount := 0, locked := false })] 1 100 =
      ([(1, { available_amount := 0, held_amount := 0, locked := false })], none) ∧
    (Chargeback.execute ⟨1, 1⟩ (processAll emptyState [⟨"deposit", 1, 1, some 100⟩,
        ⟨"dispute", 1, 1, none⟩])).1.accounts =
      (block_account [(1, { available_amount := 0, held_amount := 0, locked := false })] 1).1 := by
  decide

/-! ### Claim C2 -/

set_option maxRecDepth 8192 in
/-- C2 counterexample: when the addition leg of `hold_money` (resp.
`unhold_money`) overflows, the operation returns `BalanceOverflow` but the
subtraction leg has already been applied, so the balances are not as they
were before the call. -/
theorem hold_money_overflow_mutates_available :
    (hold_money [(1, ⟨5, decMax, false⟩)] 1 5).2 = some .BalanceOverflow ∧
    (hold_money [(1, ⟨5, decMax, false⟩)] 1 5).1 = [(1, ⟨0, decMax, false⟩)] ∧
    (unhold_money [(1, ⟨decMax, 5, false⟩)] 1 5).2 = some .BalanceOverflow ∧
    (unhold_money [(1, ⟨decMax, 5, false⟩)] 1 5).1 = [(1, ⟨decMax, 0, false⟩)] := by
  decide

/-- C2 (amended): if the subtraction leg of `hold_money`/`unhold_money`
overflows, the operation fails with the map unchanged; but if the
subtraction succeeds and only the addition leg overflows, the operation
fails with the subtraction already applied (for `hold_money` the available
balance is left decreased with held unchanged, and symmetrically for
`unhold_money`). -/
theorem hold_release_not_atomic_under_overflow (m : AccountsMap) (c : ClientId)
    (a : Int) (acct : UserAccount)
    (hl : lookupAccount m c = some acct) (hlk : acct.locked = false) :
    (¬ acct.available_amount < a → checkedSub acct.available_amount a = none →
       hold_money m c a = (m, some .BalanceOverflow)) ∧
    (∀ v, ¬ acct.available_amount < a → checkedSub acct.available_amount a = some v →
       checkedAdd acct.held_amount a = none →
       hold_money m c a =
         (updateAccount m c { acct with available_amount := v }, some .BalanceOverflow)) ∧
    (¬ acct.held_amount < a → checkedSub acct.held_amount a = none →
       unhold_money m c a = (m, some .BalanceOverflow)) ∧
    (∀ v, ¬ acct.held_amount < a → checkedSub acct.held_amount a = some v →
       checkedAdd acct.available_amount a = none →
       unhold_money m c a =
         (updateAccount m c { acct with held_amount := v }, some .BalanceOverflow)) := by
  refine ⟨?_, ?_, ?_, ?_⟩
  · intro hga hsub
    simp [hold_money, hl, hlk, hga, hsub]
  · intro v hga hsub hadd
    simp [hold_money, hl, hlk, hga, hsub, hadd]
  · intro hga hsub
    simp [unhold_money, hl, hlk, hga, hsub]
  · intro v hga hsub hadd
    simp [unhold_money, hl, hlk, hga, hsub, hadd]

set_option maxRecDepth 8192 in
/-- C2 witness: the amended behavior at a concrete overflowing hold. -/
theorem hold_release_not_atomic_under_overflow_witness :
    hold_money [(1, ⟨5, decMax, false⟩)] 1 5 =
      (updateAccount [(1, ⟨5, decMax, false⟩)] 1 ⟨0, decMax, false⟩,
       some .BalanceOverflow) :=
  ((hold_release_not_atomic_under_overflow [(1, ⟨5, decMax, false⟩)] 1 5
      ⟨5, decMax, false⟩ rfl rfl).2.1) 0 (by decide) (by decide) (by decide)

/-! ### Claim C6 -/

/-- C6: the status update succeeds exactly on the three legal edges
(`Undisputed → Disputed`, `Disputed → Resolved`, `Disputed → Chargedback`);
every other pair fails with `InvalidStatusTransition` leaving the store
unchanged, and an absent transaction id fails with `UnknownTransaction`. -/
theorem status_transition_exactness (h : HistoryMap) (tx : TransactionId)
    (ns : TransactionStatus) :
    (∀ a b : TransactionStatus, a.is_transition_available b = true ↔
       ((a = .WithoutDisputes ∧ b = .Disputed) ∨ (a = .Disputed ∧ b = .Resolved) ∨
        (a = .Disputed ∧ b = .Chargebacked))) ∧
    (find_transaction h tx = none →
       update_transaction_status h tx ns = (h, some .UnknownTransaction)) ∧
    (∀ r, find_transaction h tx = some r →
       (r.status.is_transition_available ns = true →
          update_transaction_status h tx ns =
            (updateHistory h tx { r with status := ns }, none)) ∧
       (r.status.is_transition_available ns = false →
          update_transaction_status h tx ns = (h, some .InvalidStatusTransition))) := by
  refine ⟨fun a b => by cases a <;> cases b <;> decide, ?_, ?_⟩
  · intro hn
    have hn' : lookupHistory h tx = none := hn
    simp [update_transaction_status, hn']
  · intro r hr
    have hr' : lookupHistory h tx = some r := hr
    constructor
    · intro ht
      simp [update_transaction_status, hr', TransactionStatus.make_transition, ht]
    · intro ht
      simp [update_transaction_status, hr', TransactionStatus.make_transition, ht]

/-- C6 witness: a `Disputed → Resolved` update on a concrete store. -/
theorem status_transition_exactness_witness :
    update_transaction_status [(7, ⟨1, 7, .Deposit, 50, .Disputed⟩)] 7 .Resolved =
      (updateHistory [(7, ⟨1, 7, .Deposit, 50, .Disputed⟩)] 7
        ⟨1, 7, .Deposit, 50, .Resolved⟩, none) :=
  ((status_transition_exactness [(7, ⟨1, 7, .Deposit, 50, .Disputed⟩)] 7 .Resolved).2.2
      ⟨1, 7, .Deposit, 50, .Disputed⟩ rfl).1 rfl

/-! ### Locked accounts reject every mutator and stay intact -/

theorem add_money_locked {m : AccountsMap} {c : ClientId} {acct : UserAccount}
    (hc : lookupAccount m c = some acct) (hlk : acct.locked = true) (a : Int) :
    add_money m c a = (m, some .AccountLocked) := by
  unfold add_money
  simp [hc, hlk]

theorem withdraw_money_locked {m : AccountsMap} {c : ClientId} {acct : UserAccount}
    (hc : lookupAccount m c = some acct) (hlk : acct.locked = true) (a : Int) :
    withdraw_money m c a = (m, some .AccountLocked) := by
  unfold withdraw_money
  simp [hc, hlk]

theorem hold_money_locked {m : AccountsMap} {c : ClientId} {acct : UserAccount}
    (hc : lookupAccount m c = some acct) (hlk : acct.locked = true) (a : Int) :
    hold_money m c a = (m, some .AccountLocked) := by
  unfold hold_money
  simp [hc, hlk]

theorem unhold_money_locked {m : AccountsMap} {c : ClientId} {acct : UserAccount}
    (hc : lookupAccount m c = some acct) (hlk : acct.locked = true) (a : Int) :
    unhold_money m c a = (m, some .AccountLocked) := by
  unfold unhold_money
  simp [hc, hlk]

theorem block_account_locked {m : AccountsMap} {c : ClientId} {acct : UserAccount}
    (hc : lookupAccount m c = some acct) (hlk : acct.locked = true) :
    block_account m c = (m, none) := by
  unfold block_account
  simp [hc, hlk]

theorem add_money_shape (m : AccountsMap) (c' : ClientId) (a : Int) :
    MapShape m (add_money m c' a).1 c' := by
  unfold add_money MapShape
  repeat' split
  all_goals
    first
      | exact Or.inl rfl
      | exact Or.inr (Or.inl ⟨_, rfl⟩)
      | exact Or.inr (Or.inr ⟨_, rfl⟩)

theorem withdraw_money_shape (m : AccountsMap) (c' : ClientId) (a : Int) :
    MapShape m (withdraw_money m c' a).1 c' := by
  unfold withdraw_money MapShape
  repeat' split
  all_goals
    first
      | exact Or.inl rfl
      | exact Or.inr (Or.inl ⟨_, rfl⟩)
      | exact Or.inr (Or.inr ⟨_, rfl⟩)

theorem hold_money_shape (m : AccountsMap) (c' : ClientId) (a : Int) :
    MapShape m (hold_money m c' a).1 c' := by
  unfold hold_money MapShape
  repeat' split
  all_goals
    first
      | exact Or.inl rfl
      | exact Or.inr (Or.inl ⟨_, rfl⟩)
      | exact Or.inr (Or.inr ⟨_, rfl⟩)

theorem unhold_money_shape (m : AccountsMap) (c' : ClientId) (a : Int) :
    MapShape m (unhold_money m c' a).1 c' := by
  unfold unhold_money MapShape
  repeat' split
  all_goals
    first
      | exact Or.inl rfl
      | exact Or.inr (Or.inl ⟨_, rfl⟩)
      | exact Or.inr (Or.inr ⟨_, rfl⟩)

theorem block_account_shape (m : AccountsMap) (c' : ClientId) :
    MapShape m (block_account m c').1 c' := by
  unfold block_account MapShape
  repeat' split
  all_goals
    first
      | exact Or.inl rfl
      | exact Or.inr (Or.inl ⟨_, rfl⟩)
      | exact Or.inr (Or.inr ⟨_, rfl⟩)

theorem lookup_preserved_of_shape {m X : AccountsMap} {c c' : ClientId}
    {acct : UserAccount} (hs : MapShape m X c') (hne : c' ≠ c)
    (hc : lookupAccount m c = some acct) : lookupAccount X c = some acct := by
  have hne' : c ≠ c' := fun hh => hne hh.symm
  rcases hs with h1 | ⟨b, h1⟩ | ⟨b, h1⟩
  · rw [h1]; exact hc
  · rw [h1]
    show alistLookup (alistUpdate m c' b) c = some acct
    rw [alistLookup_update_ne _ _ hne']
    exact hc
  · rw [h1]
    exact alistLookup_append_some hc _

/-- The locked binding of client `c` survives any single account-store
operation, whatever client the operation targets. -/
theorem locked_survives_add_money {m : AccountsMap} {c : ClientId} {acct : UserAccount}
    (hc : lookupAccount m c = some acct) (hlk : acct.locked = true)
    (c' : ClientId) (a : Int) : lookupAccount (add_money m c' a).1 c = some acct := by
  by_cases hcc : c' = c
  · subst hcc; rw [add_money_locked hc hlk a]; exact hc
  · exact lookup_preserved_of_shape (add_money_shape m c' a) hcc hc

theorem locked_survives_withdraw_money {m : AccountsMap} {c : ClientId} {acct : UserAccount}
    (hc : lookupAccount m c = some acct) (hlk : acct.locked = true)
    (c' : ClientId) (a : Int) : lookupAccount (withdraw_money m c' a).1 c = some acct := by
  by_cases hcc : c' = c
  · subst hcc; rw [withdraw_money_locked hc hlk a]; exact hc
  · exact lookup_preserved_of_shape (withdraw_money_shape m c' a) hcc hc

theorem locked_survives_hold_money {m : AccountsMap} {c : ClientId} {acct : UserAccount}
    (hc : lookupAccount m c = some acct) (hlk : acct.locked = true)
    (c' : ClientId) (a : Int) : lookupAccount (hold_money m c' a).1 c = some acct := by
  by_cases hcc : c' = c
  · subst hcc; rw [hold_money_locked hc hlk a]; exact hc
  · exact lookup_preserved_of_shape (hold_money_shape m c' a) hcc hc

theorem locked_survives_unhold_money {m : AccountsMap} {c : ClientId} {acct : UserAccount}
    (hc : lookupAccount m c = some acct) (hlk : acct.locked = true)
    (c' : ClientId) (a : Int) : lookupAccount (unhold_money m c' a).1 c = some acct := by
  by_cases hcc : c' = c
  · subst hcc; rw [unhold_money_locked hc hlk a]; exact hc
  · exact lookup_preserved_of_shape (unhold_money_shape m c' a) hcc hc

theorem locked_survives_block_account {m : AccountsMap} {c : ClientId} {acct : UserAccount}
    (hc : lookupAccount m c = some acct) (hlk : acct.locked = true)
    (c' : ClientId) : lookupAccount (block_account m c').1 c = some acct := by
  by_cases hcc : c' = c
  · subst hcc; rw [block_account_locked hc hlk]; exact hc
  · exact lookup_preserved_of_shape (block_account_shape m c') hcc hc

theorem locked_survives_deposit_execute {s : EngineState} {c : ClientId}
    {acct : UserAccount} (hc : lookupAccount s.accounts c = some acct)
    (hlk : acct.locked = true) (t : Deposit) :
    lookupAccount (t.execute s).1.accounts c = some acct := by
  unfold Deposit.execute
  split
  · exact hc
  · have h1 := locked_survives_add_money hc hlk t.client_id t.amount
    split
    · next m err heq2 => rw [heq2] at h1; exact h1
    · next m heq2 =>
        rw [heq2] at h1
        split
        · exact h1
        · exact h1

theorem locked_survives_withdrawal_execute {s : EngineState} {c : ClientId}
    {acct : UserAccount} (hc : lookupAccount s.accounts c = some acct)
    (hlk : acct.locked = true) (t : Withdrawal) :
    lookupAccount (t.execute s).1.accounts c = some acct := by
  unfold Withdrawal.execute
  split
  · exact hc
  · have h1 := locked_survives_withdraw_money hc hlk t.client_id t.amount
    split
    · next m err heq2 => rw [heq2] at h1; exact h1
    · next m heq2 =>
        rw [heq2] at h1
        split
        · exact h1
        · exact h1

theorem locked_survives_dispute_execute {s : EngineState} {c : ClientId}
    {acct : UserAccount} (hc : lookupAccount s.accounts c = some acct)
    (hlk : acct.locked = true) (t : Dispute) :
    lookupAccount (t.execute s).1.accounts c = some acct := by
  unfold Dispute.execute
  split
  · exact hc
  · next r hfind =>
      split
      · exact hc
      · split
        · have h1 := locked_survives_hold_money hc hlk t.client_id r.amount
          split
          · next m err heq2 => rw [heq2] at h1; exact h1
          · next m heq2 =>
              rw [heq2] at h1
              split
              · exact h1
              · exact h1
        · have h1 := locked_survives_add_money hc hlk t.client_id r.amount
          split
          · next m err heq2 => rw [heq2] at h1; exact h1
          · next m heq2 =>
              rw [heq2] at h1
              have h2 := locked_survives_hold_money h1 hlk t.client_id r.amount
              split
              · next m' err heq3 => rw [heq3] at h2; exact h2
              · next m' heq3 =>
                  rw [heq3] at h2
                  split
                  · exact h2
                  · exact h2

theorem locked_survives_resolve_execute {s : EngineState} {c : ClientId}
    {acct : UserAccount} (hc : lookupAccount s.accounts c = some acct)
    (hlk : acct.locked = true) (t : Resolve) :
    lookupAccount (t.execute s).1.accounts c = some acct := by
  unfold Resolve.execute
  split
  · exact hc
  · next r hfind =>
      split
      · exact hc
      · split
        · exact hc
        · have h1 := locked_survives_unhold_money hc hlk t.client_id r.amount
          split
          · next m err heq2 => rw [heq2] at h1; exact h1
          · next m heq2 => rw [heq2] at h1; exact h1

theorem locked_survives_chargeback_execute {s : EngineState} {c : ClientId}
    {acct : UserAccount} (hc : lookupAccount s.accounts c = some acct)
    (hlk : acct.locked = true) (t : Chargeback) :
    lookupAccount (t.execute s).1.accounts c = some acct := by
  unfold Chargeback.execute
  split
  · exact hc
  · next r hfind =>
      split
      · exact hc
      · split
        · exact hc
        · have h1 := locked_survives_unhold_money hc hlk t.client_id r.amount
          split
          · next m err heq2 => rw [heq2] at h1; exact h1
          · next m heq2 =>
              rw [heq2] at h1
              have h2 := locked_survives_withdraw_money h1 hlk t.client_id r.amount
              split
              · next m' err heq3 => rw [heq3] at h2; exact h2
              · next m' heq3 =>
                  rw [heq3] at h2
                  have h3 := locked_survives_block_account h2 hlk t.client_id
                  split
                  · next m'' err heq4 => rw [heq4] at h3; exact h3
                  · next m'' heq4 => rw [heq4] at h3; exact h3

theorem locked_survives_process {s : EngineState} {c : ClientId} {acct : UserAccount}
    (hc : lookupAccount s.accounts c = some acct) (hlk : acct.locked = true)
    (e : TransactionLogEntry) :
    lookupAccount (process s e).1.accounts c = some acct := by
  unfold process
  split
  · exact hc
  · next t heq =>
      cases t with
      | deposit d => exact locked_survives_deposit_execute hc hlk d
      | withdrawal w => exact locked_survives_withdrawal_execute hc hlk w
      | dispute d => exact locked_survives_dispute_execute hc hlk d
      | resolve r => exact locked_survives_resolve_execute hc hlk r
      | chargeback cb => exact locked_survives_chargeback_execute hc hlk cb

/-! ### Claim C5 -/

/-- C5: once an account is locked, processing any further event sequence
leaves its stored record (available, held, and hence total, and the locked
flag itself) exactly unchanged. -/
theorem locked_account_frozen (s : EngineState) (c : ClientId) (acct : UserAccount)
    (hc : lookupAccount s.accounts c = some acct) (hlk : acct.locked = true)
    (es : List TransactionLogEntry) :
    lookupAccount (processAll s es).accounts c = some acct := by
  induction es generalizing s with
  | nil => exact hc
  | cons e rest ih =>
      exact ih (process s e).1 (locked_survives_process hc hlk e)

/-- C5 witness: a locked account survives a deposit, a withdrawal and a
chargeback attempt untouched. -/
theorem locked_account_frozen_witness :
    lookupAccount (processAll
        { accounts := [(1, ⟨3, 4, true⟩)],
          history := [(9, ⟨1, 9, .Deposit, 3, .Disputed⟩)] }
        [⟨"deposit", 1, 10, some 50⟩, ⟨"withdrawal", 1, 11, some 1⟩,
         ⟨"chargeback", 1, 9, none⟩]).accounts 1 = some ⟨3, 4, true⟩ :=
  locked_account_frozen
    { accounts := [(1, ⟨3, 4, true⟩)],
      history := [(9, ⟨1, 9, .Deposit, 3, .Disputed⟩)] }
    1 ⟨3, 4, true⟩ rfl rfl
    [⟨"deposit", 1, 10, some 50⟩, ⟨"withdrawal", 1, 11, some 1⟩,
     ⟨"chargeback", 1, 9, none⟩]

/-! ### The dispute family never consults the record's client id -/

theorem setRecordClient_cons (k : TransactionId) (r : TransactionInfo)
    (rest : HistoryMap) (tx : TransactionId) (c' : ClientId) :
    setRecordClient ((k, r) :: rest) tx c' =
      (if k = tx then (k, { r with client_id := c' }) else (k, r)) ::
        setRecordClient rest tx c' := by
  by_cases htx : k = tx <;> simp [setRecordClient, htx]

theorem lookupHistory_cons (k : TransactionId) (r : TransactionInfo)
    (rest : HistoryMap) (t : TransactionId) :
    lookupHistory ((k, r) :: rest) t = if k = t then some r else lookupHistory rest t := by
  show alistLookup ((k, r) :: rest) t = _
  rw [alistLookup_cons]
  rfl

theorem lookupHistory_setRecordClient (h : HistoryMap) (tx : TransactionId)
    (c' : ClientId) (t : TransactionId) :
    lookupHistory (setRecordClient h tx c') t =
      (lookupHistory h t).map
        (fun r => if t = tx then { r with client_id := c' } else r) := by
  induction h with
  | nil => rfl
  | cons p rest ih =>
      obtain ⟨k, r⟩ := p
      rw [setRecordClient_cons]
      by_cases htx : k = tx
      · rw [if_pos htx, lookupHistory_cons, lookupHistory_cons]
        by_cases hk : k = t
        · rw [if_pos hk, if_pos hk]
          simp only [Option.map_some']
          subst hk
          rw [if_pos htx]
        · rw [if_neg hk, if_neg hk]
          exact ih
      · rw [if_neg htx, lookupHistory_cons, lookupHistory_cons]
        by_cases hk : k = t
        · rw [if_pos hk, if_pos hk]
          simp only [Option.map_some']
          subst hk
          rw [if_neg htx]
        · rw [if_neg hk, if_neg hk]
          exact ih

theorem update_status_setRecordClient (h : HistoryMap) (tx : TransactionId)
    (c' : ClientId) (t : TransactionId) (ns : TransactionStatus) :
    (update_transaction_status (setRecordClient h tx c') t ns).2 =
      (update_transaction_status h t ns).2 := by
  unfold update_transaction_status
  rw [lookupHistory_setRecordClient]
  cases hf : lookupHistory h t with
  | none => rfl
  | some r =>
      simp only [Option.map_some']
      by_cases htx : t = tx
      · simp only [if_pos htx]
        cases hmt : TransactionStatus.make_transition r.status ns with
        | error e => rfl
        | ok st => rfl
      · simp only [if_neg htx]
        cases hmt : TransactionStatus.make_transition r.status ns with
        | error e => rfl
        | ok st => rfl

theorem dispute_ignores_record_client (s : EngineState) (tx : TransactionId)
    (c' : ClientId) (t : Dispute) :
    (t.execute { accounts := s.accounts, history := setRecordClient s.history tx c' }).1.accounts
        = (t.execute s).1.accounts ∧
    (t.execute { accounts := s.accounts, history := setRecordClient s.history tx c' }).2
        = (t.execute s).2 := by
  unfold Dispute.execute find_transaction
  rw [lookupHistory_setRecordClient]
  cases hf : lookupHistory s.history t.transaction_id with
  | none => exact ⟨rfl, rfl⟩
  | some r =>
      simp only [Option.map_some']
      by_cases htx : t.transaction_id = tx
      · simp only [if_pos htx]
        by_cases hst : r.status = TransactionStatus.WithoutDisputes
        · rw [if_neg (fun hh => hh hst), if_neg (fun hh => hh hst)]
          cases hty : r.transaction_type with
          | Deposit =>
              rcases hh : hold_money s.accounts t.client_id r.amount with ⟨m, e⟩
              cases e with
              | some err => exact ⟨rfl, rfl⟩
              | none =>
                  dsimp only
                  have h2 := update_status_setRecordClient s.history tx c'
                    t.transaction_id .Disputed
                  rcases hu1 : update_transaction_status (setRecordClient s.history tx c')
                      t.transaction_id .Disputed with ⟨h1, e1⟩
                  rcases hu2 : update_transaction_status s.history
                      t.transaction_id .Disputed with ⟨h2', e2⟩
                  rw [hu1, hu2] at h2
                  cases h2
                  cases e1 with
                  | none => exact ⟨rfl, rfl⟩
                  | some err => exact ⟨rfl, rfl⟩
          | Withdrawal =>
              rcases ha : add_money s.accounts t.client_id r.amount with ⟨m, e⟩
              cases e with
              | some err => exact ⟨rfl, rfl⟩
              | none =>
                  dsimp only
                  rcases hh : hold_money m t.client_id r.amount with ⟨m', e'⟩
                  cases e' with
                  | some err => exact ⟨rfl, rfl⟩
                  | none =>
                      dsimp only
                      have h2 := update_status_setRecordClient s.history tx c'
                        t.transaction_id .Disputed
                      rcases hu1 : update_transaction_status (setRecordClient s.history tx c')
                          t.transaction_id .Disputed with ⟨h1, e1⟩
                      rcases hu2 : update_transaction_status s.history
                          t.transaction_id .Disputed with ⟨h2', e2⟩
                      rw [hu1, hu2] at h2
                      cases h2
                      cases e1 with
                      | none => exact ⟨rfl, rfl⟩
                      | some err => exact ⟨rfl, rfl⟩
        · rw [if_pos hst, if_pos hst]
          exact ⟨rfl, rfl⟩
      · simp only [if_neg htx]
        by_cases hst : r.status = TransactionStatus.WithoutDisputes
        · rw [if_neg (fun hh => hh hst), if_neg (fun hh => hh hst)]
          cases hty : r.transaction_type with
          | Deposit =>
              rcases hh : hold_money s.accounts t.client_id r.amount with ⟨m, e⟩
              cases e with
              | some err => exact ⟨rfl, rfl⟩
              | none =>
                  dsimp only
                  have h2 := update_status_setRecordClient s.history tx c'
                    t.transaction_id .Disputed
                  rcases hu1 : update_transaction_status (setRecordClient s.history tx c')
                      t.transaction_id .Disputed with ⟨h1, e1⟩
                  rcases hu2 : update_transaction_status s.history
                      t.transaction_id .Disputed with ⟨h2', e2⟩
                  rw [hu1, hu2] at h2
                  cases h2
                  cases e1 with
                  | none => exact ⟨rfl, rfl⟩
                  | some err => exact ⟨rfl, rfl⟩
          | Withdrawal =>
              rcases ha : add_money s.accounts t.client_id r.amount with ⟨m, e⟩
              cases e with
              | some err => exact ⟨rfl, rfl⟩
              | none =>
                  dsimp only
                  rcases hh : hold_money m t.client_id r.amount with ⟨m', e'⟩
                  cases e' with
                  | some err => exact ⟨rfl, rfl⟩
                  | none =>
                      dsimp only
                      have h2 := update_status_setRecordClient s.history tx c'
                        t.transaction_id .Disputed
                      rcases hu1 : update_transaction_status (setRecordClient s.history tx c')
                          t.transaction_id .Disputed with ⟨h1, e1⟩
                      rcases hu2 : update_transaction_status s.history
                          t.transaction_id .Disputed with ⟨h2', e2⟩
                      rw [hu1, hu2] at h2
                      cases h2
                      cases e1 with
                      | none => exact ⟨rfl, rfl⟩
                      | some err => exact ⟨rfl, rfl⟩
        · rw [if_pos hst, if_pos hst]
          exact ⟨rfl, rfl⟩

theorem resolve_ignores_record_client (s : EngineState) (tx : TransactionId)
    (c' : ClientId) (t : Resolve) :
    (t.execute { accounts := s.accounts, history := setRecordClient s.history tx c' }).1.accounts
        = (t.execute s).1.accounts ∧
    (t.execute { accounts := s.accounts, history := setRecordClient s.history tx c' }).2
        = (t.execute s).2 := by
  unfold Resolve.execute find_transaction
  rw [lookupHistory_setRecordClient]
  cases hf : lookupHistory s.history t.transaction_id with
  | none => exact ⟨rfl, rfl⟩
  | some r =>
      simp only [Option.map_some']
      by_cases htx : t.transaction_id = tx
      · simp only [if_pos htx]
        by_cases hst : r.status = TransactionStatus.Disputed
        · rw [if_neg (fun hh => hh hst), if_neg (fun hh => hh hst)]
          have h2 := update_status_setRecordClient s.history tx c' t.transaction_id .Resolved
          rcases hu1 : update_transaction_status (setRecordClient s.history tx c')
              t.transaction_id .Resolved with ⟨h1, e1⟩
          rcases hu2 : update_transaction_status s.history
              t.transaction_id .Resolved with ⟨h2', e2⟩
          rw [hu1, hu2] at h2
          cases h2
          cases e1 with
          | some err => exact ⟨rfl, rfl⟩
          | none =>
              dsimp only
              rcases hu : unhold_money s.accounts t.client_id r.amount with ⟨m, e⟩
              cases e with
              | some err => exact ⟨rfl, rfl⟩
              | none => exact ⟨rfl, rfl⟩
        · rw [if_pos hst, if_pos hst]
          exact ⟨rfl, rfl⟩
      · simp only [if_neg htx]
        by_cases hst : r.status = TransactionStatus.Disputed
        · rw [if_neg (fun hh => hh hst), if_neg (fun hh => hh hst)]
          have h2 := update_status_setRecordClient s.history tx c' t.transaction_id .Resolved
          rcases hu1 : update_transaction_status (setRecordClient s.history tx c')
              t.transaction_id .Resolved with ⟨h1, e1⟩
          rcases hu2 : update_transaction_status s.history
              t.transaction_id .Resolved with ⟨h2', e2⟩
          rw [hu1, hu2] at h2
          cases h2
          cases e1 with
          | some err => exact ⟨rfl, rfl⟩
          | none =>
              dsimp only
              rcases hu : unhold_money s.accounts t.client_id r.amount with ⟨m, e⟩
              cases e with
              | some err => exact ⟨rfl, rfl⟩
              | none => exact ⟨rfl, rfl⟩
        · rw [if_pos hst, if_pos hst]
          exact ⟨rfl, rfl⟩

theorem chargeback_ignores_record_client (s : EngineState) (tx : TransactionId)
    (c' : ClientId) (t : Chargeback) :
    (t.execute { accounts := s.accounts, history := setRecordClient s.history tx c' }).1.accounts
        = (t.execute s).1.accounts ∧
    (t.execute { accounts := s.accounts, history := setRecordClient s.history tx c' }).2
        = (t.execute s).2 := by
  unfold Chargeback.execute find_transaction
  rw [lookupHistory_setRecordClient]
  cases hf : lookupHistory s.history t.transaction_id with
  | none => exact ⟨rfl, rfl⟩
  | some r =>
      simp only [Option.map_some']
      by_cases htx : t.transaction_id = tx
      · simp only [if_pos htx]
        by_cases hst : r.status = TransactionStatus.Disputed
        · rw [if_neg (fun hh => hh hst), if_neg (fun hh => hh hst)]
          have h2 := update_status_setRecordClient s.history tx c' t.transaction_id .Chargebacked
          rcases hu1 : update_transaction_status (setRecordClient s.history tx c')
              t.transaction_id .Chargebacked with ⟨h1, e1⟩
          rcases hu2 : update_transaction_status s.history
              t.transaction_id .Chargebacked with ⟨h2', e2⟩
          rw [hu1, hu2] at h2
          cases h2
          cases e1 with
          | some err => exact ⟨rfl, rfl⟩
          | none =>
              dsimp only
              rcases hu : unhold_money s.accounts t.client_id r.amount with ⟨m, e⟩
              cases e with
              | some err => exact ⟨rfl, rfl⟩
              | none =>
                  dsimp only
                  rcases hw : withdraw_money m t.client_id r.amount with ⟨m', e'⟩
                  cases e' with
                  | some err => exact ⟨rfl, rfl⟩
                  | none =>
                      dsimp only
                      rcases hb : block_account m' t.client_id with ⟨m'', e''⟩
                      cases e'' with
                      | some err => exact ⟨rfl, rfl⟩
                      | none => exact ⟨rfl, rfl⟩
        · rw [if_pos hst, if_pos hst]
          exact ⟨rfl, rfl⟩
      · simp only [if_neg htx]
        by_cases hst : r.status = TransactionStatus.Disputed
        · rw [if_neg (fun hh => hh hst), if_neg (fun hh => hh hst)]
          have h2 := update_status_setRecordClient s.history tx c' t.transaction_id .Chargebacked
          rcases hu1 : update_transaction_status (setRecordClient s.history tx c')
              t.transaction_id .Chargebacked with ⟨h1, e1⟩
          rcases hu2 : update_transaction_status s.history
              t.transaction_id .Chargebacked with ⟨h2', e2⟩
          rw [hu1, hu2] at h2
          cases h2
          cases e1 with
          | some err => exact ⟨rfl, rfl⟩
          | none =>
              dsimp only
              rcases hu : unhold_money s.accounts t.client_id r.amount with ⟨m, e⟩
              cases e with
              | some err => exact ⟨rfl, rfl⟩
              | none =>
                  dsimp only
                  rcases hw : withdraw_money m t.client_id r.amount with ⟨m', e'⟩
                  cases e' with
                  | some err => exact ⟨rfl, rfl⟩
                  | none =>
                      dsimp only
                      rcases hb : block_account m' t.client_id with ⟨m'', e''⟩
                      cases e'' with
                      | some err => exact ⟨rfl, rfl⟩
                      | none => exact ⟨rfl, rfl⟩
        · rw [if_pos hst, if_pos hst]
          exact ⟨rfl, rfl⟩

/-! ### Claim C9 -/

set_option maxRecDepth 8192 in
/-- C9: dispute, resolve and chargeback apply their balance mutations to the
client id carried by the event and never consult the client id stored in the
referenced record: rewriting that stored client id changes neither the
resulting account store nor the returned result.  Concretely, client 2
disputing client 1's deposit of 100 puts the 100 hold on client 2's own
account and leaves client 1 untouched. -/
theorem dispute_family_uses_event_client (s : EngineState) (tx : TransactionId)
    (c' : ClientId) (d : Dispute) (rv : Resolve) (cb : Chargeback) :
    ((d.execute { accounts := s.accounts, history := setRecordClient s.history tx c' }).1.accounts
          = (d.execute s).1.accounts ∧
      (d.execute { accounts := s.accounts, history := setRecordClient s.history tx c' }).2
          = (d.execute s).2) ∧
    ((rv.execute { accounts := s.accounts, history := setRecordClient s.history tx c' }).1.accounts
          = (rv.execute s).1.accounts ∧
      (rv.execute { accounts := s.accounts, history := setRecordClient s.history tx c' }).2
          = (rv.execute s).2) ∧
    ((cb.execute { accounts := s.accounts, history := setRecordClient s.history tx c' }).1.accounts
          = (cb.execute s).1.accounts ∧
      (cb.execute { accounts := s.accounts, history := setRecordClient s.history tx c' }).2
          = (cb.execute s).2) ∧
    (processAll emptyState [⟨"deposit", 1, 1, some 100⟩, ⟨"deposit", 2, 2, some 150⟩,
        ⟨"dispute", 2, 1, none⟩]).accounts =
      [(1, { available_amount := 100, held_amount := 0, locked := false }),
       (2, { available_amount := 50, held_amount := 100, locked := false })] :=
  ⟨dispute_ignores_record_client s tx c' d,
   resolve_ignores_record_client s tx c' rv,
   chargeback_ignores_record_client s tx c' cb,
   by decide⟩

/-! ### Terminal statuses are permanent; release failures after transition -/

theorem unhold_money_cases (m : AccountsMap) (c : ClientId) (a : Int) :
    (unhold_money m c a).2 = none ∨
    (unhold_money m c a).2 = some .BalanceOverflow ∨
    (unhold_money m c a).1 = m := by
  unfold unhold_money
  repeat' split
  all_goals
    first
      | exact Or.inl rfl
      | exact Or.inr (Or.inl rfl)
      | exact Or.inr (Or.inr rfl)

theorem terminal_no_transition {st : TransactionStatus}
    (ht : st = TransactionStatus.Resolved ∨ st = TransactionStatus.Chargebacked)
    (ns : TransactionStatus) : st.is_transition_available ns = false := by
  rcases ht with h | h <;> subst h <;> cases ns <;> rfl

theorem record_survives_add_transaction {h : HistoryMap} {tx : TransactionId}
    {r : TransactionInfo} (hr : lookupHistory h tx = some r)
    (info : TransactionInfo) :
    lookupHistory (add_transaction h info).1 tx = some r := by
  unfold add_transaction
  cases hl : lookupHistory h info.transaction_id with
  | none => exact alistLookup_append_some hr _
  | some _ => exact hr

theorem terminal_survives_update_status {h : HistoryMap} {tx : TransactionId}
    {r : TransactionInfo} (hr : lookupHistory h tx = some r)
    (ht : r.status = TransactionStatus.Resolved ∨ r.status = TransactionStatus.Chargebacked)
    (t' : TransactionId) (ns : TransactionStatus) :
    lookupHistory (update_transaction_status h t' ns).1 tx = some r := by
  unfold update_transaction_status
  cases hl : lookupHistory h t' with
  | none => exact hr
  | some r2 =>
      dsimp only
      by_cases htt : t' = tx
      · subst htt
        rw [hl] at hr
        have hrr : r2 = r := by simpa using hr
        subst hrr
        unfold TransactionStatus.make_transition
        rw [terminal_no_transition ht ns]
        simp only [Bool.false_eq_true, if_false]
        exact hl
      · cases hmt : TransactionStatus.make_transition r2.status ns with
        | error e => exact hr
        | ok st =>
            show alistLookup (alistUpdate h t' _) tx = some r
            rw [alistLookup_update_ne _ _ (fun hh => htt hh.symm)]
            exact hr

theorem terminal_survives_process {s : EngineState} {tx : TransactionId}
    {r : TransactionInfo} (hr : find_transaction s.history tx = some r)
    (ht : r.status = TransactionStatus.Resolved ∨ r.status = TransactionStatus.Chargebacked)
    (e : TransactionLogEntry) :
    find_transaction (process s e).1.history tx = some r := by
  unfold process
  split
  · exact hr
  · next t heq =>
      cases t with
      | deposit d =>
          unfold Transaction.execute Deposit.execute
          dsimp only
          split
          · exact hr
          · split
            · next m err heq2 => exact hr
            · next m heq2 =>
                have h1 := record_survives_add_transaction hr
                  { client_id := d.client_id, transaction_id := d.transaction_id,
                    amount := d.amount, status := .WithoutDisputes,
                    transaction_type := .Deposit }
                split
                · next h' err heq3 => rw [heq3] at h1; exact h1
                · next h' heq3 => rw [heq3] at h1; exact h1
      | withdrawal w =>
          unfold Transaction.execute Withdrawal.execute
          dsimp only
          split
          · exact hr
          · split
            · next m err heq2 => exact hr
            · next m heq2 =>
                have h1 := record_survives_add_transaction hr
                  { client_id := w.client_id, transaction_id := w.transaction_id,
                    amount := w.amount, status := .WithoutDisputes,
                    transaction_type := .Withdrawal }
                split
                · next h' err heq3 => rw [heq3] at h1; exact h1
                · next h' heq3 => rw [heq3] at h1; exact h1
      | dispute d =>
          unfold Transaction.execute Dispute.execute
          dsimp only
          split
          · exact hr
          · next r2 hfind =>
              split
              · exact hr
              · have h1 := terminal_survives_update_status hr ht d.transaction_id
                  TransactionStatus.Disputed
                split
                · split
                  · next m err heq2 => exact hr
                  · next m heq2 =>
                      split
                      · next h' err heq3 => rw [heq3] at h1; exact h1
                      · next h' heq3 => rw [heq3] at h1; exact h1
                · split
                  · next m err heq2 => exact hr
                  · next m heq2 =>
                      split
                      · next m' err heq3 => exact hr
                      · next m' heq3 =>
                          split
                          · next h' err heq4 => rw [heq4] at h1; exact h1
                          · next h' heq4 => rw [heq4] at h1; exact h1
      | resolve rv =>
          unfold Transaction.execute Resolve.execute
          dsimp only
          split
          · exact hr
          · next r2 hfind =>
              split
              · exact hr
              · have h1 := terminal_survives_update_status hr ht rv.transaction_id
                  TransactionStatus.Resolved
                split
                · next h' err heq2 => rw [heq2] at h1; exact h1
                · next h' heq2 =>
                    rw [heq2] at h1
                    split
                    · next m err heq3 => exact h1
                    · next m heq3 => exact h1
      | chargeback cb =>
          unfold Transaction.execute Chargeback.execute
          dsimp only
          split
          · exact hr
          · next r2 hfind =>
              split
              · exact hr
              · have h1 := terminal_survives_update_status hr ht cb.transaction_id
                  TransactionStatus.Chargebacked
                split
                · next h' err heq2 => rw [heq2] at h1; exact h1
                · next h' heq2 =>
                    rw [heq2] at h1
                    split
                    · next m err heq3 => exact h1
                    · next m heq3 =>
                        split
                        · next m' err heq4 => exact h1
                        · next m' heq4 =>
                            split
                            · next m'' err heq5 => exact h1
                            · next m'' heq5 => exact h1

theorem terminal_survives_processAll {s : EngineState} {tx : TransactionId}
    {r : TransactionInfo} (hr : find_transaction s.history tx = some r)
    (ht : r.status = TransactionStatus.Resolved ∨ r.status = TransactionStatus.Chargebacked)
    (es : List TransactionLogEntry) :
    find_transaction (processAll s es).history tx = some r := by
  induction es generalizing s with
  | nil => exact hr
  | cons e rest ih =>
      exact ih (terminal_survives_process hr ht e)

/-! ### Claim C10 -/

set_option maxRecDepth 8192 in
/-- C10 counterexample: a resolve whose release overflows on the add leg
fails, keeps the record at `Resolved`, but the held balance has been
mutated (1 → 0), so the account balances are not unchanged. -/
theorem resolve_overflow_mutates_held_after_terminal_status :
    (processAll emptyState [⟨"deposit", 1, 1, some 1⟩, ⟨"dispute", 1, 1, none⟩,
        ⟨"deposit", 1, 2, some decMax⟩]).accounts =
      [(1, { available_amount := decMax, held_amount := 1, locked := false })] ∧
    (process (processAll emptyState [⟨"deposit", 1, 1, some 1⟩, ⟨"dispute", 1, 1, none⟩,
        ⟨"deposit", 1, 2, some decMax⟩]) ⟨"resolve", 1, 1, none⟩).2 =
      some (.account .BalanceOverflow) ∧
    find_transaction (process (processAll emptyState [⟨"deposit", 1, 1, some 1⟩,
        ⟨"dispute", 1, 1, none⟩, ⟨"deposit", 1, 2, some decMax⟩])
        ⟨"resolve", 1, 1, none⟩).1.history 1 =
      some { client_id := 1, transaction_id := 1, transaction_type := .Deposit,
             amount := 1, status := .Resolved } ∧
    (process (processAll emptyState [⟨"deposit", 1, 1, some 1⟩, ⟨"dispute", 1, 1, none⟩,
        ⟨"deposit", 1, 2, some decMax⟩]) ⟨"resolve", 1, 1, none⟩).1.accounts =
      [(1, { available_amount := decMax, held_amount := 0, locked := false })] := by
  decide

/-- C10 (amended): for a resolve or chargeback of a `Disputed` record, the
history transition to the terminal status is performed before any account
mutation.  If the release then fails on a guard (missing account, locked
account, or insufficient held funds — any error other than the second-leg
`BalanceOverflow`), the event returns that error with the account store
entirely unchanged (in particular, for chargeback, no account is locked),
while the record keeps its terminal status permanently across any further
event sequence.  (If the release instead fails on the second-leg overflow,
the held decrement is already applied; see the counterexample.) -/
theorem terminal_status_before_account_mutation (s : EngineState)
    (c : ClientId) (tx : TransactionId) (r : TransactionInfo)
    (hr : find_transaction s.history tx = some r)
    (hst : r.status = TransactionStatus.Disputed)
    (e : AccountError) (he : (unhold_money s.accounts c r.amount).2 = some e)
    (hne : e ≠ AccountError.BalanceOverflow) :
    (Resolve.execute ⟨c, tx⟩ s).1.accounts = s.accounts ∧
    (Resolve.execute ⟨c, tx⟩ s).2 = some (.account e) ∧
    (Chargeback.execute ⟨c, tx⟩ s).1.accounts = s.accounts ∧
    (Chargeback.execute ⟨c, tx⟩ s).2 = some (.account e) ∧
    (∀ es, find_transaction (processAll (Resolve.execute ⟨c, tx⟩ s).1 es).history tx =
       some { r with status := TransactionStatus.Resolved }) ∧
    (∀ es, find_transaction (processAll (Chargeback.execute ⟨c, tx⟩ s).1 es).history tx =
       some { r with status := TransactionStatus.Chargebacked }) := by
  have hm : (unhold_money s.accounts c r.amount).1 = s.accounts := by
    rcases unhold_money_cases s.accounts c r.amount with h1 | h1 | h1
    · rw [h1] at he; exact absurd he (by simp)
    · rw [h1] at he
      exact absurd (Option.some.inj he).symm hne
    · exact h1
  have hun : unhold_money s.accounts c r.amount = (s.accounts, some e) := by
    have h0 : unhold_money s.accounts c r.amount =
        ((unhold_money s.accounts c r.amount).1,
         (unhold_money s.accounts c r.amount).2) := rfl
    rw [h0, hm, he]
  have hupR : update_transaction_status s.history tx TransactionStatus.Resolved =
      (updateHistory s.history tx { r with status := TransactionStatus.Resolved }, none) := by
    unfold update_transaction_status
    rw [show lookupHistory s.history tx = some r from hr]
    dsimp only
    unfold TransactionStatus.make_transition
    rw [hst]
    rfl
  have hupC : update_transaction_status s.history tx TransactionStatus.Chargebacked =
      (updateHistory s.history tx { r with status := TransactionStatus.Chargebacked }, none) := by
    unfold update_transaction_status
    rw [show lookupHistory s.history tx = some r from hr]
    dsimp only
    unfold TransactionStatus.make_transition
    rw [hst]
    rfl
  have hres : Resolve.execute ⟨c, tx⟩ s =
      ({ accounts := s.accounts,
         history := updateHistory s.history tx { r with status := TransactionStatus.Resolved } },
       some (.account e)) := by
    unfold Resolve.execute
    dsimp only
    rw [show find_transaction s.history tx = some r from hr]
    dsimp only
    rw [if_neg (fun hh => hh hst), hupR]
    dsimp only
    rw [hun]
  have hcb : Chargeback.execute ⟨c, tx⟩ s =
      ({ accounts := s.accounts,
         history := updateHistory s.history tx { r with status := TransactionStatus.Chargebacked } },
       some (.account e)) := by
    unfold Chargeback.execute
    dsimp only
    rw [show find_transaction s.history tx = some r from hr]
    dsimp only
    rw [if_neg (fun hh => hh hst), hupC]
    dsimp only
    rw [hun]
  have hfindR : find_transaction (Resolve.execute ⟨c, tx⟩ s).1.history tx =
      some { r with status := TransactionStatus.Resolved } := by
    rw [hres]
    exact alistLookup_update_self hr _
  have hfindC : find_transaction (Chargeback.execute ⟨c, tx⟩ s).1.history tx =
      some { r with status := TransactionStatus.Chargebacked } := by
    rw [hcb]
    exact alistLookup_update_self hr _
  refine ⟨by rw [hres], by rw [hres], by rw [hcb], by rw [hcb], ?_, ?_⟩
  · intro es
    exact terminal_survives_processAll hfindR (Or.inl rfl) es
  · intro es
    exact terminal_survives_processAll hfindC (Or.inr rfl) es

/-- C10 witness: a resolve and a chargeback whose release fails with
`InsufficientMoney` on a concrete state. -/
theorem terminal_status_before_account_mutation_witness :
    (Resolve.execute ⟨1, 5⟩
        { accounts := [(1, ⟨10, 0, false⟩)],
          history := [(5, ⟨1, 5, .Deposit, 7, .Disputed⟩)] }).1.accounts =
      [(1, ⟨10, 0, false⟩)] ∧
    (Resolve.execute ⟨1, 5⟩
        { accounts := [(1, ⟨10, 0, false⟩)],
          history := [(5, ⟨1, 5, .Deposit, 7, .Disputed⟩)] }).2 =
      some (.account .InsufficientMoney) ∧
    find_transaction (processAll (Resolve.execute ⟨1, 5⟩
        { accounts := [(1, ⟨10, 0, false⟩)],
          history := [(5, ⟨1, 5, .Deposit, 7, .Disputed⟩)] }).1
        [⟨"dispute", 1, 5, none⟩]).history 5 =
      some ⟨1, 5, .Deposit, 7, .Resolved⟩ := by
  have T := terminal_status_before_account_mutation
    { accounts := [(1, ⟨10, 0, false⟩)],
      history := [(5, ⟨1, 5, .Deposit, 7, .Disputed⟩)] }
    1 5 ⟨1, 5, .Deposit, 7, .Disputed⟩ (by decide) rfl
    .InsufficientMoney (by decide) (by decide)
  exact ⟨T.1, T.2.1, T.2.2.2.2.1 [⟨"dispute", 1, 5, none⟩]⟩

/-! ### Inversion lemmas for successful store operations -/

theorem add_money_absent {m : AccountsMap} {c : ClientId}
    (h : lookupAccount m c = none) (a : Int) :
    add_money m c a =
      (insertAccount m c { available_amount := a, held_amount := 0, locked := false },
       none) := by
  unfold add_money
  rw [h]

theorem add_money_ok {m m' : AccountsMap} {c : ClientId} {a : Int} {acct : UserAccount}
    (hac : lookupAccount m c = some acct) (h : add_money m c a = (m', none)) :
    acct.locked = false ∧
    ∃ nb, checkedAdd acct.available_amount a = some nb ∧
      m' = updateAccount m c { acct with available_amount := nb } := by
  unfold add_money at h
  rw [hac] at h
  dsimp only at h
  by_cases hlk : acct.locked = true
  · rw [if_pos hlk] at h
    exact absurd (congrArg Prod.snd h) (by simp)
  · rw [if_neg hlk] at h
    refine ⟨by simpa using hlk, ?_⟩
    cases hca : checkedAdd acct.available_amount a with
    | none =>
        rw [hca] at h
        exact absurd (congrArg Prod.snd h) (by simp)
    | some nb =>
        rw [hca] at h
        dsimp only at h
        exact ⟨nb, rfl, (congrArg Prod.fst h).symm⟩

theorem withdraw_money_ok {m m' : AccountsMap} {c : ClientId} {a : Int} {acct : UserAccount}
    (hac : lookupAccount m c = some acct) (h : withdraw_money m c a = (m', none)) :
    acct.locked = false ∧ ¬ acct.available_amount < a ∧
    ∃ nb, checkedSub acct.available_amount a = some nb ∧
      m' = updateAccount m c { acct with available_amount := nb } := by
  unfold withdraw_money at h
  rw [hac] at h
  dsimp only at h
  by_cases hlk : acct.locked = true
  · rw [if_pos hlk] at h
    exact absurd (congrArg Prod.snd h) (by simp)
  · rw [if_neg hlk] at h
    by_cases hlt : acct.available_amount < a
    · rw [if_pos hlt] at h
      exact absurd (congrArg Prod.snd h) (by simp)
    · rw [if_neg hlt] at h
      refine ⟨by simpa using hlk, hlt, ?_⟩
      cases hcs : checkedSub acct.available_amount a with
      | none =>
          rw [hcs] at h
          exact absurd (congrArg Prod.snd h) (by simp)
      | some nb =>
          rw [hcs] at h
          dsimp only at h
          exact ⟨nb, rfl, (congrArg Prod.fst h).symm⟩

theorem hold_money_ok {m m' : AccountsMap} {c : ClientId} {a : Int} {acct : UserAccount}
    (hac : lookupAccount m c = some acct) (h : hold_money m c a = (m', none)) :
    acct.locked = false ∧ ¬ acct.available_amount < a ∧
    ∃ nv nh, checkedSub acct.available_amount a = some nv ∧
      checkedAdd acct.held_amount a = some nh ∧
      m' = updateAccount m c
        { acct with available_amount := nv, held_amount := nh } := by
  unfold hold_money at h
  rw [hac] at h
  dsimp only at h
  by_cases hlk : acct.locked = true
  · rw [if_pos hlk] at h
    exact absurd (congrArg Prod.snd h) (by simp)
  · rw [if_neg hlk] at h
    by_cases hlt : acct.available_amount < a
    · rw [if_pos hlt] at h
      exact absurd (congrArg Prod.snd h) (by simp)
    · rw [if_neg hlt] at h
      refine ⟨by simpa using hlk, hlt, ?_⟩
      cases hcs : checkedSub acct.available_amount a with
      | none =>
          rw [hcs] at h
          exact absurd (congrArg Prod.snd h) (by simp)
      | some nv =>
          rw [hcs] at h
          cases hca : checkedAdd acct.held_amount a with
          | none =>
              rw [hca] at h
              exact absurd (congrArg Prod.snd h) (by simp)
          | some nh =>
              rw [hca] at h
              dsimp only at h
              exact ⟨nv, nh, rfl, rfl, (congrArg Prod.fst h).symm⟩

theorem unhold_money_ok {m m' : AccountsMap} {c : ClientId} {a : Int} {acct : UserAccount}
    (hac : lookupAccount m c = some acct) (h : unhold_money m c a = (m', none)) :
    acct.locked = false ∧ ¬ acct.held_amount < a ∧
    ∃ nh nv, checkedSub acct.held_amount a = some nh ∧
      checkedAdd acct.available_amount a = some nv ∧
      m' = updateAccount m c
        { acct with available_amount := nv, held_amount := nh } := by
  unfold unhold_money at h
  rw [hac] at h
  dsimp only at h
  by_cases hlk : acct.locked = true
  · rw [if_pos hlk] at h
    exact absurd (congrArg Prod.snd h) (by simp)
  · rw [if_neg hlk] at h
    by_cases hlt : acct.held_amount < a
    · rw [if_pos hlt] at h
      exact absurd (congrArg Prod.snd h) (by simp)
    · rw [if_neg hlt] at h
      refine ⟨by simpa using hlk, hlt, ?_⟩
      cases hcs : checkedSub acct.held_amount a with
      | none =>
          rw [hcs] at h
          exact absurd (congrArg Prod.snd h) (by simp)
      | some nh =>
          rw [hcs] at h
          cases hca : checkedAdd acct.available_amount a with
          | none =>
              rw [hca] at h
              exact absurd (congrArg Prod.snd h) (by simp)
          | some nv =>
              rw [hca] at h
              dsimp only at h
              exact ⟨nh, nv, rfl, rfl, (congrArg Prod.fst h).symm⟩

theorem add_money_err {m m' : AccountsMap} {c : ClientId} {a : Int} {e : AccountError}
    (h : add_money m c a = (m', some e)) : m' = m := by
  unfold add_money at h
  cases hl : lookupAccount m c with
  | none =>
      rw [hl] at h
      exact absurd (congrArg Prod.snd h) (by simp)
  | some acct =>
      rw [hl] at h
      dsimp only at h
      by_cases hlk : acct.locked = true
      · rw [if_pos hlk] at h
        exact (congrArg Prod.fst h).symm
      · rw [if_neg hlk] at h
        cases hca : checkedAdd acct.available_amount a with
        | none =>
            rw [hca] at h
            exact (congrArg Prod.fst h).symm
        | some nb =>
            rw [hca] at h
            exact absurd (congrArg Prod.snd h) (by simp)

theorem withdraw_money_err {m m' : AccountsMap} {c : ClientId} {a : Int} {e : AccountError}
    (h : withdraw_money m c a = (m', some e)) : m' = m := by
  unfold withdraw_money at h
  cases hl : lookupAccount m c with
  | none =>
      rw [hl] at h
      exact (congrArg Prod.fst h).symm
  | some acct =>
      rw [hl] at h
      dsimp only at h
      by_cases hlk : acct.locked = true
      · rw [if_pos hlk] at h
        exact (congrArg Prod.fst h).symm
      · rw [if_neg hlk] at h
        by_cases hlt : acct.available_amount < a
        · rw [if_pos hlt] at h
          exact (congrArg Prod.fst h).symm
        · rw [if_neg hlt] at h
          cases hcs : checkedSub acct.available_amount a with
          | none =>
              rw [hcs] at h
              exact (congrArg Prod.fst h).symm
          | some nb =>
              rw [hcs] at h
              exact absurd (congrArg Prod.snd h) (by simp)

theorem update_status_ok {h : HistoryMap} {tx : TransactionId} {r : TransactionInfo}
    (hr : lookupHistory h tx = some r) {ns : TransactionStatus}
    (ht : r.status.is_transition_available ns = true) :
    update_transaction_status h tx ns =
      (updateHistory h tx { r with status := ns }, none) := by
  unfold update_transaction_status
  rw [hr]
  dsimp only
  unfold TransactionStatus.make_transition
  rw [ht]
  rfl

/-! ### Claim C8 -/

/-- C8: successfully disputing an undisputed withdrawal record and then
successfully resolving it leaves the account with available increased by
exactly the withdrawal amount relative to the pre-dispute state, and held
back at its pre-dispute value. -/
theorem dispute_then_resolve_restores_withdrawal (s : EngineState) (c : ClientId)
    (tx : TransactionId) (r : TransactionInfo) (acct : UserAccount)
    (hr : find_transaction s.history tx = some r)
    (hty : r.transaction_type = TransactionInfoType.Withdrawal)
    (hst : r.status = TransactionStatus.WithoutDisputes)
    (hcl : r.client_id = c)
    (hac : lookupAccount s.accounts c = some acct)
    (h₁ : (Dispute.execute ⟨c, tx⟩ s).2 = none)
    (h₂ : (Resolve.execute ⟨c, tx⟩ (Dispute.execute ⟨c, tx⟩ s).1).2 = none) :
    ∃ acct',
      lookupAccount (Resolve.execute ⟨c, tx⟩ (Dispute.execute ⟨c, tx⟩ s).1).1.accounts c
        = some acct' ∧
      acct'.available_amount = acct.available_amount + r.amount ∧
      acct'.held_amount = acct.held_amount := by
  rcases ha : add_money s.accounts c r.amount with ⟨m1, e1⟩
  cases e1 with
  | some err =>
      exfalso
      have hD : Dispute.execute ⟨c, tx⟩ s =
          ({ s with accounts := m1 }, some (.account err)) := by
        unfold Dispute.execute
        dsimp only
        rw [show find_transaction s.history tx = some r from hr]
        dsimp only
        rw [if_neg (fun hh => hh hst), hty]
        dsimp only
        rw [ha]
      rw [hD] at h₁
      simp at h₁
  | none =>
      rcases hh : hold_money m1 c r.amount with ⟨m2, e2⟩
      cases e2 with
      | some err =>
          exfalso
          have hD : Dispute.execute ⟨c, tx⟩ s =
              ({ s with accounts := m2 }, some (.account err)) := by
            unfold Dispute.execute
            dsimp only
            rw [show find_transaction s.history tx = some r from hr]
            dsimp only
            rw [if_neg (fun hh => hh hst), hty]
            dsimp only
            rw [ha]
            dsimp only
            rw [hh]
          rw [hD] at h₁
          simp at h₁
      | none =>
          have htr1 : r.status.is_transition_available TransactionStatus.Disputed = true := by
            rw [hst]
            rfl
          have hup := update_status_ok (show lookupHistory s.history tx = some r from hr) htr1
          have hD : Dispute.execute ⟨c, tx⟩ s =
              ({ accounts := m2,
                 history := updateHistory s.history tx
                   { r with status := TransactionStatus.Disputed } }, none) := by
            unfold Dispute.execute
            dsimp only
            rw [show find_transaction s.history tx = some r from hr]
            dsimp only
            rw [if_neg (fun hh => hh hst), hty]
            dsimp only
            rw [ha]
            dsimp only
            rw [hh]
            dsimp only
            rw [hup, hty]
          obtain ⟨hlk, nb, hca, hm1⟩ := add_money_ok hac ha
          have hac1 : lookupAccount m1 c =
              some ⟨nb, acct.held_amount, acct.locked⟩ := by
            rw [hm1]
            exact alistLookup_update_self hac _
          obtain ⟨hlk1, hge1, nv, nh, hcs1, hca1, hm2⟩ := hold_money_ok hac1 hh
          have hac2 : lookupAccount m2 c = some ⟨nv, nh, acct.locked⟩ := by
            rw [hm2]
            exact alistLookup_update_self hac1 _
          have hfd : find_transaction
              (updateHistory s.history tx { r with status := TransactionStatus.Disputed }) tx =
              some { r with status := TransactionStatus.Disputed } :=
            alistLookup_update_self hr _
          rw [hD] at h₂ ⊢
          rcases hu : unhold_money m2 c r.amount with ⟨m3, e3⟩
          cases e3 with
          | some err =>
              exfalso
              have hRe : Resolve.execute ⟨c, tx⟩
                  ({ accounts := m2,
                     history := updateHistory s.history tx
                       { r with status := TransactionStatus.Disputed } } : EngineState) =
                  ({ accounts := m3,
                     history := updateHistory
                       (updateHistory s.history tx { r with status := TransactionStatus.Disputed })
                       tx { r with status := TransactionStatus.Resolved } },
                   some (.account err)) := by
                unfold Resolve.execute
                dsimp only
                rw [hfd]
                dsimp only
                rw [if_neg (fun hh => hh rfl)]
                rw [update_status_ok hfd (by rfl)]
                dsimp only
                rw [hu]
              rw [hRe] at h₂
              simp at h₂
          | none =>
              have hRe : Resolve.execute ⟨c, tx⟩
                  ({ accounts := m2,
                     history := updateHistory s.history tx
                       { r with status := TransactionStatus.Disputed } } : EngineState) =
                  ({ accounts := m3,
                     history := updateHistory
                       (updateHistory s.history tx { r with status := TransactionStatus.Disputed })
                       tx { r with status := TransactionStatus.Resolved } }, none) := by
                unfold Resolve.execute
                dsimp only
                rw [hfd]
                dsimp only
                rw [if_neg (fun hh => hh rfl)]
                rw [update_status_ok hfd (by rfl)]
                dsimp only
                rw [hu]
              obtain ⟨hlk2, hge2, nh2, nv2, hcs2, hca2, hm3⟩ := unhold_money_ok hac2 hu
              rw [hRe]
              refine ⟨⟨nv2, nh2, acct.locked⟩, ?_, ?_, ?_⟩
              · show lookupAccount m3 c = some ⟨nv2, nh2, acct.locked⟩
                rw [hm3]
                exact alistLookup_update_self hac2 _
              · show nv2 = acct.available_amount + r.amount
                have e1 : nb = acct.available_amount + r.amount := checkedAdd_some_val hca
                have e2 : nv = nb - r.amount := checkedSub_some_val hcs1
                have e3 : nv2 = nv + r.amount := checkedAdd_some_val hca2
                omega
              · show nh2 = acct.held_amount
                have e1 : nh = acct.held_amount + r.amount := checkedAdd_some_val hca1
                have e2 : nh2 = nh - r.amount := checkedSub_some_val hcs2
                omega

set_option maxRecDepth 8192 in
/-- C8 witness on a concrete pre-dispute state. -/
theorem dispute_then_resolve_restores_withdrawal_witness :
    ∃ acct',
      lookupAccount (Resolve.execute ⟨1, 2⟩ (Dispute.execute ⟨1, 2⟩
        { accounts := [(1, ⟨70, 0, false⟩)],
          history := [(2, ⟨1, 2, .Withdrawal, 30, .WithoutDisputes⟩)] }).1).1.accounts 1
        = some acct' ∧
      acct'.available_amount = (70 : Int) + 30 ∧
      acct'.held_amount = (0 : Int) :=
  dispute_then_resolve_restores_withdrawal
    { accounts := [(1, ⟨70, 0, false⟩)],
      history := [(2, ⟨1, 2, .Withdrawal, 30, .WithoutDisputes⟩)] }
    1 2 ⟨1, 2, .Withdrawal, 30, .WithoutDisputes⟩ ⟨70, 0, false⟩
    rfl rfl rfl rfl rfl (by decide) (by decide)


/-! ### Forward evaluation lemmas for the store operations -/

theorem withdraw_money_absent {m : AccountsMap} {c : ClientId}
    (h : lookupAccount m c = none) (a : Int) :
    withdraw_money m c a = (m, some .AccountNotFound) := by
  unfold withdraw_money
  rw [h]

theorem hold_money_absent {m : AccountsMap} {c : ClientId}
    (h : lookupAccount m c = none) (a : Int) :
    hold_money m c a = (m, some .AccountNotFound) := by
  unfold hold_money
  rw [h]

theorem unhold_money_absent {m : AccountsMap} {c : ClientId}
    (h : lookupAccount m c = none) (a : Int) :
    unhold_money m c a = (m, some .AccountNotFound) := by
  unfold unhold_money
  rw [h]

theorem add_money_present {m : AccountsMap} {c : ClientId} {a : Int} {acct : UserAccount}
    (hac : lookupAccount m c = some acct) (hlk : acct.locked = false)
    {v : Int} (hca : checkedAdd acct.available_amount a = some v) :
    add_money m c a = (updateAccount m c { acct with available_amount := v }, none) := by
  unfold add_money
  rw [hac]
  dsimp only
  rw [if_neg (by rw [hlk]; exact Bool.false_ne_true), hca]

theorem withdraw_money_insufficient {m : AccountsMap} {c : ClientId} {a : Int}
    {acct : UserAccount} (hac : lookupAccount m c = some acct)
    (hlk : acct.locked = false) (hlt : acct.available_amount < a) :
    withdraw_money m c a = (m, some .InsufficientMoney) := by
  unfold withdraw_money
  rw [hac]
  dsimp only
  rw [if_neg (by rw [hlk]; exact Bool.false_ne_true), if_pos hlt]

theorem withdraw_money_present {m : AccountsMap} {c : ClientId} {a : Int}
    {acct : UserAccount} (hac : lookupAccount m c = some acct)
    (hlk : acct.locked = false) (hlt : ¬ acct.available_amount < a)
    {v : Int} (hcs : checkedSub acct.available_amount a = some v) :
    withdraw_money m c a =
      (updateAccount m c { acct with available_amount := v }, none) := by
  unfold withdraw_money
  rw [hac]
  dsimp only
  rw [if_neg (by rw [hlk]; exact Bool.false_ne_true), if_neg hlt, hcs]

theorem hold_money_insufficient {m : AccountsMap} {c : ClientId} {a : Int}
    {acct : UserAccount} (hac : lookupAccount m c = some acct)
    (hlk : acct.locked = false) (hlt : acct.available_amount < a) :
    hold_money m c a = (m, some .InsufficientMoney) := by
  unfold hold_money
  rw [hac]
  dsimp only
  rw [if_neg (by rw [hlk]; exact Bool.false_ne_true), if_pos hlt]

theorem hold_money_present {m : AccountsMap} {c : ClientId} {a : Int}
    {acct : UserAccount} (hac : lookupAccount m c = some acct)
    (hlk : acct.locked = false) (hlt : ¬ acct.available_amount < a)
    {nv nh : Int} (hcs : checkedSub acct.available_amount a = some nv)
    (hca : checkedAdd acct.held_amount a = some nh) :
    hold_money m c a =
      (updateAccount m c { acct with available_amount := nv, held_amount := nh },
       none) := by
  unfold hold_money
  rw [hac]
  dsimp only
  rw [if_neg (by rw [hlk]; exact Bool.false_ne_true), if_neg hlt, hcs, hca]

theorem unhold_money_insufficient {m : AccountsMap} {c : ClientId} {a : Int}
    {acct : UserAccount} (hac : lookupAccount m c = some acct)
    (hlk : acct.locked = false) (hlt : acct.held_amount < a) :
    unhold_money m c a = (m, some .InsufficientMoney) := by
  unfold unhold_money
  rw [hac]
  dsimp only
  rw [if_neg (by rw [hlk]; exact Bool.false_ne_true), if_pos hlt]

theorem unhold_money_present {m : AccountsMap} {c : ClientId} {a : Int}
    {acct : UserAccount} (hac : lookupAccount m c = some acct)
    (hlk : acct.locked = false) (hlt : ¬ acct.held_amount < a)
    {nh nv : Int} (hcs : checkedSub acct.held_amount a = some nh)
    (hca : checkedAdd acct.available_amount a = some nv) :
    unhold_money m c a =
      (updateAccount m c { acct with available_amount := nv, held_amount := nh },
       none) := by
  unfold unhold_money
  rw [hac]
  dsimp only
  rw [if_neg (by rw [hlk]; exact Bool.false_ne_true), if_neg hlt, hcs, hca]

theorem block_account_present {m : AccountsMap} {c : ClientId} {acct : UserAccount}
    (hac : lookupAccount m c = some acct) (hlk : acct.locked = false) :
    block_account m c = (updateAccount m c { acct with locked := true }, none) := by
  unfold block_account
  rw [hac]
  dsimp only
  rw [if_neg (by rw [hlk]; exact Bool.false_ne_true)]

theorem add_transaction_absent {h : HistoryMap} {info : TransactionInfo}
    (hl : lookupHistory h info.transaction_id = none) :
    add_transaction h info = (h ++ [(info.transaction_id, info)], none) := by
  unfold add_transaction
  rw [hl]

/-! ### Key and membership lemmas for the audit invariant -/

theorem alistLookup_none_not_key {α : Type} {l : List (Nat × α)} {k : Nat}
    (h : alistLookup l k = none) : k ∉ l.map Prod.fst := by
  intro hk
  rcases List.mem_map.mp hk with ⟨p, hp, hpk⟩
  refine alistLookup_none_not_mem h p.2 ?_
  have hpe : p = (k, p.2) := by
    obtain ⟨p1, p2⟩ := p
    simp only at hpk
    rw [hpk]
  rw [← hpe]
  exact hp

theorem keys_withdraw_money (m : AccountsMap) (c : ClientId) (a : Int) :
    (withdraw_money m c a).1.map Prod.fst = m.map Prod.fst := by
  unfold withdraw_money
  repeat' split
  all_goals first
    | rfl
    | exact alistUpdate_keys m c _

theorem keys_hold_money (m : AccountsMap) (c : ClientId) (a : Int) :
    (hold_money m c a).1.map Prod.fst = m.map Prod.fst := by
  unfold hold_money
  repeat' split
  all_goals first
    | rfl
    | exact alistUpdate_keys m c _

theorem keys_unhold_money (m : AccountsMap) (c : ClientId) (a : Int) :
    (unhold_money m c a).1.map Prod.fst = m.map Prod.fst := by
  unfold unhold_money
  repeat' split
  all_goals first
    | rfl
    | exact alistUpdate_keys m c _

theorem keys_block_account (m : AccountsMap) (c : ClientId) :
    (block_account m c).1.map Prod.fst = m.map Prod.fst := by
  unfold block_account
  repeat' split
  all_goals first
    | rfl
    | exact alistUpdate_keys m c _

theorem nodup_keys_add_money {m : AccountsMap} (c : ClientId) (a : Int)
    (hnd : (m.map Prod.fst).Nodup) :
    ((add_money m c a).1.map Prod.fst).Nodup := by
  unfold add_money
  cases hl : lookupAccount m c with
  | none =>
      show ((insertAccount m c _).map Prod.fst).Nodup
      unfold insertAccount
      rw [List.map_append]
      simp only [List.map_cons, List.map_nil]
      rw [List.nodup_append]
      exact ⟨hnd, List.nodup_singleton c,
        by
          intro x hx hx2
          have : x = c := by simpa using hx2
          subst this
          exact alistLookup_none_not_key hl hx⟩
  | some acct =>
      by_cases hlk : acct.locked = true
      · simp only [if_pos hlk]; exact hnd
      · simp only [if_neg hlk]
        cases hca : checkedAdd acct.available_amount a with
        | none => exact hnd
        | some nb =>
            show ((updateAccount m c _).map Prod.fst).Nodup
            unfold updateAccount
            rw [alistUpdate_keys]
            exact hnd

theorem update_status_amount_mem {h : HistoryMap} {tx : TransactionId}
    {ns : TransactionStatus} {p : TransactionId × TransactionInfo}
    (hp : p ∈ (update_transaction_status h tx ns).1) :
    ∃ q ∈ h, p.1 = q.1 ∧ p.2.amount = q.2.amount := by
  unfold update_transaction_status at hp
  cases hl : lookupHistory h tx with
  | none =>
      rw [hl] at hp
      exact ⟨p, hp, rfl, rfl⟩
  | some r =>
      rw [hl] at hp
      dsimp only at hp
      cases hmt : TransactionStatus.make_transition r.status ns with
      | error e =>
          rw [hmt] at hp
          exact ⟨p, hp, rfl, rfl⟩
      | ok st =>
          rw [hmt] at hp
          dsimp only at hp
          rcases mem_alistUpdate hp with h1 | h1
          · subst h1
            exact ⟨(tx, r), alistLookup_mem hl, rfl, rfl⟩
          · exact ⟨p, h1, rfl, rfl⟩

theorem add_transaction_mem {h : HistoryMap} {info : TransactionInfo}
    {p : TransactionId × TransactionInfo}
    (hp : p ∈ (add_transaction h info).1) :
    p ∈ h ∨ p = (info.transaction_id, info) := by
  unfold add_transaction at hp
  cases hl : lookupHistory h info.transaction_id with
  | none =>
      rw [hl] at hp
      rcases List.mem_append.mp hp with h1 | h1
      · exact Or.inl h1
      · exact Or.inr (by simpa using h1)
  | some _ =>
      rw [hl] at hp
      exact Or.inl hp

/-! ### Forward decode lemmas -/

theorem tryFromEntry_eq_deposit {e : TransactionLogEntry}
    (h : e.transaction_type = "deposit") {a : Int} (ham : e.amount = some a) :
    tryFromEntry e =
      .ok (.deposit { client_id := e.client_id,
                      transaction_id := e.transaction_id, amount := a }) := by
  unfold tryFromEntry
  rw [if_pos h, ham]

theorem tryFromEntry_deposit_missing {e : TransactionLogEntry}
    (h : e.transaction_type = "deposit") (ham : e.amount = none) :
    tryFromEntry e = .error .MissingAmount := by
  unfold tryFromEntry
  rw [if_pos h, ham]

theorem tryFromEntry_eq_withdrawal {e : TransactionLogEntry}
    (h : e.transaction_type = "withdrawal") {a : Int} (ham : e.amount = some a) :
    tryFromEntry e =
      .ok (.withdrawal { client_id := e.client_id,
                         transaction_id := e.transaction_id, amount := a }) := by
  unfold tryFromEntry
  rw [if_neg (by rw [h]; decide), if_pos h, ham]

theorem tryFromEntry_withdrawal_missing {e : TransactionLogEntry}
    (h : e.transaction_type = "withdrawal") (ham : e.amount = none) :
    tryFromEntry e = .error .MissingAmount := by
  unfold tryFromEntry
  rw [if_neg (by rw [h]; decide), if_pos h, ham]

theorem tryFromEntry_eq_dispute {e : TransactionLogEntry}
    (h : e.transaction_type = "dispute") :
    tryFromEntry e =
      .ok (.dispute { client_id := e.client_id,
                      transaction_id := e.transaction_id }) := by
  unfold tryFromEntry
  rw [if_neg (by rw [h]; decide), if_neg (by rw [h]; decide), if_pos h]

theorem tryFromEntry_eq_resolve {e : TransactionLogEntry}
    (h : e.transaction_type = "resolve") :
    tryFromEntry e =
      .ok (.resolve { client_id := e.client_id,
                      transaction_id := e.transaction_id }) := by
  unfold tryFromEntry
  rw [if_neg (by rw [h]; decide), if_neg (by rw [h]; decide),
    if_neg (by rw [h]; decide), if_pos h]

theorem tryFromEntry_eq_chargeback {e : TransactionLogEntry}
    (h : e.transaction_type = "chargeback") :
    tryFromEntry e =
      .ok (.chargeback { client_id := e.client_id,
                         transaction_id := e.transaction_id }) := by
  unfold tryFromEntry
  rw [if_neg (by rw [h]; decide), if_neg (by rw [h]; decide),
    if_neg (by rw [h]; decide), if_neg (by rw [h]; decide), if_pos h]

theorem tryFromEntry_invalid {e : TransactionLogEntry}
    (h1 : ¬ e.transaction_type = "deposit") (h2 : ¬ e.transaction_type = "withdrawal")
    (h3 : ¬ e.transaction_type = "dispute") (h4 : ¬ e.transaction_type = "resolve")
    (h5 : ¬ e.transaction_type = "chargeback") :
    tryFromEntry e = .error .InvalidTransactionType := by
  unfold tryFromEntry
  rw [if_neg h1, if_neg h2, if_neg h3, if_neg h4, if_neg h5]

theorem process_ok {e : TransactionLogEntry} {t : Transaction}
    (htf : tryFromEntry e = .ok t) (s : EngineState) :
    process s e = t.execute s := by
  unfold process
  rw [htf]

theorem process_decode_fail {e : TransactionLogEntry} {err : TransactionLogError}
    (htf : tryFromEntry e = .error err) (s : EngineState) :
    process s e = (s, some (.log err)) := by
  unfold process
  rw [htf]


/-! ### Audit invariant component lemmas -/

theorem accOK_mono {A k k' : Int} {m : AccountsMap} (h : AccOK A k m)
    (hA : 0 ≤ A) (hkk : k ≤ k') : AccOK A k' m := by
  refine ⟨h.1, h.2.1, ?_⟩
  have h1 := h.2.2
  have h2 : k * A ≤ k' * A := mul_le_mul_of_nonneg_right hkk hA
  linarith

theorem histOK_mono_ids {A : Int} {ids ids' : List TransactionId} {h : HistoryMap}
    (hh : HistOK A ids h) (hsub : ∀ t ∈ ids, t ∈ ids') : HistOK A ids' h :=
  ⟨hh.1, fun p hp => hsub p.1 (hh.2 p hp)⟩

theorem histOK_update_status {A : Int} {ids : List TransactionId} {h : HistoryMap}
    (hh : HistOK A ids h) (tx : TransactionId) (ns : TransactionStatus) :
    HistOK A ids (update_transaction_status h tx ns).1 := by
  constructor
  · intro p hp
    obtain ⟨q, hq, hk1, ha1⟩ := update_status_amount_mem hp
    rw [ha1]
    exact hh.1 q hq
  · intro p hp
    obtain ⟨q, hq, hk1, ha1⟩ := update_status_amount_mem hp
    rw [hk1]
    exact hh.2 q hq

theorem histOK_append {A : Int} {ids : List TransactionId} {h : HistoryMap}
    (hh : HistOK A ids h) {t0 : TransactionId} {info : TransactionInfo}
    (h0 : 0 ≤ info.amount) (h1 : info.amount ≤ A) (h2 : t0 ∈ ids) :
    HistOK A ids (h ++ [(t0, info)]) := by
  constructor
  · intro p hp
    rcases List.mem_append.mp hp with hm | hm
    · exact hh.1 p hm
    · have : p = (t0, info) := by simpa using hm
      subst this
      exact ⟨h0, h1⟩
  · intro p hp
    rcases List.mem_append.mp hp with hm | hm
    · exact hh.2 p hm
    · have : p = (t0, info) := by simpa using hm
      subst this
      exact h2

theorem acct_le_total {A k : Int} {m : AccountsMap} {c : ClientId} {acct : UserAccount}
    (hAcc : AccOK A k m) (hla : lookupAccount m c = some acct) :
    0 ≤ acct.available_amount ∧ 0 ≤ acct.held_amount ∧
    acct.available_amount ≤ accountsTotal m ∧
    acct.held_amount ≤ accountsTotal m := by
  have hmem := alistLookup_mem hla
  have hnn : 0 ≤ acct.available_amount ∧ 0 ≤ acct.held_amount := hAcc.2.1 _ hmem
  have hle := balance_le_accountsTotal hAcc.2.1 hmem
  exact ⟨hnn.1, hnn.2, by linarith [hnn.2], by linarith [hnn.1]⟩

theorem is_sign_negative_false {a : Int} (h : 0 ≤ a) : is_sign_negative a = false := by
  unfold is_sign_negative
  simpa using not_lt.mpr h

theorem is_sign_negative_true {a : Int} (h : a < 0) : is_sign_negative a = true := by
  unfold is_sign_negative
  simpa using h

/-! ### Single-event audit sums -/

theorem depositsOk_single (s : EngineState) (e : TransactionLogEntry) :
    depositsOk s [e] =
      (match tryFromEntry e, (process s e).2 with
       | .ok (.deposit d), none => d.amount
       | _, _ => 0) := by
  show _ + (0 : Int) = _
  rw [add_zero]

theorem withdrawalsOk_single (s : EngineState) (e : TransactionLogEntry) :
    withdrawalsOk s [e] =
      (match tryFromEntry e, (process s e).2 with
       | .ok (.withdrawal w), none => w.amount
       | _, _ => 0) := by
  show _ + (0 : Int) = _
  rw [add_zero]

theorem disputeRestores_single (s : EngineState) (e : TransactionLogEntry) :
    disputeRestores s [e] =
      (match tryFromEntry e, (process s e).2 with
       | .ok (.dispute d), none =>
           (match find_transaction s.history d.transaction_id with
            | some r =>
                (match r.transaction_type with
                 | .Withdrawal => r.amount
                 | .Deposit => 0)
            | none => 0)
       | _, _ => 0) := by
  show _ + (0 : Int) = _
  rw [add_zero]

theorem chargebackRemovals_single (s : EngineState) (e : TransactionLogEntry) :
    chargebackRemovals s [e] =
      (match tryFromEntry e, (process s e).2 with
       | .ok (.chargeback cb), none =>
           (match find_transaction s.history cb.transaction_id with
            | some r => r.amount
            | none => 0)
       | _, _ => 0) := by
  show _ + (0 : Int) = _
  rw [add_zero]


theorem delta_zero_of_err {s : EngineState} {e : TransactionLogEntry}
    (herr : (process s e).2 ≠ none) :
    depositsOk s [e] - withdrawalsOk s [e] + disputeRestores s [e]
      - chargebackRemovals s [e] = 0 := by
  rw [depositsOk_single, withdrawalsOk_single, disputeRestores_single,
    chargebackRemovals_single]
  cases hpr : (process s e).2 with
  | none => exact absurd hpr herr
  | some err =>
      cases htf : tryFromEntry e with
      | error e2 => simp
      | ok t => cases t <;> simp

theorem auditInv_step_noop {A k : Int} {ids ids' : List TransactionId} {s : EngineState}
    (hInv : AuditInv A k ids s) (hA : 0 ≤ A)
    (hsub : ∀ t ∈ ids, t ∈ ids') : AuditInv A (k + 1) ids' s :=
  ⟨accOK_mono hInv.1 hA (by linarith), histOK_mono_ids hInv.2 hsub⟩

theorem audit_step_deposit (s : EngineState) (e : TransactionLogEntry) (A k : Int)
    (ids : List TransactionId) (hInv : AuditInv A k ids s) (hA : 0 ≤ A) (hk : 0 ≤ k)
    (hAmt : ∀ a, e.amount = some a → a ≤ A)
    (hdep : e.transaction_type = "deposit")
    (hfresh : e.transaction_id ∉ ids)
    (hBound : (k + 1) * A ≤ decMax) :
    AuditInv A (k + 1) (ids ++ [e.transaction_id]) (process s e).1 ∧
    accountsTotal (process s e).1.accounts =
      accountsTotal s.accounts +
        (depositsOk s [e] - withdrawalsOk s [e] + disputeRestores s [e]
          - chargebackRemovals s [e]) := by
  have hsub : ∀ t ∈ ids, t ∈ ids ++ [e.transaction_id] :=
    fun t ht => List.mem_append_left _ ht
  have hkk1 : k * A + A = (k + 1) * A := by ring
  cases ham : e.amount with
  | none =>
      have htf := tryFromEntry_deposit_missing hdep ham
      have hps := process_decode_fail htf s
      have herr : (process s e).2 ≠ none := by rw [hps]; simp
      refine ⟨?_, ?_⟩
      · rw [hps]
        exact auditInv_step_noop hInv hA hsub
      · rw [delta_zero_of_err herr, hps]
        dsimp only
        omega
  | some a =>
      have hA' : a ≤ A := hAmt a ham
      have htf := tryFromEntry_eq_deposit hdep ham
      by_cases hneg : a < 0
      · have hex : Deposit.execute
            { client_id := e.client_id, transaction_id := e.transaction_id, amount := a } s =
            (s, some (.transaction .NegativeAmount)) := by
          unfold Deposit.execute
          dsimp only
          rw [if_pos (is_sign_negative_true hneg)]
        have hps := (process_ok htf s).trans hex
        have herr : (process s e).2 ≠ none := by rw [hps]; simp
        refine ⟨?_, ?_⟩
        · rw [hps]
          exact auditInv_step_noop hInv hA hsub
        · rw [delta_zero_of_err herr, hps]
          dsimp only
          omega
      · have ha0 : 0 ≤ a := le_of_not_lt hneg
        have hhn : lookupHistory s.history e.transaction_id = none := by
          cases hl2 : lookupHistory s.history e.transaction_id with
          | none => rfl
          | some r =>
              exact absurd (hInv.2.2 (e.transaction_id, r) (alistLookup_mem hl2)) hfresh
        have hins := @add_transaction_absent s.history
          { client_id := e.client_id, transaction_id := e.transaction_id,
            transaction_type := .Deposit, amount := a,
            status := .WithoutDisputes } hhn
        have hmemid : e.transaction_id ∈ ids ++ [e.transaction_id] :=
          List.mem_append_right _ (List.mem_singleton.mpr rfl)
        cases hla : lookupAccount s.accounts e.client_id with
        | none =>
            have hadd := add_money_absent hla a
            have hex : Deposit.execute
                { client_id := e.client_id, transaction_id := e.transaction_id,
                  amount := a } s =
                ({ accounts := insertAccount s.accounts e.client_id
                     { available_amount := a, held_amount := 0, locked := false },
                   history := s.history ++ [(e.transaction_id,
                     { client_id := e.client_id, transaction_id := e.transaction_id,
                       transaction_type := .Deposit, amount := a,
                       status := .WithoutDisputes })] }, none) := by
              unfold Deposit.execute
              dsimp only
              rw [if_neg (by rw [is_sign_negative_false ha0]; exact Bool.false_ne_true),
                hadd]
              dsimp only
              rw [hins]
            have hps := (process_ok htf s).trans hex
            have hsum : accountsTotal (insertAccount s.accounts e.client_id
                { available_amount := a, held_amount := 0, locked := false }) =
                accountsTotal s.accounts + (a + 0) :=
              accountsTotal_append s.accounts e.client_id _
            refine ⟨⟨?_, ?_⟩, ?_⟩
            · rw [hps]
              refine ⟨?_, ?_, ?_⟩
              · have h1 := nodup_keys_add_money e.client_id a hInv.1.1
                rw [hadd] at h1
                exact h1
              · have h1 := nonneg_add_money (c := e.client_id) hInv.1.2.1 ha0
                rw [hadd] at h1
                exact h1
              · show accountsTotal (insertAccount s.accounts e.client_id _) ≤ _
                rw [hsum]
                have := hInv.1.2.2
                linarith [hkk1]
            · rw [hps]
              exact histOK_append (histOK_mono_ids hInv.2 hsub) ha0 hA' hmemid
            · rw [hps]
              rw [depositsOk_single, withdrawalsOk_single, disputeRestores_single,
                chargebackRemovals_single, htf, hps]
              dsimp only
              rw [hsum]
              ring
        | some acct =>
            by_cases hlk : acct.locked = true
            · have hex : Deposit.execute
                  { client_id := e.client_id, transaction_id := e.transaction_id,
                    amount := a } s =
                  ({ s with accounts := s.accounts },
                   some (.account .AccountLocked)) := by
                unfold Deposit.execute
                dsimp only
                rw [if_neg (by rw [is_sign_negative_false ha0]; exact Bool.false_ne_true),
                  add_money_locked hla hlk a]
              have hps := (process_ok htf s).trans hex
              have herr : (process s e).2 ≠ none := by rw [hps]; simp
              refine ⟨?_, ?_⟩
              · rw [hps]
                exact auditInv_step_noop hInv hA hsub
              · rw [delta_zero_of_err herr, hps]
                dsimp only
                omega
            · have hlkf : acct.locked = false := by
                cases h0 : acct.locked
                · rfl
                · exact absurd h0 hlk
              obtain ⟨hav0, hhd0, havle, hhdle⟩ := acct_le_total hInv.1 hla
              have hca : checkedAdd acct.available_amount a =
                  some (acct.available_amount + a) := by
                refine checkedAdd_of_bounds (by linarith) ?_
                have := hInv.1.2.2
                linarith [hkk1]
              have hadd := add_money_present hla hlkf hca
              have hex : Deposit.execute
                  { client_id := e.client_id, transaction_id := e.transaction_id,
                    amount := a } s =
                  ({ accounts := updateAccount s.accounts e.client_id
                       { acct with available_amount := acct.available_amount + a },
                     history := s.history ++ [(e.transaction_id,
                       { client_id := e.client_id, transaction_id := e.transaction_id,
                         transaction_type := .Deposit, amount := a,
                         status := .WithoutDisputes })] }, none) := by
                unfold Deposit.execute
                dsimp only
                rw [if_neg (by rw [is_sign_negative_false ha0]; exact Bool.false_ne_true),
                  hadd]
                dsimp only
                rw [hins]
              have hps := (process_ok htf s).trans hex
              have hsum : accountsTotal (updateAccount s.accounts e.client_id
                  { acct with available_amount := acct.available_amount + a }) =
                  accountsTotal s.accounts +
                    ((acct.available_amount + a) + acct.held_amount)
                    - (acct.available_amount + acct.held_amount) :=
                accountsTotal_update hla _
              refine ⟨⟨?_, ?_⟩, ?_⟩
              · rw [hps]
                refine ⟨?_, ?_, ?_⟩
                · show ((updateAccount s.accounts e.client_id _).map Prod.fst).Nodup
                  unfold updateAccount
                  rw [alistUpdate_keys]
                  exact hInv.1.1
                · have h1 := nonneg_add_money (c := e.client_id) hInv.1.2.1 ha0
                  rw [hadd] at h1
                  exact h1
                · show accountsTotal (updateAccount s.accounts e.client_id _) ≤ _
                  rw [hsum]
                  have := hInv.1.2.2
                  linarith [hkk1]
              · rw [hps]
                exact histOK_append (histOK_mono_ids hInv.2 hsub) ha0 hA' hmemid
              · rw [hps]
                rw [depositsOk_single, withdrawalsOk_single, disputeRestores_single,
                  chargebackRemovals_single, htf, hps]
                dsimp only
                rw [hsum]
                ring


theorem audit_step_withdrawal (s : EngineState) (e : TransactionLogEntry) (A k : Int)
    (ids : List TransactionId) (hInv : AuditInv A k ids s) (hA : 0 ≤ A) (hk : 0 ≤ k)
    (hAmt : ∀ a, e.amount = some a → a ≤ A)
    (hwd : e.transaction_type = "withdrawal")
    (hfresh : e.transaction_id ∉ ids)
    (hBound : (k + 1) * A ≤ decMax) :
    AuditInv A (k + 1) (ids ++ [e.transaction_id]) (process s e).1 ∧
    accountsTotal (process s e).1.accounts =
      accountsTotal s.accounts +
        (depositsOk s [e] - withdrawalsOk s [e] + disputeRestores s [e]
          - chargebackRemovals s [e]) := by
  have hsub : ∀ t ∈ ids, t ∈ ids ++ [e.transaction_id] :=
    fun t ht => List.mem_append_left _ ht
  have hkk1 : k * A + A = (k + 1) * A := by ring
  cases ham : e.amount with
  | none =>
      have htf := tryFromEntry_withdrawal_missing hwd ham
      have hps := process_decode_fail htf s
      have herr : (process s e).2 ≠ none := by rw [hps]; simp
      refine ⟨?_, ?_⟩
      · rw [hps]
        exact auditInv_step_noop hInv hA hsub
      · rw [delta_zero_of_err herr, hps]
        dsimp only
        omega
  | some a =>
      have hA' : a ≤ A := hAmt a ham
      have htf := tryFromEntry_eq_withdrawal hwd ham
      by_cases hneg : a < 0
      · have hex : Withdrawal.execute
            { client_id := e.client_id, transaction_id := e.transaction_id, amount := a } s =
            (s, some (.transaction .NegativeAmount)) := by
          unfold Withdrawal.execute
          dsimp only
          rw [if_pos (is_sign_negative_true hneg)]
        have hps := (process_ok htf s).trans hex
        have herr : (process s e).2 ≠ none := by rw [hps]; simp
        refine ⟨?_, ?_⟩
        · rw [hps]
          exact auditInv_step_noop hInv hA hsub
        · rw [delta_zero_of_err herr, hps]
          dsimp only
          omega
      · have ha0 : 0 ≤ a := le_of_not_lt hneg
        have hnegb : ¬ is_sign_negative a = true := by
          rw [is_sign_negative_false ha0]
          exact Bool.false_ne_true
        cases hla : lookupAccount s.accounts e.client_id with
        | none =>
            have hex : Withdrawal.execute
                { client_id := e.client_id, transaction_id := e.transaction_id,
                  amount := a } s = (s, some (.account .AccountNotFound)) := by
              unfold Withdrawal.execute
              dsimp only
              rw [if_neg hnegb, withdraw_money_absent hla a]
            have hps := (process_ok htf s).trans hex
            have herr : (process s e).2 ≠ none := by rw [hps]; simp
            refine ⟨?_, ?_⟩
            · rw [hps]
              exact auditInv_step_noop hInv hA hsub
            · rw [delta_zero_of_err herr, hps]
              dsimp only
              omega
        | some acct =>
            by_cases hlk : acct.locked = true
            · have hex : Withdrawal.execute
                  { client_id := e.client_id, transaction_id := e.transaction_id,
                    amount := a } s =
                  ({ s with accounts := s.accounts },
                   some (.account .AccountLocked)) := by
                unfold Withdrawal.execute
                dsimp only
                rw [if_neg hnegb, withdraw_money_locked hla hlk a]
              have hps := (process_ok htf s).trans hex
              have herr : (process s e).2 ≠ none := by rw [hps]; simp
              refine ⟨?_, ?_⟩
              · rw [hps]
                exact auditInv_step_noop hInv hA hsub
              · rw [delta_zero_of_err herr, hps]
                dsimp only
                omega
            · have hlkf : acct.locked = false := by
                cases h0 : acct.locked
                · rfl
                · exact absurd h0 hlk
              by_cases hlt : acct.available_amount < a
              · have hex : Withdrawal.execute
                    { client_id := e.client_id, transaction_id := e.transaction_id,
                      amount := a } s =
                    ({ s with accounts := s.accounts },
                     some (.account .InsufficientMoney)) := by
                  unfold Withdrawal.execute
                  dsimp only
                  rw [if_neg hnegb, withdraw_money_insufficient hla hlkf hlt]
                have hps := (process_ok htf s).trans hex
                have herr : (process s e).2 ≠ none := by rw [hps]; simp
                refine ⟨?_, ?_⟩
                · rw [hps]
                  exact auditInv_step_noop hInv hA hsub
                · rw [delta_zero_of_err herr, hps]
                  dsimp only
                  omega
              · obtain ⟨hav0, hhd0, havle, hhdle⟩ := acct_le_total hInv.1 hla
                have hcs : checkedSub acct.available_amount a =
                    some (acct.available_amount - a) := by
                  refine checkedSub_of_bounds (by omega) ?_
                  have := hInv.1.2.2
                  linarith [hkk1]
                have hwsub := withdraw_money_present hla hlkf hlt hcs
                have hhn : lookupHistory s.history e.transaction_id = none := by
                  cases hl2 : lookupHistory s.history e.transaction_id with
                  | none => rfl
                  | some r =>
                      exact absurd (hInv.2.2 (e.transaction_id, r) (alistLookup_mem hl2))
                        hfresh
                have hins := @add_transaction_absent s.history
                  { client_id := e.client_id, transaction_id := e.transaction_id,
                    transaction_type := .Withdrawal, amount := a,
                    status := .WithoutDisputes } hhn
                have hmemid : e.transaction_id ∈ ids ++ [e.transaction_id] :=
                  List.mem_append_right _ (List.mem_singleton.mpr rfl)
                have hex : Withdrawal.execute
                    { client_id := e.client_id, transaction_id := e.transaction_id,
                      amount := a } s =
                    ({ accounts := updateAccount s.accounts e.client_id
                         { acct with available_amount := acct.available_amount - a },
                       history := s.history ++ [(e.transaction_id,
                         { client_id := e.client_id, transaction_id := e.transaction_id,
                           transaction_type := .Withdrawal, amount := a,
                           status := .WithoutDisputes })] }, none) := by
                  unfold Withdrawal.execute
                  dsimp only
                  rw [if_neg hnegb, hwsub]
                  dsimp only
                  rw [hins]
                have hps := (process_ok htf s).trans hex
                have hsum : accountsTotal (updateAccount s.accounts e.client_id
                    { acct with available_amount := acct.available_amount - a }) =
                    accountsTotal s.accounts +
                      ((acct.available_amount - a) + acct.held_amount)
                      - (acct.available_amount + acct.held_amount) :=
                  accountsTotal_update hla _
                refine ⟨⟨?_, ?_⟩, ?_⟩
                · rw [hps]
                  refine ⟨?_, ?_, ?_⟩
                  · show ((updateAccount s.accounts e.client_id _).map Prod.fst).Nodup
                    unfold updateAccount
                    rw [alistUpdate_keys]
                    exact hInv.1.1
                  · have h1 := nonneg_withdraw_money (c := e.client_id) (a := a)
                      hInv.1.2.1
                    rw [hwsub] at h1
                    exact h1
                  · show accountsTotal (updateAccount s.accounts e.client_id _) ≤ _
                    rw [hsum]
                    have := hInv.1.2.2
                    linarith [hkk1]
                · rw [hps]
                  exact histOK_append (histOK_mono_ids hInv.2 hsub) ha0 hA' hmemid
                · rw [hps]
                  rw [depositsOk_single, withdrawalsOk_single, disputeRestores_single,
                    chargebackRemovals_single, htf, hps]
                  dsimp only
                  rw [hsum]
                  ring


theorem lookup_insert_self {m : AccountsMap} {c : ClientId}
    (h : lookupAccount m c = none) (b : UserAccount) :
    lookupAccount (insertAccount m c b) c = some b := by
  show alistLookup (m ++ [(c, b)]) c = some b
  rw [alistLookup_append_none h, alistLookup_cons, if_pos rfl]

theorem audit_step_dispute (s : EngineState) (e : TransactionLogEntry) (A k : Int)
    (ids : List TransactionId) (hInv : AuditInv A k ids s) (hA : 0 ≤ A) (hk : 0 ≤ k)
    (hdis : e.transaction_type = "dispute")
    (hBound : (k + 1) * A ≤ decMax) :
    AuditInv A (k + 1) ids (process s e).1 ∧
    accountsTotal (process s e).1.accounts =
      accountsTotal s.accounts +
        (depositsOk s [e] - withdrawalsOk s [e] + disputeRestores s [e]
          - chargebackRemovals s [e]) := by
  have hsub : ∀ t ∈ ids, t ∈ ids := fun t ht => ht
  have hkk1 : k * A + A = (k + 1) * A := by ring
  have htf := tryFromEntry_eq_dispute hdis
  cases hfd : find_transaction s.history e.transaction_id with
  | none =>
      have hex : Dispute.execute
          { client_id := e.client_id, transaction_id := e.transaction_id } s =
          (s, some (.transaction .OriginTransactionNotFound)) := by
        unfold Dispute.execute
        dsimp only
        rw [hfd]
      have hps := (process_ok htf s).trans hex
      have herr : (process s e).2 ≠ none := by rw [hps]; simp
      refine ⟨?_, ?_⟩
      · rw [hps]
        exact auditInv_step_noop hInv hA hsub
      · rw [delta_zero_of_err herr, hps]
        dsimp only
        omega
  | some r =>
      obtain ⟨hra0, hraA⟩ := hInv.2.1 (e.transaction_id, r) (alistLookup_mem hfd)
      have hra0 : (0 : Int) ≤ r.amount := hra0
      have hraA : r.amount ≤ A := hraA
      by_cases hst : r.status = TransactionStatus.WithoutDisputes
      · have hup := @update_status_ok s.history e.transaction_id r
          (show lookupHistory s.history e.transaction_id = some r from hfd)
          TransactionStatus.Disputed (by rw [hst]; rfl)
        have hhist : HistOK A ids
            (updateHistory s.history e.transaction_id
              { r with status := TransactionStatus.Disputed }) := by
          have h1 := histOK_update_status hInv.2 e.transaction_id TransactionStatus.Disputed
          rw [hup] at h1
          exact h1
        cases hty : r.transaction_type with
        | Deposit =>
            cases hla : lookupAccount s.accounts e.client_id with
            | none =>
                have hex : Dispute.execute
                    { client_id := e.client_id, transaction_id := e.transaction_id } s =
                    (s, some (.account .AccountNotFound)) := by
                  unfold Dispute.execute
                  dsimp only
                  rw [hfd]
                  dsimp only
                  rw [if_neg (fun hh => hh hst), hty]
                  dsimp only
                  rw [hold_money_absent hla r.amount]
                have hps := (process_ok htf s).trans hex
                have herr : (process s e).2 ≠ none := by rw [hps]; simp
                refine ⟨?_, ?_⟩
                · rw [hps]
                  exact auditInv_step_noop hInv hA hsub
                · rw [delta_zero_of_err herr, hps]
                  dsimp only
                  omega
            | some acct =>
                by_cases hlk : acct.locked = true
                · have hex : Dispute.execute
                      { client_id := e.client_id, transaction_id := e.transaction_id } s =
                      ({ s with accounts := s.accounts },
                       some (.account .AccountLocked)) := by
                    unfold Dispute.execute
                    dsimp only
                    rw [hfd]
                    dsimp only
                    rw [if_neg (fun hh => hh hst), hty]
                    dsimp only
                    rw [hold_money_locked hla hlk r.amount]
                  have hps := (process_ok htf s).trans hex
                  have herr : (process s e).2 ≠ none := by rw [hps]; simp
                  refine ⟨?_, ?_⟩
                  · rw [hps]
                    exact auditInv_step_noop hInv hA hsub
                  · rw [delta_zero_of_err herr, hps]
                    dsimp only
                    omega
                · have hlkf : acct.locked = false := by
                    cases h0 : acct.locked
                    · rfl
                    · exact absurd h0 hlk
                  by_cases hlt : acct.available_amount < r.amount
                  · have hex : Dispute.execute
                        { client_id := e.client_id, transaction_id := e.transaction_id } s =
                        ({ s with accounts := s.accounts },
                         some (.account .InsufficientMoney)) := by
                      unfold Dispute.execute
                      dsimp only
                      rw [hfd]
                      dsimp only
                      rw [if_neg (fun hh => hh hst), hty]
                      dsimp only
                      rw [hold_money_insufficient hla hlkf hlt]
                    have hps := (process_ok htf s).trans hex
                    have herr : (process s e).2 ≠ none := by rw [hps]; simp
                    refine ⟨?_, ?_⟩
                    · rw [hps]
                      exact auditInv_step_noop hInv hA hsub
                    · rw [delta_zero_of_err herr, hps]
                      dsimp only
                      omega
                  · obtain ⟨hav0, hhd0, havle, hhdle⟩ := acct_le_total hInv.1 hla
                    have hcs : checkedSub acct.available_amount r.amount =
                        some (acct.available_amount - r.amount) := by
                      refine checkedSub_of_bounds (by omega) ?_
                      have := hInv.1.2.2
                      linarith [hkk1]
                    have hca : checkedAdd acct.held_amount r.amount =
                        some (acct.held_amount + r.amount) := by
                      refine checkedAdd_of_bounds (by omega) ?_
                      have := hInv.1.2.2
                      linarith [hkk1]
                    have hhold := hold_money_present hla hlkf hlt hcs hca
                    have hex : Dispute.execute
                        { client_id := e.client_id, transaction_id := e.transaction_id } s =
                        ({ accounts := updateAccount s.accounts e.client_id
                             { acct with
                               available_amount := acct.available_amount - r.amount,
                               held_amount := acct.held_amount + r.amount },
                           history := updateHistory s.history e.transaction_id
                             { r with status := TransactionStatus.Disputed } }, none) := by
                      unfold Dispute.execute
                      dsimp only
                      rw [hfd]
                      dsimp only
                      rw [if_neg (fun hh => hh hst), hty]
                      dsimp only
                      rw [hhold]
                      dsimp only
                      rw [hup]
                      dsimp only
                      rw [hty]
                    have hps := (process_ok htf s).trans hex
                    have hsum : accountsTotal (updateAccount s.accounts e.client_id
                        { acct with
                          available_amount := acct.available_amount - r.amount,
                          held_amount := acct.held_amount + r.amount }) =
                        accountsTotal s.accounts +
                          ((acct.available_amount - r.amount) +
                            (acct.held_amount + r.amount))
                          - (acct.available_amount + acct.held_amount) :=
                      accountsTotal_update hla _
                    refine ⟨⟨?_, ?_⟩, ?_⟩
                    · rw [hps]
                      refine ⟨?_, ?_, ?_⟩
                      · show ((updateAccount s.accounts e.client_id _).map Prod.fst).Nodup
                        unfold updateAccount
                        rw [alistUpdate_keys]
                        exact hInv.1.1
                      · have h1 := nonneg_hold_money (c := e.client_id)
                          hInv.1.2.1 hra0
                        rw [hhold] at h1
                        exact h1
                      · show accountsTotal (updateAccount s.accounts e.client_id _) ≤ _
                        rw [hsum]
                        have := hInv.1.2.2
                        linarith [hkk1]
                    · rw [hps]
                      exact hhist
                    · rw [hps]
                      rw [depositsOk_single, withdrawalsOk_single, disputeRestores_single,
                        chargebackRemovals_single, htf, hps]
                      dsimp only
                      rw [hfd]
                      dsimp only
                      rw [hty]
                      dsimp only
                      rw [hsum]
                      ring
        | Withdrawal =>
            cases hla : lookupAccount s.accounts e.client_id with
            | none =>
                have hadd := add_money_absent hla r.amount
                have hla1 := lookup_insert_self hla
                  { available_amount := r.amount, held_amount := 0, locked := false }
                have hlt1 : ¬ ({ available_amount := r.amount, held_amount := 0, locked := false } : UserAccount).available_amount < r.amount := by
                  dsimp only
                  omega
                have hcs : checkedSub r.amount r.amount = some (r.amount - r.amount) := by
                  refine checkedSub_of_bounds (by omega) ?_
                  have := decMax_nonneg
                  omega
                have hca : checkedAdd (0 : Int) r.amount = some (0 + r.amount) := by
                  refine checkedAdd_of_bounds (by omega) ?_
                  have h1 : (1 : Int) * A ≤ (k + 1) * A :=
                    mul_le_mul_of_nonneg_right (by omega) hA
                  linarith
                have hhold := hold_money_present hla1 rfl hlt1 hcs hca
                have hex : Dispute.execute
                    { client_id := e.client_id, transaction_id := e.transaction_id } s =
                    ({ accounts := updateAccount
                         (insertAccount s.accounts e.client_id
                           { available_amount := r.amount, held_amount := 0,
                             locked := false }) e.client_id
                         { available_amount := r.amount - r.amount,
                           held_amount := 0 + r.amount, locked := false },
                       history := updateHistory s.history e.transaction_id
                         { r with status := TransactionStatus.Disputed } }, none) := by
                  unfold Dispute.execute
                  dsimp only
                  rw [hfd]
                  dsimp only
                  rw [if_neg (fun hh => hh hst), hty]
                  dsimp only
                  rw [hadd]
                  dsimp only
                  rw [hhold]
                  dsimp only
                  rw [hup]
                  dsimp only
                  rw [hty]
                have hps := (process_ok htf s).trans hex
                have hsum1 : accountsTotal (insertAccount s.accounts e.client_id
                    { available_amount := r.amount, held_amount := 0, locked := false }) =
                    accountsTotal s.accounts + (r.amount + 0) :=
                  accountsTotal_append s.accounts e.client_id _
                have hsum2 : accountsTotal (updateAccount
                    (insertAccount s.accounts e.client_id
                      { available_amount := r.amount, held_amount := 0, locked := false })
                    e.client_id
                    { available_amount := r.amount - r.amount,
                      held_amount := 0 + r.amount, locked := false }) =
                    accountsTotal (insertAccount s.accounts e.client_id
                      { available_amount := r.amount, held_amount := 0, locked := false }) +
                      ((r.amount - r.amount) + (0 + r.amount)) - (r.amount + 0) :=
                  accountsTotal_update hla1 _
                refine ⟨⟨?_, ?_⟩, ?_⟩
                · rw [hps]
                  refine ⟨?_, ?_, ?_⟩
                  · show ((updateAccount _ e.client_id _).map Prod.fst).Nodup
                    unfold updateAccount
                    rw [alistUpdate_keys]
                    have h1 := nodup_keys_add_money e.client_id r.amount hInv.1.1
                    rw [hadd] at h1
                    exact h1
                  · have h1 := nonneg_add_money (c := e.client_id) hInv.1.2.1 hra0
                    rw [hadd] at h1
                    have h2 := nonneg_hold_money (c := e.client_id) h1 hra0
                    rw [hhold] at h2
                    exact h2
                  · show accountsTotal (updateAccount _ e.client_id _) ≤ _
                    rw [hsum2, hsum1]
                    have := hInv.1.2.2
                    linarith [hkk1]
                · rw [hps]
                  exact hhist
                · rw [hps]
                  rw [depositsOk_single, withdrawalsOk_single, disputeRestores_single,
                    chargebackRemovals_single, htf, hps]
                  dsimp only
                  rw [hfd]
                  dsimp only
                  rw [hty]
                  dsimp only
                  rw [hsum2, hsum1]
                  ring
            | some acct =>
                by_cases hlk : acct.locked = true
                · have hex : Dispute.execute
                      { client_id := e.client_id, transaction_id := e.transaction_id } s =
                      ({ s with accounts := s.accounts },
                       some (.account .AccountLocked)) := by
                    unfold Dispute.execute
                    dsimp only
                    rw [hfd]
                    dsimp only
                    rw [if_neg (fun hh => hh hst), hty]
                    dsimp only
                    rw [add_money_locked hla hlk r.amount]
                  have hps := (process_ok htf s).trans hex
                  have herr : (process s e).2 ≠ none := by rw [hps]; simp
                  refine ⟨?_, ?_⟩
                  · rw [hps]
                    exact auditInv_step_noop hInv hA hsub
                  · rw [delta_zero_of_err herr, hps]
                    dsimp only
                    omega
                · have hlkf : acct.locked = false := by
                    cases h0 : acct.locked
                    · rfl
                    · exact absurd h0 hlk
                  obtain ⟨hav0, hhd0, havle, hhdle⟩ := acct_le_total hInv.1 hla
                  have hca1 : checkedAdd acct.available_amount r.amount =
                      some (acct.available_amount + r.amount) := by
                    refine checkedAdd_of_bounds (by omega) ?_
                    have := hInv.1.2.2
                    linarith [hkk1]
                  have hadd := add_money_present hla hlkf hca1
                  have hla1 : lookupAccount (updateAccount s.accounts e.client_id
                      { acct with
                        available_amount := acct.available_amount + r.amount })
                      e.client_id =
                      some { acct with
                        available_amount := acct.available_amount + r.amount } :=
                    alistLookup_update_self hla _
                  have hlt1 : ¬ ({ acct with available_amount := acct.available_amount + r.amount } : UserAccount).available_amount < r.amount := by
                    dsimp only
                    omega
                  have hcs : checkedSub (acct.available_amount + r.amount) r.amount =
                      some ((acct.available_amount + r.amount) - r.amount) := by
                    refine checkedSub_of_bounds (by omega) ?_
                    have := hInv.1.2.2
                    linarith [hkk1]
                  have hca2 : checkedAdd acct.held_amount r.amount =
                      some (acct.held_amount + r.amount) := by
                    refine checkedAdd_of_bounds (by omega) ?_
                    have := hInv.1.2.2
                    linarith [hkk1]
                  have hhold := hold_money_present hla1 hlkf hlt1 hcs hca2
                  have hex : Dispute.execute
                      { client_id := e.client_id, transaction_id := e.transaction_id } s =
                      ({ accounts := updateAccount
                           (updateAccount s.accounts e.client_id
                             { acct with
                               available_amount := acct.available_amount + r.amount })
                           e.client_id
                           { acct with
                             available_amount :=
                               (acct.available_amount + r.amount) - r.amount,
                             held_amount := acct.held_amount + r.amount },
                         history := updateHistory s.history e.transaction_id
                           { r with status := TransactionStatus.Disputed } }, none) := by
                    unfold Dispute.execute
                    dsimp only
                    rw [hfd]
                    dsimp only
                    rw [if_neg (fun hh => hh hst), hty]
                    dsimp only
                    rw [hadd]
                    dsimp only
                    rw [hhold]
                    dsimp only
                    rw [hup]
                    dsimp only
                    rw [hty]
                  have hps := (process_ok htf s).trans hex
                  have hsum1 : accountsTotal (updateAccount s.accounts e.client_id
                      { acct with
                        available_amount := acct.available_amount + r.amount }) =
                      accountsTotal s.accounts +
                        ((acct.available_amount + r.amount) + acct.held_amount)
                        - (acct.available_amount + acct.held_amount) :=
                    accountsTotal_update hla _
                  have hsum2 : accountsTotal (updateAccount
                      (updateAccount s.accounts e.client_id
                        { acct with
                          available_amount := acct.available_amount + r.amount })
                      e.client_id
                      { acct with
                        available_amount := (acct.available_amount + r.amount) - r.amount,
                        held_amount := acct.held_amount + r.amount }) =
                      accountsTotal (updateAccount s.accounts e.client_id
                        { acct with
                          available_amount := acct.available_amount + r.amount }) +
                        (((acct.available_amount + r.amount) - r.amount) +
                          (acct.held_amount + r.amount))
                        - ((acct.available_amount + r.amount) + acct.held_amount) :=
                    accountsTotal_update hla1 _
                  refine ⟨⟨?_, ?_⟩, ?_⟩
                  · rw [hps]
                    refine ⟨?_, ?_, ?_⟩
                    · show ((updateAccount _ e.client_id _).map Prod.fst).Nodup
                      unfold updateAccount
                      rw [alistUpdate_keys, alistUpdate_keys]
                      exact hInv.1.1
                    · have h1 := nonneg_add_money (c := e.client_id) hInv.1.2.1 hra0
                      rw [hadd] at h1
                      have h2 := nonneg_hold_money (c := e.client_id) h1 hra0
                      rw [hhold] at h2
                      exact h2
                    · show accountsTotal (updateAccount _ e.client_id _) ≤ _
                      rw [hsum2, hsum1]
                      have := hInv.1.2.2
                      linarith [hkk1]
                  · rw [hps]
                    exact hhist
                  · rw [hps]
                    rw [depositsOk_single, withdrawalsOk_single, disputeRestores_single,
                      chargebackRemovals_single, htf, hps]
                    dsimp only
                    rw [hfd]
                    dsimp only
                    rw [hty]
                    dsimp only
                    rw [hsum2, hsum1]
                    ring
      · have hex : Dispute.execute
            { client_id := e.client_id, transaction_id := e.transaction_id } s =
            (s, some (.transaction .TransactionMultipleDispute)) := by
          unfold Dispute.execute
          dsimp only
          rw [hfd]
          dsimp only
          rw [if_pos hst]
        have hps := (process_ok htf s).trans hex
        have herr : (process s e).2 ≠ none := by rw [hps]; simp
        refine ⟨?_, ?_⟩
        · rw [hps]
          exact auditInv_step_noop hInv hA hsub
        · rw [delta_zero_of_err herr, hps]
          dsimp only
          omega

theorem audit_step_resolve (s : EngineState) (e : TransactionLogEntry) (A k : Int)
    (ids : List TransactionId) (hInv : AuditInv A k ids s) (hA : 0 ≤ A) (hk : 0 ≤ k)
    (hres : e.transaction_type = "resolve")
    (hBound : (k + 1) * A ≤ decMax) :
    AuditInv A (k + 1) ids (process s e).1 ∧
    accountsTotal (process s e).1.accounts =
      accountsTotal s.accounts +
        (depositsOk s [e] - withdrawalsOk s [e] + disputeRestores s [e]
          - chargebackRemovals s [e]) := by
  have hsub : ∀ t ∈ ids, t ∈ ids := fun t ht => ht
  have hkk1 : k * A + A = (k + 1) * A := by ring
  have htf := tryFromEntry_eq_resolve hres
  cases hfd : find_transaction s.history e.transaction_id with
  | none =>
      have hex : Resolve.execute
          { client_id := e.client_id, transaction_id := e.transaction_id } s =
          (s, some (.transaction .OriginTransactionNotFound)) := by
        unfold Resolve.execute
        dsimp only
        rw [hfd]
      have hps := (process_ok htf s).trans hex
      have herr : (process s e).2 ≠ none := by rw [hps]; simp
      refine ⟨?_, ?_⟩
      · rw [hps]
        exact auditInv_step_noop hInv hA hsub
      · rw [delta_zero_of_err herr, hps]
        dsimp only
        omega
  | some r =>
      obtain ⟨hra0, hraA⟩ := hInv.2.1 (e.transaction_id, r) (alistLookup_mem hfd)
      have hra0 : (0 : Int) ≤ r.amount := hra0
      have hraA : r.amount ≤ A := hraA
      by_cases hst : r.status = TransactionStatus.Disputed
      · have hup := @update_status_ok s.history e.transaction_id r
          (show lookupHistory s.history e.transaction_id = some r from hfd)
          TransactionStatus.Resolved (by rw [hst]; rfl)
        have hhist : HistOK A ids
            (updateHistory s.history e.transaction_id
              { r with status := TransactionStatus.Resolved }) := by
          have h1 := histOK_update_status hInv.2 e.transaction_id TransactionStatus.Resolved
          rw [hup] at h1
          exact h1
        cases hla : lookupAccount s.accounts e.client_id with
        | none =>
            have hex : Resolve.execute
                { client_id := e.client_id, transaction_id := e.transaction_id } s =
                ({ accounts := s.accounts,
                   history := updateHistory s.history e.transaction_id
                     { r with status := TransactionStatus.Resolved } },
                 some (.account .AccountNotFound)) := by
              unfold Resolve.execute
              dsimp only
              rw [hfd]
              dsimp only
              rw [if_neg (fun hh => hh hst)]
              rw [hup]
              dsimp only
              rw [unhold_money_absent hla r.amount]
            have hps := (process_ok htf s).trans hex
            have herr : (process s e).2 ≠ none := by rw [hps]; simp
            refine ⟨?_, ?_⟩
            · rw [hps]
              exact ⟨accOK_mono hInv.1 hA (by linarith), hhist⟩
            · rw [delta_zero_of_err herr, hps]
              dsimp only
              omega
        | some acct =>
            by_cases hlk : acct.locked = true
            · have hex : Resolve.execute
                  { client_id := e.client_id, transaction_id := e.transaction_id } s =
                  ({ accounts := s.accounts,
                     history := updateHistory s.history e.transaction_id
                       { r with status := TransactionStatus.Resolved } },
                   some (.account .AccountLocked)) := by
                unfold Resolve.execute
                dsimp only
                rw [hfd]
                dsimp only
                rw [if_neg (fun hh => hh hst)]
                rw [hup]
                dsimp only
                rw [unhold_money_locked hla hlk r.amount]
              have hps := (process_ok htf s).trans hex
              have herr : (process s e).2 ≠ none := by rw [hps]; simp
              refine ⟨?_, ?_⟩
              · rw [hps]
                exact ⟨accOK_mono hInv.1 hA (by linarith), hhist⟩
              · rw [delta_zero_of_err herr, hps]
                dsimp only
                omega
            · have hlkf : acct.locked = false := by
                cases h0 : acct.locked
                · rfl
                · exact absurd h0 hlk
              by_cases hlt : acct.held_amount < r.amount
              · have hex : Resolve.execute
                    { client_id := e.client_id, transaction_id := e.transaction_id } s =
                    ({ accounts := s.accounts,
                       history := updateHistory s.history e.transaction_id
                         { r with status := TransactionStatus.Resolved } },
                     some (.account .InsufficientMoney)) := by
                  unfold Resolve.execute
                  dsimp only
                  rw [hfd]
                  dsimp only
                  rw [if_neg (fun hh => hh hst)]
                  rw [hup]
                  dsimp only
                  rw [unhold_money_insufficient hla hlkf hlt]
                have hps := (process_ok htf s).trans hex
                have herr : (process s e).2 ≠ none := by rw [hps]; simp
                refine ⟨?_, ?_⟩
                · rw [hps]
                  exact ⟨accOK_mono hInv.1 hA (by linarith), hhist⟩
                · rw [delta_zero_of_err herr, hps]
                  dsimp only
                  omega
              · obtain ⟨hav0, hhd0, havle, hhdle⟩ := acct_le_total hInv.1 hla
                have hcs : checkedSub acct.held_amount r.amount =
                    some (acct.held_amount - r.amount) := by
                  refine checkedSub_of_bounds (by omega) ?_
                  have := hInv.1.2.2
                  linarith [hkk1]
                have hca : checkedAdd acct.available_amount r.amount =
                    some (acct.available_amount + r.amount) := by
                  refine checkedAdd_of_bounds (by omega) ?_
                  have := hInv.1.2.2
                  linarith [hkk1]
                have hunh := unhold_money_present hla hlkf hlt hcs hca
                have hex : Resolve.execute
                    { client_id := e.client_id, transaction_id := e.transaction_id } s =
                    ({ accounts := updateAccount s.accounts e.client_id
                         { acct with
                           available_amount := acct.available_amount + r.amount,
                           held_amount := acct.held_amount - r.amount },
                       history := updateHistory s.history e.transaction_id
                         { r with status := TransactionStatus.Resolved } }, none) := by
                  unfold Resolve.execute
                  dsimp only
                  rw [hfd]
                  dsimp only
                  rw [if_neg (fun hh => hh hst)]
                  rw [hup]
                  dsimp only
                  rw [hunh]
                have hps := (process_ok htf s).trans hex
                have hsum : accountsTotal (updateAccount s.accounts e.client_id
                    { acct with
                      available_amount := acct.available_amount + r.amount,
                      held_amount := acct.held_amount - r.amount }) =
                    accountsTotal s.accounts +
                      ((acct.available_amount + r.amount) +
                        (acct.held_amount - r.amount))
                      - (acct.available_amount + acct.held_amount) :=
                  accountsTotal_update hla _
                refine ⟨⟨?_, ?_⟩, ?_⟩
                · rw [hps]
                  refine ⟨?_, ?_, ?_⟩
                  · show ((updateAccount s.accounts e.client_id _).map Prod.fst).Nodup
                    unfold updateAccount
                    rw [alistUpdate_keys]
                    exact hInv.1.1
                  · have h1 := nonneg_unhold_money (c := e.client_id)
                      hInv.1.2.1 hra0
                    rw [hunh] at h1
                    exact h1
                  · show accountsTotal (updateAccount s.accounts e.client_id _) ≤ _
                    rw [hsum]
                    have := hInv.1.2.2
                    linarith [hkk1]
                · rw [hps]
                  exact hhist
                · rw [hps]
                  rw [depositsOk_single, withdrawalsOk_single, disputeRestores_single,
                    chargebackRemovals_single, htf, hps]
                  dsimp only
                  rw [hsum]
                  ring
      · have hex : Resolve.execute
            { client_id := e.client_id, transaction_id := e.transaction_id } s =
            (s, some (.transaction .TransactionNotDisputed)) := by
          unfold Resolve.execute
          dsimp only
          rw [hfd]
          dsimp only
          rw [if_pos hst]
        have hps := (process_ok htf s).trans hex
        have herr : (process s e).2 ≠ none := by rw [hps]; simp
        refine ⟨?_, ?_⟩
        · rw [hps]
          exact auditInv_step_noop hInv hA hsub
        · rw [delta_zero_of_err herr, hps]
          dsimp only
          omega

theorem audit_step_chargeback (s : EngineState) (e : TransactionLogEntry) (A k : Int)
    (ids : List TransactionId) (hInv : AuditInv A k ids s) (hA : 0 ≤ A) (hk : 0 ≤ k)
    (hcb : e.transaction_type = "chargeback")
    (hBound : (k + 1) * A ≤ decMax) :
    AuditInv A (k + 1) ids (process s e).1 ∧
    accountsTotal (process s e).1.accounts =
      accountsTotal s.accounts +
        (depositsOk s [e] - withdrawalsOk s [e] + disputeRestores s [e]
          - chargebackRemovals s [e]) := by
  have hsub : ∀ t ∈ ids, t ∈ ids := fun t ht => ht
  have hkk1 : k * A + A = (k + 1) * A := by ring
  have htf := tryFromEntry_eq_chargeback hcb
  cases hfd : find_transaction s.history e.transaction_id with
  | none =>
      have hex : Chargeback.execute
          { client_id := e.client_id, transaction_id := e.transaction_id } s =
          (s, some (.transaction .OriginTransactionNotFound)) := by
        unfold Chargeback.execute
        dsimp only
        rw [hfd]
      have hps := (process_ok htf s).trans hex
      have herr : (process s e).2 ≠ none := by rw [hps]; simp
      refine ⟨?_, ?_⟩
      · rw [hps]
        exact auditInv_step_noop hInv hA hsub
      · rw [delta_zero_of_err herr, hps]
        dsimp only
        omega
  | some r =>
      obtain ⟨hra0, hraA⟩ := hInv.2.1 (e.transaction_id, r) (alistLookup_mem hfd)
      have hra0 : (0 : Int) ≤ r.amount := hra0
      have hraA : r.amount ≤ A := hraA
      by_cases hst : r.status = TransactionStatus.Disputed
      · have hup := @update_status_ok s.history e.transaction_id r
          (show lookupHistory s.history e.transaction_id = some r from hfd)
          TransactionStatus.Chargebacked (by rw [hst]; rfl)
        have hhist : HistOK A ids
            (updateHistory s.history e.transaction_id
              { r with status := TransactionStatus.Chargebacked }) := by
          have h1 := histOK_update_status hInv.2 e.transaction_id
            TransactionStatus.Chargebacked
          rw [hup] at h1
          exact h1
        cases hla : lookupAccount s.accounts e.client_id with
        | none =>
            have hex : Chargeback.execute
                { client_id := e.client_id, transaction_id := e.transaction_id } s =
                ({ accounts := s.accounts,
                   history := updateHistory s.history e.transaction_id
                     { r with status := TransactionStatus.Chargebacked } },
                 some (.account .AccountNotFound)) := by
              unfold Chargeback.execute
              dsimp only
              rw [hfd]
              dsimp only
              rw [if_neg (fun hh => hh hst)]
              rw [hup]
              dsimp only
              rw [unhold_money_absent hla r.amount]
            have hps := (process_ok htf s).trans hex
            have herr : (process s e).2 ≠ none := by rw [hps]; simp
            refine ⟨?_, ?_⟩
            · rw [hps]
              exact ⟨accOK_mono hInv.1 hA (by linarith), hhist⟩
            · rw [delta_zero_of_err herr, hps]
              dsimp only
              omega
        | some acct =>
            by_cases hlk : acct.locked = true
            · have hex : Chargeback.execute
                  { client_id := e.client_id, transaction_id := e.transaction_id } s =
                  ({ accounts := s.accounts,
                     history := updateHistory s.history e.transaction_id
                       { r with status := TransactionStatus.Chargebacked } },
                   some (.account .AccountLocked)) := by
                unfold Chargeback.execute
                dsimp only
                rw [hfd]
                dsimp only
                rw [if_neg (fun hh => hh hst)]
                rw [hup]
                dsimp only
                rw [unhold_money_locked hla hlk r.amount]
              have hps := (process_ok htf s).trans hex
              have herr : (process s e).2 ≠ none := by rw [hps]; simp
              refine ⟨?_, ?_⟩
              · rw [hps]
                exact ⟨accOK_mono hInv.1 hA (by linarith), hhist⟩
              · rw [delta_zero_of_err herr, hps]
                dsimp only
                omega
            · have hlkf : acct.locked = false := by
                cases h0 : acct.locked
                · rfl
                · exact absurd h0 hlk
              by_cases hlt : acct.held_amount < r.amount
              · have hex : Chargeback.execute
                    { client_id := e.client_id, transaction_id := e.transaction_id } s =
                    ({ accounts := s.accounts,
                       history := updateHistory s.history e.transaction_id
                         { r with status := TransactionStatus.Chargebacked } },
                     some (.account .InsufficientMoney)) := by
                  unfold Chargeback.execute
                  dsimp only
                  rw [hfd]
                  dsimp only
                  rw [if_neg (fun hh => hh hst)]
                  rw [hup]
                  dsimp only
                  rw [unhold_money_insufficient hla hlkf hlt]
                have hps := (process_ok htf s).trans hex
                have herr : (process s e).2 ≠ none := by rw [hps]; simp
                refine ⟨?_, ?_⟩
                · rw [hps]
                  exact ⟨accOK_mono hInv.1 hA (by linarith), hhist⟩
                · rw [delta_zero_of_err herr, hps]
                  dsimp only
                  omega
              · obtain ⟨hav0, hhd0, havle, hhdle⟩ := acct_le_total hInv.1 hla
                have hcs : checkedSub acct.held_amount r.amount =
                    some (acct.held_amount - r.amount) := by
                  refine checkedSub_of_bounds (by omega) ?_
                  have := hInv.1.2.2
                  linarith [hkk1]
                have hca : checkedAdd acct.available_amount r.amount =
                    some (acct.available_amount + r.amount) := by
                  refine checkedAdd_of_bounds (by omega) ?_
                  have := hInv.1.2.2
                  linarith [hkk1]
                have hunh := unhold_money_present hla hlkf hlt hcs hca
                have hla1 : lookupAccount (updateAccount s.accounts e.client_id
                    { acct with
                      available_amount := acct.available_amount + r.amount,
                      held_amount := acct.held_amount - r.amount }) e.client_id =
                    some { acct with
                      available_amount := acct.available_amount + r.amount,
                      held_amount := acct.held_amount - r.amount } :=
                  alistLookup_update_self hla _
                have hlt2 : ¬ ({ acct with available_amount := acct.available_amount + r.amount, held_amount := acct.held_amount - r.amount } : UserAccount).available_amount < r.amount := by
                  dsimp only
                  omega
                have hcs2 : checkedSub (acct.available_amount + r.amount) r.amount =
                    some ((acct.available_amount + r.amount) - r.amount) := by
                  refine checkedSub_of_bounds (by omega) ?_
                  have := hInv.1.2.2
                  linarith [hkk1]
                have hwd := withdraw_money_present hla1 hlkf hlt2 hcs2
                have hla2 : lookupAccount (updateAccount (updateAccount s.accounts
                    e.client_id
                    { acct with
                      available_amount := acct.available_amount + r.amount,
                      held_amount := acct.held_amount - r.amount }) e.client_id
                    { acct with
                      available_amount := (acct.available_amount + r.amount) - r.amount,
                      held_amount := acct.held_amount - r.amount }) e.client_id =
                    some { acct with
                      available_amount := (acct.available_amount + r.amount) - r.amount,
                      held_amount := acct.held_amount - r.amount } :=
                  alistLookup_update_self hla1 _
                have hbl := block_account_present hla2 hlkf
                have hex : Chargeback.execute
                    { client_id := e.client_id, transaction_id := e.transaction_id } s =
                    ({ accounts := updateAccount (updateAccount (updateAccount s.accounts
                         e.client_id
                         { acct with
                           available_amount := acct.available_amount + r.amount,
                           held_amount := acct.held_amount - r.amount }) e.client_id
                         { acct with
                           available_amount := (acct.available_amount + r.amount) - r.amount,
                           held_amount := acct.held_amount - r.amount }) e.client_id
                         { acct with
                           available_amount := (acct.available_amount + r.amount) - r.amount,
                           held_amount := acct.held_amount - r.amount,
                           locked := true },
                       history := updateHistory s.history e.transaction_id
                         { r with status := TransactionStatus.Chargebacked } }, none) := by
                  unfold Chargeback.execute
                  dsimp only
                  rw [hfd]
                  dsimp only
                  rw [if_neg (fun hh => hh hst)]
                  rw [hup]
                  dsimp only
                  rw [hunh]
                  dsimp only
                  rw [hwd]
                  dsimp only
                  rw [hbl]
                have hps := (process_ok htf s).trans hex
                have hsum1 : accountsTotal (updateAccount s.accounts e.client_id
                    { acct with
                      available_amount := acct.available_amount + r.amount,
                      held_amount := acct.held_amount - r.amount }) =
                    accountsTotal s.accounts +
                      ((acct.available_amount + r.amount) +
                        (acct.held_amount - r.amount))
                      - (acct.available_amount + acct.held_amount) :=
                  accountsTotal_update hla _
                have hsum2 : accountsTotal (updateAccount (updateAccount s.accounts
                    e.client_id
                    { acct with
                      available_amount := acct.available_amount + r.amount,
                      held_amount := acct.held_amount - r.amount }) e.client_id
                    { acct with
                      available_amount := (acct.available_amount + r.amount) - r.amount,
                      held_amount := acct.held_amount - r.amount }) =
                    accountsTotal (updateAccount s.accounts e.client_id
                      { acct with
                        available_amount := acct.available_amount + r.amount,
                        held_amount := acct.held_amount - r.amount }) +
                      (((acct.available_amount + r.amount) - r.amount) +
                        (acct.held_amount - r.amount))
                      - ((acct.available_amount + r.amount) +
                        (acct.held_amount - r.amount)) :=
                  accountsTotal_update hla1 _
                have hsum3 : accountsTotal (updateAccount (updateAccount (updateAccount
                    s.accounts e.client_id
                    { acct with
                      available_amount := acct.available_amount + r.amount,
                      held_amount := acct.held_amount - r.amount }) e.client_id
                    { acct with
                      available_amount := (acct.available_amount + r.amount) - r.amount,
                      held_amount := acct.held_amount - r.amount }) e.client_id
                    { acct with
                      available_amount := (acct.available_amount + r.amount) - r.amount,
                      held_amount := acct.held_amount - r.amount,
                      locked := true }) =
                    accountsTotal (updateAccount (updateAccount s.accounts e.client_id
                      { acct with
                        available_amount := acct.available_amount + r.amount,
                        held_amount := acct.held_amount - r.amount }) e.client_id
                      { acct with
                        available_amount := (acct.available_amount + r.amount) - r.amount,
                        held_amount := acct.held_amount - r.amount }) +
                      (((acct.available_amount + r.amount) - r.amount) +
                        (acct.held_amount - r.amount))
                      - (((acct.available_amount + r.amount) - r.amount) +
                        (acct.held_amount - r.amount)) :=
                  accountsTotal_update hla2 _
                refine ⟨⟨?_, ?_⟩, ?_⟩
                · rw [hps]
                  refine ⟨?_, ?_, ?_⟩
                  · show ((updateAccount _ e.client_id _).map Prod.fst).Nodup
                    unfold updateAccount
                    rw [alistUpdate_keys, alistUpdate_keys, alistUpdate_keys]
                    exact hInv.1.1
                  · have h1 := nonneg_unhold_money (c := e.client_id)
                      hInv.1.2.1 hra0
                    rw [hunh] at h1
                    have h2 := nonneg_withdraw_money (c := e.client_id)
                      (a := r.amount) h1
                    rw [hwd] at h2
                    have h3 := nonneg_block_account (c := e.client_id) h2
                    rw [hbl] at h3
                    exact h3
                  · show accountsTotal (updateAccount _ e.client_id _) ≤ _
                    rw [hsum3, hsum2, hsum1]
                    have := hInv.1.2.2
                    linarith [hkk1]
                · rw [hps]
                  exact hhist
                · rw [hps]
                  rw [depositsOk_single, withdrawalsOk_single, disputeRestores_single,
                    chargebackRemovals_single, htf, hps]
                  dsimp only
                  rw [hfd]
                  dsimp only
                  rw [hsum3, hsum2, hsum1]
                  ring
      · have hex : Chargeback.execute
            { client_id := e.client_id, transaction_id := e.transaction_id } s =
            (s, some (.transaction .TransactionNotDisputed)) := by
          unfold Chargeback.execute
          dsimp only
          rw [hfd]
          dsimp only
          rw [if_pos hst]
        have hps := (process_ok htf s).trans hex
        have herr : (process s e).2 ≠ none := by rw [hps]; simp
        refine ⟨?_, ?_⟩
        · rw [hps]
          exact auditInv_step_noop hInv hA hsub
        · rw [delta_zero_of_err herr, hps]
          dsimp only
          omega

theorem processAll_cons (s : EngineState) (e : TransactionLogEntry)
    (es : List TransactionLogEntry) :
    processAll s (e :: es) = processAll (process s e).1 es := rfl

theorem depositsOk_cons (s : EngineState) (e : TransactionLogEntry)
    (es : List TransactionLogEntry) :
    depositsOk s (e :: es) = depositsOk s [e] + depositsOk (process s e).1 es := by
  rw [depositsOk_single]
  rfl

theorem withdrawalsOk_cons (s : EngineState) (e : TransactionLogEntry)
    (es : List TransactionLogEntry) :
    withdrawalsOk s (e :: es) =
      withdrawalsOk s [e] + withdrawalsOk (process s e).1 es := by
  rw [withdrawalsOk_single]
  rfl

theorem disputeRestores_cons (s : EngineState) (e : TransactionLogEntry)
    (es : List TransactionLogEntry) :
    disputeRestores s (e :: es) =
      disputeRestores s [e] + disputeRestores (process s e).1 es := by
  rw [disputeRestores_single]
  rfl

theorem chargebackRemovals_cons (s : EngineState) (e : TransactionLogEntry)
    (es : List TransactionLogEntry) :
    chargebackRemovals s (e :: es) =
      chargebackRemovals s [e] + chargebackRemovals (process s e).1 es := by
  rw [chargebackRemovals_single]
  rfl

theorem dwIds_cons_dw {e : TransactionLogEntry}
    (h : e.transaction_type = "deposit" ∨ e.transaction_type = "withdrawal")
    (es : List TransactionLogEntry) :
    dwIds (e :: es) = e.transaction_id :: dwIds es := by
  unfold dwIds
  rw [List.filter_cons, if_pos (by simp [h]), List.map_cons]

theorem dwIds_cons_other {e : TransactionLogEntry}
    (h1 : ¬ e.transaction_type = "deposit") (h2 : ¬ e.transaction_type = "withdrawal")
    (es : List TransactionLogEntry) :
    dwIds (e :: es) = dwIds es := by
  unfold dwIds
  rw [List.filter_cons, if_neg (by simp [h1, h2])]

theorem mem_dwIds {es : List TransactionLogEntry} {e : TransactionLogEntry}
    (he : e ∈ es)
    (h : e.transaction_type = "deposit" ∨ e.transaction_type = "withdrawal") :
    e.transaction_id ∈ dwIds es := by
  unfold dwIds
  exact List.mem_map.mpr ⟨e, List.mem_filter.mpr ⟨he, by simp [h]⟩, rfl⟩

theorem audit_main (A : Int) (hA : 0 ≤ A) (es : List TransactionLogEntry) :
    ∀ (s : EngineState) (k : Int) (ids : List TransactionId),
      AuditInv A k ids s → 0 ≤ k →
      (∀ e ∈ es, ∀ a, e.amount = some a → a ≤ A) →
      (∀ e ∈ es, e.transaction_type = "deposit" ∨ e.transaction_type = "withdrawal" →
        e.transaction_id ∉ ids) →
      (dwIds es).Nodup →
      (k + es.length) * A ≤ decMax →
      AuditInv A (k + es.length) (ids ++ dwIds es) (processAll s es) ∧
      accountsTotal (processAll s es).accounts =
        accountsTotal s.accounts +
          (depositsOk s es - withdrawalsOk s es + disputeRestores s es
            - chargebackRemovals s es) := by
  induction es with
  | nil =>
      intro s k ids hInv hk _ _ _ _
      constructor
      · have h0 : dwIds ([] : List TransactionLogEntry) = [] := rfl
        rw [h0, List.append_nil]
        have h1 : k + (([] : List TransactionLogEntry).length : Int) = k := by simp
        rw [h1]
        exact hInv
      · show accountsTotal s.accounts =
          accountsTotal s.accounts + ((0 : Int) - 0 + 0 - 0)
        ring
  | cons e es ih =>
      intro s k ids hInv hk hAmts hfresh hnd hBound
      have hlen : ((e :: es).length : Int) = (es.length : Int) + 1 := by
        rw [List.length_cons]
        push_cast
        ring
      have hlennn : (0 : Int) ≤ (es.length : Int) := Int.natCast_nonneg _
      have hB1 : (k + 1) * A ≤ decMax := by
        calc (k + 1) * A ≤ (k + ((e :: es).length : Int)) * A := by
              refine mul_le_mul_of_nonneg_right ?_ hA
              rw [hlen]
              omega
          _ ≤ decMax := hBound
      have hBtail : (k + 1 + (es.length : Int)) * A ≤ decMax := by
        have h1 : k + 1 + (es.length : Int) = k + ((e :: es).length : Int) := by
          rw [hlen]
          ring
        rw [h1]
        exact hBound
      have hkeq : k + 1 + (es.length : Int) = k + ((e :: es).length : Int) := by
        rw [hlen]
        ring
      by_cases hdep : e.transaction_type = "deposit"
      · have hdw : e.transaction_type = "deposit" ∨
            e.transaction_type = "withdrawal" := Or.inl hdep
        have hstep := audit_step_deposit s e A k ids hInv hA hk
          (hAmts e (List.mem_cons_self e es)) hdep
          (hfresh e (List.mem_cons_self e es) hdw) hB1
        have hdwc := dwIds_cons_dw hdw es
        have hndtail : (dwIds es).Nodup := by
          rw [hdwc] at hnd
          exact hnd.of_cons
        have hnotin : e.transaction_id ∉ dwIds es := by
          rw [hdwc] at hnd
          exact (List.nodup_cons.mp hnd).1
        have hfresh2 : ∀ e2 ∈ es, e2.transaction_type = "deposit" ∨
            e2.transaction_type = "withdrawal" →
            e2.transaction_id ∉ ids ++ [e.transaction_id] := by
          intro e2 he2 hdw2 hmem
          rcases List.mem_append.mp hmem with hm | hm
          · exact hfresh e2 (List.mem_cons_of_mem e he2) hdw2 hm
          · have h2 : e2.transaction_id = e.transaction_id := by simpa using hm
            exact hnotin (h2 ▸ mem_dwIds he2 hdw2)
        have hih := ih (process s e).1 (k + 1) (ids ++ [e.transaction_id])
          hstep.1 (by omega)
          (fun e2 he2 => hAmts e2 (List.mem_cons_of_mem e he2))
          hfresh2 hndtail hBtail
        constructor
        · have hidseq : (ids ++ [e.transaction_id]) ++ dwIds es =
              ids ++ dwIds (e :: es) := by
            rw [hdwc, List.append_assoc]
            rfl
          rw [← hkeq, ← hidseq]
          exact hih.1
        · have hd := depositsOk_cons s e es
          have hw := withdrawalsOk_cons s e es
          have hdr := disputeRestores_cons s e es
          have hcr := chargebackRemovals_cons s e es
          have h2 := hih.2
          have h1 := hstep.2
          show accountsTotal (processAll (process s e).1 es).accounts = _
          rw [hd, hw, hdr, hcr]
          linarith [h1, h2]
      · by_cases hwd : e.transaction_type = "withdrawal"
        · have hdw : e.transaction_type = "deposit" ∨
              e.transaction_type = "withdrawal" := Or.inr hwd
          have hstep := audit_step_withdrawal s e A k ids hInv hA hk
            (hAmts e (List.mem_cons_self e es)) hwd
            (hfresh e (List.mem_cons_self e es) hdw) hB1
          have hdwc := dwIds_cons_dw hdw es
          have hndtail : (dwIds es).Nodup := by
            rw [hdwc] at hnd
            exact hnd.of_cons
          have hnotin : e.transaction_id ∉ dwIds es := by
            rw [hdwc] at hnd
            exact (List.nodup_cons.mp hnd).1
          have hfresh2 : ∀ e2 ∈ es, e2.transaction_type = "deposit" ∨
              e2.transaction_type = "withdrawal" →
              e2.transaction_id ∉ ids ++ [e.transaction_id] := by
            intro e2 he2 hdw2 hmem
            rcases List.mem_append.mp hmem with hm | hm
            · exact hfresh e2 (List.mem_cons_of_mem e he2) hdw2 hm
            · have h2 : e2.transaction_id = e.transaction_id := by simpa using hm
              exact hnotin (h2 ▸ mem_dwIds he2 hdw2)
          have hih := ih (process s e).1 (k + 1) (ids ++ [e.transaction_id])
            hstep.1 (by omega)
            (fun e2 he2 => hAmts e2 (List.mem_cons_of_mem e he2))
            hfresh2 hndtail hBtail
          constructor
          · have hidseq : (ids ++ [e.transaction_id]) ++ dwIds es =
                ids ++ dwIds (e :: es) := by
              rw [hdwc, List.append_assoc]
              rfl
            rw [← hkeq, ← hidseq]
            exact hih.1
          · have hd := depositsOk_cons s e es
            have hw := withdrawalsOk_cons s e es
            have hdr := disputeRestores_cons s e es
            have hcr := chargebackRemovals_cons s e es
            have h2 := hih.2
            have h1 := hstep.2
            show accountsTotal (processAll (process s e).1 es).accounts = _
            rw [hd, hw, hdr, hcr]
            linarith [h1, h2]
        · have hdwc := dwIds_cons_other hdep hwd es
          have hndtail : (dwIds es).Nodup := by
            rw [hdwc] at hnd
            exact hnd
          have hfresh2 : ∀ e2 ∈ es, e2.transaction_type = "deposit" ∨
              e2.transaction_type = "withdrawal" → e2.transaction_id ∉ ids :=
            fun e2 he2 => hfresh e2 (List.mem_cons_of_mem e he2)
          have hAmts2 : ∀ e2 ∈ es, ∀ a, e2.amount = some a → a ≤ A :=
            fun e2 he2 => hAmts e2 (List.mem_cons_of_mem e he2)
          have hstep : AuditInv A (k + 1) ids (process s e).1 ∧
              accountsTotal (process s e).1.accounts =
                accountsTotal s.accounts +
                  (depositsOk s [e] - withdrawalsOk s [e] + disputeRestores s [e]
                    - chargebackRemovals s [e]) := by
            by_cases hdis : e.transaction_type = "dispute"
            · exact audit_step_dispute s e A k ids hInv hA hk hdis hB1
            · by_cases hres : e.transaction_type = "resolve"
              · exact audit_step_resolve s e A k ids hInv hA hk hres hB1
              · by_cases hcb : e.transaction_type = "chargeback"
                · exact audit_step_chargeback s e A k ids hInv hA hk hcb hB1
                · have htf := tryFromEntry_invalid hdep hwd hdis hres hcb
                  have hps := process_decode_fail htf s
                  have herr : (process s e).2 ≠ none := by rw [hps]; simp
                  refine ⟨?_, ?_⟩
                  · rw [hps]
                    exact auditInv_step_noop hInv hA (fun t ht => ht)
                  · rw [delta_zero_of_err herr, hps]
                    dsimp only
                    omega
          have hih := ih (process s e).1 (k + 1) ids hstep.1 (by omega)
            hAmts2 hfresh2 hndtail hBtail
          constructor
          · rw [hdwc, ← hkeq]
            exact hih.1
          · have hd := depositsOk_cons s e es
            have hw := withdrawalsOk_cons s e es
            have hdr := disputeRestores_cons s e es
            have hcr := chargebackRemovals_cons s e es
            have h2 := hih.2
            have h1 := hstep.2
            show accountsTotal (processAll (process s e).1 es).accounts = _
            rw [hd, hw, hdr, hcr]
            linarith [h1, h2]

set_option maxRecDepth 8192 in
/-- C4 counterexample: on the stream deposit(1,1,100); withdrawal(1,2,30);
dispute(1,2) the total of (available + held) over all accounts is 100,
while the claimed formula (successful deposits − successful withdrawals
+ chargedback withdrawals − chargedback deposits) yields 70: disputing a
withdrawal record re-credits and holds its amount, which the claimed
formula does not account for. -/
theorem global_audit_original_fails :
    accountsTotal (processAll emptyState
      [{ transaction_type := "deposit", client_id := 1, transaction_id := 1,
         amount := some 100 },
       { transaction_type := "withdrawal", client_id := 1, transaction_id := 2,
         amount := some 30 },
       { transaction_type := "dispute", client_id := 1, transaction_id := 2,
         amount := none }]).accounts = 100 ∧
    (depositsOk emptyState
      [{ transaction_type := "deposit", client_id := 1, transaction_id := 1,
         amount := some 100 },
       { transaction_type := "withdrawal", client_id := 1, transaction_id := 2,
         amount := some 30 },
       { transaction_type := "dispute", client_id := 1, transaction_id := 2,
         amount := none }]
     - withdrawalsOk emptyState
      [{ transaction_type := "deposit", client_id := 1, transaction_id := 1,
         amount := some 100 },
       { transaction_type := "withdrawal", client_id := 1, transaction_id := 2,
         amount := some 30 },
       { transaction_type := "dispute", client_id := 1, transaction_id := 2,
         amount := none }]
     + chargedbackSum (processAll emptyState
      [{ transaction_type := "deposit", client_id := 1, transaction_id := 1,
         amount := some 100 },
       { transaction_type := "withdrawal", client_id := 1, transaction_id := 2,
         amount := some 30 },
       { transaction_type := "dispute", client_id := 1, transaction_id := 2,
         amount := none }]).history TransactionInfoType.Withdrawal
     - chargedbackSum (processAll emptyState
      [{ transaction_type := "deposit", client_id := 1, transaction_id := 1,
         amount := some 100 },
       { transaction_type := "withdrawal", client_id := 1, transaction_id := 2,
         amount := some 30 },
       { transaction_type := "dispute", client_id := 1, transaction_id := 2,
         amount := none }]).history TransactionInfoType.Deposit) = 70 ∧
    (100 : Int) ≠ 70 := by
  refine ⟨by decide, by decide, by decide⟩

set_option maxRecDepth 8192 in
/-- C4 (amended): starting from empty stores, for any event stream whose
deposit/withdrawal events carry pairwise distinct transaction ids and
amounts bounded by `A`, with `|es| · A` within the decimal range, the sum
of (available + held) over all accounts equals successful deposits −
successful withdrawals + amounts restored by successful disputes of
withdrawal records − amounts removed by successful chargebacks. -/
theorem global_audit_identity (es : List TransactionLogEntry) (A : Int) (hA : 0 ≤ A)
    (hAmts : ∀ e ∈ es, ∀ a, e.amount = some a → a ≤ A)
    (hnd : (dwIds es).Nodup)
    (hBound : (es.length : Int) * A ≤ decMax) :
    accountsTotal (processAll emptyState es).accounts =
      depositsOk emptyState es - withdrawalsOk emptyState es
        + disputeRestores emptyState es - chargebackRemovals emptyState es := by
  have h0 : AuditInv A 0 [] emptyState := by
    refine ⟨⟨List.nodup_nil, ?_, ?_⟩, ?_, ?_⟩
    · intro p hp
      exact absurd hp (List.not_mem_nil p)
    · show (0 : Int) ≤ 0 * A
      simp
    · intro p hp
      exact absurd hp (List.not_mem_nil p)
    · intro p hp
      exact absurd hp (List.not_mem_nil p)
  have hB : (0 + (es.length : Int)) * A ≤ decMax := by
    rw [zero_add]
    exact hBound
  have hm := audit_main A hA es emptyState 0 [] h0 le_rfl hAmts
    (fun e _ _ hmem => absurd hmem (List.not_mem_nil e.transaction_id)) hnd hB
  have h2 := hm.2
  have h3 : accountsTotal emptyState.accounts = 0 := rfl
  rw [h3] at h2
  linarith

set_option maxRecDepth 8192 in
/-- C4 witness: the amended identity instantiated on the S5 stream
deposit(1,1,100); withdrawal(1,2,30); dispute(1,2); resolve(1,2) with
bound A = 100 (total 100 = 100 − 30 + 30 − 0). -/
theorem global_audit_identity_witness :
    accountsTotal (processAll emptyState
      [{ transaction_type := "deposit", client_id := 1, transaction_id := 1,
         amount := some 100 },
       { transaction_type := "withdrawal", client_id := 1, transaction_id := 2,
         amount := some 30 },
       { transaction_type := "dispute", client_id := 1, transaction_id := 2,
         amount := none },
       { transaction_type := "resolve", client_id := 1, transaction_id := 2,
         amount := none }]).accounts =
      depositsOk emptyState
        [{ transaction_type := "deposit", client_id := 1, transaction_id := 1,
           amount := some 100 },
         { transaction_type := "withdrawal", client_id := 1, transaction_id := 2,
           amount := some 30 },
         { transaction_type := "dispute", client_id := 1, transaction_id := 2,
           amount := none },
         { transaction_type := "resolve", client_id := 1, transaction_id := 2,
           amount := none }]
      - withdrawalsOk emptyState
        [{ transaction_type := "deposit", client_id := 1, transaction_id := 1,
           amount := some 100 },
         { transaction_type := "withdrawal", client_id := 1, transaction_id := 2,
           amount := some 30 },
         { transaction_type := "dispute", client_id := 1, transaction_id := 2,
           amount := none },
         { transaction_type := "resolve", client_id := 1, transaction_id := 2,
           amount := none }]
      + disputeRestores emptyState
        [{ transaction_type := "deposit", client_id := 1, transaction_id := 1,
           amount := some 100 },
         { transaction_type := "withdrawal", client_id := 1, transaction_id := 2,
           amount := some 30 },
         { transaction_type := "dispute", client_id := 1, transaction_id := 2,
           amount := none },
         { transaction_type := "resolve", client_id := 1, transaction_id := 2,
           amount := none }]
      - chargebackRemovals emptyState
        [{ transaction_type := "deposit", client_id := 1, transaction_id := 1,
           amount := some 100 },
         { transaction_type := "withdrawal", client_id := 1, transaction_id := 2,
           amount := some 30 },
         { transaction_type := "dispute", client_id := 1, transaction_id := 2,
           amount := none },
         { transaction_type := "resolve", client_id := 1, transaction_id := 2,
           amount := none }] :=
  global_audit_identity
    [{ transaction_type := "deposit", client_id := 1, transaction_id := 1,
       amount := some 100 },
     { transaction_type := "withdrawal", client_id := 1, transaction_id := 2,
       amount := some 30 },
     { transaction_type := "dispute", client_id := 1, transaction_id := 2,
       amount := none },
     { transaction_type := "resolve", client_id := 1, transaction_id := 2,
       amount := none }] 100 (by decide)
    (by
      intro e he a ha
      simp only [List.mem_cons, List.not_mem_nil, or_false] at he
      rcases he with rfl | rfl | rfl | rfl
      · have h1 := Option.some.inj ha
        omega
      · have h1 := Option.some.inj ha
        omega
      · simp at ha
      · simp at ha)
    (by decide) (by decide)

end TxEngine
